import Mathlib

/-!
The dv-ros2 capture node: pacing clock, modality publishers, synchronization.

A shallow embedding of `dv_ros2_capture/src/Capture.cpp`.

* `int64_t` values are integers; every `+=` of the source goes through
  `wrapInt64`, so a result outside the 64-bit range is visible in the model.
* A thread body is a function on an explicit state; what the thread reads from
  other threads or from the device on each iteration (the `m_synchronized`
  flag, `isConnected()`, `get_subscription_count()`, the answers of
  `m_reader.getNext...()`) is an explicit input.
* A null `CameraCapture` pointer is `none`; dereferencing it makes the
  function return `none`.
-/

namespace DvRos2

/-! 64-bit integers -/

/-- Largest `int64_t`, `std::numeric_limits<int64_t>::max()`. -/
def INT64_MAX : Int := 9223372036854775807

/-- Smallest `int64_t`. -/
def INT64_MIN : Int := -9223372036854775808

/-- Two's-complement reduction of an integer to the `int64_t` range. -/
def wrapInt64 (x : Int) : Int := (x + 9223372036854775808) % 18446744073709551616 - 9223372036854775808

/-- Membership in the `int64_t` range. -/
def fitsInt64 (x : Int) : Prop := INT64_MIN ≤ x ∧ x ≤ INT64_MAX

instance (x : Int) : Decidable (fitsInt64 x) := by
  unfold fitsInt64
  exact inferInstance

/-! Synchronization state (`startCapture`, `synchronizationThread`, `synchronizeCamera`) -/

/-- The part of `dv::io::CameraCapture` the synchronization code reads and writes. -/
structure LiveCapture where
  cameraName : String
  masterCamera : Bool
  running : Bool
  timestampOffset : Int
  deriving DecidableEq, Repr

/-- The fields of `Capture` used by the synchronization code:
`m_reader.getCameraCapturePtr()` (null for a recording) and `m_synchronized`. -/
structure SyncState where
  liveCapture : Option LiveCapture
  synchronized : Bool
  deriving DecidableEq, Repr

/-- Request of the `SynchronizeCamera` service. -/
structure SyncRequest where
  timestamp_offset : Int
  master_camera_name : String
  deriving DecidableEq, Repr

/-- Response of the `SynchronizeCamera` service. -/
structure SyncResponse where
  camera_name : String
  success : Bool
  deriving DecidableEq, Repr

/-- `Capture::startCapture`, lines 830-839: a live capture starts unsynchronized
and gets a synchronization thread (second component `true`); a recording is
synchronized at once and gets none. -/
def startCapture (st : SyncState) : SyncState × Bool :=
  match st.liveCapture with
  | some _ => ({ st with synchronized := false }, true)
  | none => ({ st with synchronized := true }, false)

/-- `Capture::synchronizationThread` up to the point where the slave branch enters
its waiting loop (the loop itself only sleeps and logs). The master branch is
taken at the point where `discoverSyncDevices` and `sendSyncCalls` have returned.
`liveCapture->isMasterCamera()` on a null pointer gives `none`. -/
def synchronizationThread (waitForSync : Bool) (st : SyncState) : Option SyncState :=
  match st.liveCapture with
  | none => none
  | some cam =>
    if cam.masterCamera then
      some { st with synchronized := true }
    else if waitForSync then
      some { st with synchronized := true }
    else
      some st

/-- `Capture::synchronizeCamera`. `rsp->success` starts as `false`; the test
`if (!liveCapture)` only logs (its `return` is commented out), so the next
statement dereferences the pointer. -/
def synchronizeCamera (st : SyncState) (req : SyncRequest) : Option (SyncResponse × SyncState) :=
  match st.liveCapture with
  | none => none
  | some cam =>
    if cam.running && cam.masterCamera then
      some ({ camera_name := cam.cameraName, success := true },
            { liveCapture := some { cam with timestampOffset := req.timestamp_offset },
              synchronized := true })
    else
      some ({ camera_name := "", success := false }, st)

/-- The modality switches of `m_params` read by the clock. -/
structure Params where
  frames : Bool
  events : Bool
  triggers : Bool
  imu : Bool
  deriving DecidableEq, Repr

/-- Modelled from the spec: the type of the delivery queues (`m_frame_queue`,
`m_events_queue`, `m_trigger_queue`, `m_imu_queue`) is declared in `Capture.hpp`,
which is not among the sources. Following the data model ("FIFO of timestamps",
"not size-capped") a queue is a list of horizons, oldest first. -/
abbrev DeliveryQueue := List Int

/-- Modelled from the spec: `push` on a delivery queue appends at the back. -/
def DeliveryQueue.push (q : DeliveryQueue) (horizon : Int) : DeliveryQueue := q ++ [horizon]

/-- Locals of `Capture::clock` (`start` is the horizon) together with the four
delivery queues and the run-flag `m_spin_thread`. -/
structure ClockState where
  start : Int
  endTime : Int
  timeIncrement : Int
  frameQueue : DeliveryQueue
  eventsQueue : DeliveryQueue
  triggerQueue : DeliveryQueue
  imuQueue : DeliveryQueue
  spin : Bool
  deriving DecidableEq, Repr

/-- Lines 903-909 of `Capture::clock`: the sentinel `start == -1` selects the
unbounded mode. Queues start empty and the run-flag is set. -/
def clockInit (start endTime timeIncrement : Int) : ClockState :=
  if start = -1 then
    { start := INT64_MAX - 1, endTime := INT64_MAX, timeIncrement := 0,
      frameQueue := [], eventsQueue := [], triggerQueue := [], imuQueue := [], spin := true }
  else
    { start := start, endTime := endTime, timeIncrement := timeIncrement,
      frameQueue := [], eventsQueue := [], triggerQueue := [], imuQueue := [], spin := true }

/-- What one iteration of the clock loop reads from outside: `m_synchronized`
and `m_reader.isConnected()`. -/
structure TickInput where
  synchronized : Bool
  connected : Bool
  deriving DecidableEq, Repr

/-- One iteration of `while (m_spin_thread)` in `Capture::clock`, lines 913-939:
the pushes and the advance when synchronized, then (after the sleep) the test
that clears the run-flag. -/
def clockTick (p : Params) (i : TickInput) (s : ClockState) : ClockState :=
  let s1 : ClockState :=
    if i.synchronized then
      { s with
        frameQueue := if p.frames then DeliveryQueue.push s.frameQueue s.start else s.frameQueue
        eventsQueue := if p.events then DeliveryQueue.push s.eventsQueue s.start else s.eventsQueue
        triggerQueue :=
          if p.triggers then DeliveryQueue.push s.triggerQueue s.start else s.triggerQueue
        imuQueue := if p.imu then DeliveryQueue.push s.imuQueue s.start else s.imuQueue
        start := wrapInt64 (s.start + s.timeIncrement) }
    else s
  if s1.start ≥ s1.endTime || !i.connected then { s1 with spin := false } else s1

/-- The clock loop over the readings of successive iterations: it runs while
`m_spin_thread` holds; the end of the list is the end of the observation. -/
def clockRun (p : Params) : List TickInput → ClockState → ClockState
  | [], s => s
  | i :: rest, s => if s.spin then clockRun p rest (clockTick p i s) else s

/-! Modality publishers (`framePublisher`, `imuPublisher`, `eventsPublisher`, `triggerPublisher`) -/

/-- Frame of the capture SDK (`dv::Frame`): timestamp in microseconds and pixel data. -/
structure Frame where
  timestamp : Int
  image : List Nat
  deriving DecidableEq, Repr

/-- Event of the capture SDK (`dv::Event`). -/
structure Event where
  timestamp : Int
  x : Int
  y : Int
  polarity : Bool
  deriving DecidableEq, Repr

/-- Event batch (`dv::EventStore`), in storage order. -/
abbrev EventStore := List Event

/-- IMU sample of the capture SDK (`dv::IMU`); `R` stands for `float`. -/
structure IMU (R : Type) where
  timestamp : Int
  accelerometerX : R
  accelerometerY : R
  accelerometerZ : R
  gyroscopeX : R
  gyroscopeY : R
  gyroscopeZ : R
  deriving DecidableEq, Repr

/-- Trigger sample of the capture SDK (`dv::Trigger`). -/
structure Trigger where
  timestamp : Int
  type : Int
  deriving DecidableEq, Repr

/-- `dv::EventStore::getHighestTime()`: timestamp of the last stored event, `0` for
an empty store (SDK behaviour). -/
def getHighestTime (s : EventStore) : Int :=
  match s.getLast? with
  | some e => e.timestamp
  | none => 0

/-- `imuData->back().timestamp`; only evaluated on a non-empty batch. -/
def imuBackTimestamp {R : Type} (b : List (IMU R)) : Int :=
  match b.getLast? with
  | some s => s.timestamp
  | none => 0

/-- `triggerData->back().timestamp`; only evaluated on a non-empty batch. -/
def triggerBackTimestamp (b : List Trigger) : Int :=
  match b.getLast? with
  | some s => s.timestamp
  | none => 0

/-- State of one publisher thread. `held` is the `std::optional` local of the
thread, `reader` the answers `m_reader.getNext...()` is going to give to this
thread (oldest first, `none` for `std::nullopt`; once the list is used up the
reader answers `std::nullopt`), `published` the samples handed to the message
conversion and then to `publish`, oldest first, `currentSeek` the last value this
thread wrote to `m_current_seek`, `polls` the number of
`get_subscription_count()` reads so far and `aux` the state of the noise filter
(events only). -/
structure Publisher (β μ σ : Type) where
  held : Option β
  reader : List (Option β)
  published : List μ
  currentSeek : Int
  polls : Nat
  aux : σ

/-- What distinguishes the four publisher threads.
`hasData b` is `!b.empty()` (constantly `true` for a frame), `lastTimestamp b` the
timestamp compared with the horizon, and `handle subscribed aux b` the body of the
inner `while` up to the next pull: the samples published, the value stored in
`m_current_seek` and the new noise-filter state. -/
structure Modality (β μ σ : Type) where
  hasData : β → Bool
  lastTimestamp : β → Int
  handle : Bool → σ → β → List μ × Int × σ

/-- One `m_reader.getNext...()` call. -/
def pullNext {β : Type} : List (Option β) → Option β × List (Option β)
  | [] => (none, [])
  | r :: rest => (r, rest)

/-- The inner loop `while (held.has_value() && !held->empty() && timestamp >= last)`
of a publisher. `subs k` is the answer of the `k`-th `get_subscription_count() > 0`
test. Each iteration ends with a pull that replaces `held`. -/
def drainLoop {β μ σ : Type} (m : Modality β μ σ) (subs : Nat → Bool) (timestamp : Int) :
    List (Option β) → Option β → List μ → Int → Nat → σ → Publisher β μ σ
  | reader, none, out, seek, polls, aux =>
    { held := none, reader := reader, published := out, currentSeek := seek, polls := polls,
      aux := aux }
  | [], some b, out, seek, polls, aux =>
    if m.hasData b && decide (timestamp ≥ m.lastTimestamp b) then
      { held := none, reader := [], published := out ++ (m.handle (subs polls) aux b).1,
        currentSeek := (m.handle (subs polls) aux b).2.1, polls := polls + 1,
        aux := (m.handle (subs polls) aux b).2.2 }
    else
      { held := some b, reader := [], published := out, currentSeek := seek, polls := polls,
        aux := aux }
  | r :: rest, some b, out, seek, polls, aux =>
    if m.hasData b && decide (timestamp ≥ m.lastTimestamp b) then
      drainLoop m subs timestamp rest r (out ++ (m.handle (subs polls) aux b).1)
        (m.handle (subs polls) aux b).2.1 (polls + 1) (m.handle (subs polls) aux b).2.2
    else
      { held := some b, reader := r :: rest, published := out, currentSeek := seek,
        polls := polls, aux := aux }

/-- The first statement of the callback: `if (!held.has_value()) held = m_reader.getNext...()`.
The result is the held batch and the rest of the reader's answers. -/
def pullIfEmpty {β μ σ : Type} (p : Publisher β μ σ) : Option β × List (Option β) :=
  match p.held with
  | none => pullNext p.reader
  | some b => (some b, p.reader)

/-- The last statement of the callback:
`if (held.has_value() && held->empty()) held = std::nullopt`. -/
def discardEmpty {β μ σ : Type} (m : Modality β μ σ) (q : Publisher β μ σ) : Publisher β μ σ :=
  match q.held with
  | some b => if m.hasData b then q else { q with held := none }
  | none => q

/-- The callback given to `consume_all`, run for one dequeued horizon `timestamp`:
pull if nothing is held, drain, then drop a held batch that is empty. -/
def onHorizon {β μ σ : Type} (m : Modality β μ σ) (subs : Nat → Bool) (timestamp : Int)
    (p : Publisher β μ σ) : Publisher β μ σ :=
  discardEmpty m
    (drainLoop m subs timestamp (pullIfEmpty p).2 (pullIfEmpty p).1 p.published p.currentSeek
      p.polls p.aux)

/-- A publisher thread over the horizons it dequeues, in order. -/
def runPublisher {β μ σ : Type} (m : Modality β μ σ) (subs : Nat → Bool)
    (horizons : List Int) (p : Publisher β μ σ) : Publisher β μ σ :=
  horizons.foldl (fun q h => onHorizon m subs h q) p

/-- A publisher thread at its start: nothing held, nothing published. -/
def Publisher.init {β μ σ : Type} (reader : List (Option β)) (aux : σ) : Publisher β μ σ :=
  { held := none, reader := reader, published := [], currentSeek := 0, polls := 0, aux := aux }

/-- Hooks of `Capture::framePublisher`, lines 1317-1329. The thread holds a single
frame and has no emptiness test: `hasData` is constantly `true`, which also makes
`discardEmpty` the identity for this thread. -/
def frameModality : Modality Frame Frame Unit :=
  { hasData := fun _ => true
    lastTimestamp := fun f => f.timestamp
    handle := fun subscribed _ f => (if subscribed then [f] else [], f.timestamp, ()) }

/-- The `for (auto &imu : *imuData)` loop of `imuPublisher`: the offset is added to
the stored sample itself. -/
def shiftImu {R : Type} (offset : Int) (s : IMU R) : IMU R :=
  { s with timestamp := wrapInt64 (s.timestamp + offset) }

/-- Hooks of `Capture::imuPublisher`, lines 1350-1364, for `m_imu_time_offset = offset`.
With a subscriber the batch is shifted in place before `m_current_seek` is read. -/
def imuModality {R : Type} (offset : Int) : Modality (List (IMU R)) (IMU R) Unit :=
  { hasData := fun b => !b.isEmpty
    lastTimestamp := imuBackTimestamp
    handle := fun subscribed _ b =>
      if subscribed then (b.map (shiftImu offset), imuBackTimestamp (b.map (shiftImu offset)), ())
      else ([], imuBackTimestamp b, ()) }

/-- Hooks of `Capture::eventsPublisher`, lines 1393-1415. `filter` is
`m_noise_filter` (`none` for a null pointer); `accept` followed by
`generateEvents` is one function on the filter state. One message is published
per batch. -/
def eventsModality {σ : Type} (filter : Option (σ → EventStore → EventStore × σ)) :
    Modality EventStore EventStore σ :=
  { hasData := fun b => !b.isEmpty
    lastTimestamp := getHighestTime
    handle := fun subscribed aux b =>
      match filter with
      | some f => (if subscribed then [(f aux b).1] else [], getHighestTime (f aux b).1, (f aux b).2)
      | none => (if subscribed then [b] else [], getHighestTime b, aux) }

/-- Hooks of `Capture::triggerPublisher`, lines 1441-1454. -/
def triggerModality : Modality (List Trigger) Trigger Unit :=
  { hasData := fun b => !b.isEmpty
    lastTimestamp := triggerBackTimestamp
    handle := fun subscribed _ b => (if subscribed then b else [], triggerBackTimestamp b, ()) }

/-- `Capture::framePublisher` over the horizons it dequeues. -/
def framePublisher (subs : Nat → Bool) (horizons : List Int)
    (p : Publisher Frame Frame Unit) : Publisher Frame Frame Unit :=
  runPublisher frameModality subs horizons p

/-- `Capture::imuPublisher` over the horizons it dequeues. -/
def imuPublisher {R : Type} (offset : Int) (subs : Nat → Bool) (horizons : List Int)
    (p : Publisher (List (IMU R)) (IMU R) Unit) : Publisher (List (IMU R)) (IMU R) Unit :=
  runPublisher (imuModality offset) subs horizons p

/-- `Capture::eventsPublisher` over the horizons it dequeues. -/
def eventsPublisher {σ : Type} (filter : Option (σ → EventStore → EventStore × σ))
    (subs : Nat → Bool) (horizons : List Int)
    (p : Publisher EventStore EventStore σ) : Publisher EventStore EventStore σ :=
  runPublisher (eventsModality filter) subs horizons p

/-- `Capture::triggerPublisher` over the horizons it dequeues. -/
def triggerPublisher (subs : Nat → Bool) (horizons : List Int)
    (p : Publisher (List Trigger) Trigger Unit) : Publisher (List Trigger) Trigger Unit :=
  runPublisher triggerModality subs horizons p

/-- A batch whose last sample carries the largest timestamp, as the sample source
delivers them (timestamp order inside a batch). -/
def lastIsLatest {α : Type} (ts : α → Int) (b : List α) : Prop :=
  ∀ x ∈ b, ∀ l, b.getLast? = some l → ts x ≤ ts l

/-! Predicates used in the statements -/

/-- State of the clock in unbounded mode: the horizon stays one below the
largest value and every queued horizon equals it. -/
def unboundedInv (s : ClockState) : Prop :=
  s.start = INT64_MAX - 1 ∧ s.endTime = INT64_MAX ∧ s.timeIncrement = 0 ∧
  (∀ h ∈ s.frameQueue, h = INT64_MAX - 1) ∧ (∀ h ∈ s.eventsQueue, h = INT64_MAX - 1) ∧
  (∀ h ∈ s.triggerQueue, h = INT64_MAX - 1) ∧ (∀ h ∈ s.imuQueue, h = INT64_MAX - 1)

/-- The horizons `start, start + inc, ..., start + (n - 1) * inc`. -/
def horizonRamp (start inc : Int) (n : Nat) : List Int :=
  (List.range n).map (fun (k : Nat) => start + (k : Int) * inc)

/-- State of the clock in bounded mode after `n` pushes: the horizon is
`start + n * inc`, every enabled queue holds the first `n` horizons of the ramp,
and a loop that is still running after a push has its horizon below `end`. -/
def boundedInv (p : Params) (start endTime inc : Int) (n : Nat) (s : ClockState) : Prop :=
  s.start = start + (n : Int) * inc ∧ s.endTime = endTime ∧ s.timeIncrement = inc ∧
  s.frameQueue = (if p.frames then horizonRamp start inc n else []) ∧
  s.eventsQueue = (if p.events then horizonRamp start inc n else []) ∧
  s.triggerQueue = (if p.triggers then horizonRamp start inc n else []) ∧
  s.imuQueue = (if p.imu then horizonRamp start inc n else []) ∧
  (s.spin = true → n = 0 ∨ s.start < endTime)

/-- The batches among the reader's answers `l` that carry data, in pull order. -/
def pulledBatches {β μ σ : Type} (m : Modality β μ σ) (l : List (Option β)) : List β :=
  (l.filterMap id).filter m.hasData

/-! Master discovery (`discoverSyncDevices`, `sendSyncCalls`) -/

/-- `std::string(s.c_str())`: the characters of `s` before its first NUL. -/
def cStr (s : String) : String :=
  String.mk (s.data.takeWhile (fun c => c != Char.ofNat 0))

/-- The fields of a `CameraDiscovery` presence message that discovery reads. -/
structure CameraDiscovery where
  name : String
  is_master : Bool
  sync_service_topic : String
  deriving DecidableEq, Repr

/-- The local `DiscoveryContext` of `discoverSyncDevices`. `serviceNames` is the
`std::map` from camera name to sync endpoint as a list of entries with distinct
keys, in the order of insertion (the iteration order of the map is not
modelled). -/
structure DiscoveryContext where
  serviceNames : List (String × String)
  complete : Bool
  deviceList : List String
  deriving DecidableEq, Repr

/-- The context at the start of discovery (lines 1015-1017). -/
def DiscoveryContext.init (syncDeviceList : List String) : DiscoveryContext :=
  { serviceNames := [], complete := false, deviceList := syncDeviceList }

/-- `DiscoveryContext::handleMessage`, lines 996-1012. -/
def DiscoveryContext.handleMessage (ctx : DiscoveryContext) (message : CameraDiscovery) :
    DiscoveryContext :=
  if ctx.serviceNames.any (fun e => e.1 == cStr message.name) then ctx
  else if cStr message.name ∈ ctx.deviceList then
    { ctx with
      serviceNames := ctx.serviceNames ++ [(cStr message.name, cStr message.sync_service_topic)]
      complete :=
        if (ctx.serviceNames ++ [(cStr message.name, cStr message.sync_service_topic)]).length
            = ctx.deviceList.length then true
        else ctx.complete }
  else ctx

/-- The context after the presence messages `msgs`, handled in order. -/
def handleMessages (ctx : DiscoveryContext) (msgs : List CameraDiscovery) : DiscoveryContext :=
  msgs.foldl DiscoveryContext.handleMessage ctx

/-- What one test of the waiting loop of `discoverSyncDevices` sees: the run-flag
and the presence messages handled since the previous test. -/
structure DiscoveryPoll where
  spin : Bool
  arrived : List CameraDiscovery
  deriving DecidableEq, Repr

/-- The loop `while (m_spin_thread && !context.complete) sleep(1ms)`, lines 1021-1024.
`none`: the loop is still waiting when the observation ends. -/
def discoveryLoop : List DiscoveryPoll → DiscoveryContext → Option DiscoveryContext
  | [], _ => none
  | p :: rest, ctx =>
    if p.spin && !(handleMessages ctx p.arrived).complete then
      discoveryLoop rest (handleMessages ctx p.arrived)
    else some (handleMessages ctx p.arrived)

/-- `Capture::discoverSyncDevices`: the returned map, `none` while it blocks. -/
def discoverSyncDevices (syncDeviceList : List String) (polls : List DiscoveryPoll) :
    Option (List (String × String)) :=
  if syncDeviceList.isEmpty || syncDeviceList.head? == some "" then some []
  else (discoveryLoop polls (DiscoveryContext.init syncDeviceList)).map (fun c => c.serviceNames)

/-- `Capture::sendSyncCalls`: the synchronization requests sent, each with the
service it is sent to. An entry with an empty endpoint is logged and skipped.
The code walks the `std::map` in key order; the list here keeps the order of
its entries, so only which requests are sent is modelled, not their order. -/
def sendSyncCalls (liveCapture : Option LiveCapture) (serviceNames : List (String × String)) :
    List (String × SyncRequest) :=
  if serviceNames.isEmpty then []
  else
    match liveCapture with
    | none => []
    | some cam =>
      (serviceNames.filter (fun e => !e.2.isEmpty)).map
        (fun e => (e.2, { timestamp_offset := cam.timestampOffset,
                          master_camera_name := cam.cameraName }))

/-- The sync endpoint advertised by the first message of `msgs` sent under `name`. -/
def firstEndpoint (msgs : List CameraDiscovery) (name : String) : Option String :=
  (msgs.find? (fun m => cStr m.name == name)).map (fun m => cStr m.sync_service_topic)

/-- What ties a discovery context to the messages `msgs` it has handled. -/
def discoveryInv (dl : List String) (msgs : List CameraDiscovery) (ctx : DiscoveryContext) :
    Prop :=
  ctx.deviceList = dl ∧
  (ctx.serviceNames.map Prod.fst).Nodup ∧
  (∀ e ∈ ctx.serviceNames, e.1 ∈ dl ∧ firstEndpoint msgs e.1 = some e.2) ∧
  (∀ m ∈ msgs, cStr m.name ∈ dl → cStr m.name ∈ ctx.serviceNames.map Prod.fst) ∧
  (ctx.complete = true → ctx.serviceNames.length = dl.length) ∧
  (ctx.serviceNames.length = dl.length → dl ≠ [] → ctx.complete = true)
/-! Calibration state (`populateInfoMsg`, `updateCalibrationSet`, `saveCalibration`,
`setCameraInfo`, `setImuBiases`, `setImuInfo`)

`F` stands for `float` and `D` for `double`; what the code computes in floating
point is supplied by an `Sdk` record and is not interpreted. -/

/-- Three components `x`, `y`, `z` (`Eigen::Vector3f`, `cv::Point3f`,
`geometry_msgs::msg::Vector3`). -/
structure Vec3 (α : Type) where
  x : α
  y : α
  z : α
  deriving DecidableEq, Repr

/-- Quaternion components (`geometry_msgs::msg::Quaternion`, `Eigen::Quaternion<float>`). -/
structure Quaternion (α : Type) where
  x : α
  y : α
  z : α
  w : α
  deriving DecidableEq, Repr

/-- `geometry_msgs::msg::Transform`. -/
structure Transform (D : Type) where
  translation : Vec3 D
  rotation : Quaternion D
  deriving DecidableEq, Repr

/-- `geometry_msgs::msg::TransformStamped` without its time stamp. -/
structure TransformStamped (D : Type) where
  frame_id : String
  child_frame_id : String
  transform : Transform D
  deriving DecidableEq, Repr

/-- `dv::kinematics::Transformationf`, represented by the arguments of the
constructor that built it: translation and rotation quaternion, or the sixteen
entries of a row-major 4x4 matrix. -/
inductive Transformationf (F : Type) where
  | ofQuaternion (translation : Vec3 F) (rotation : Quaternion F)
  | ofMatrix (rowMajor : List F)
  deriving DecidableEq, Repr

/-- `dv::camera::DistortionModel`; `other` stands for any further value of the
enumeration type. -/
inductive DistortionModel where
  | None
  | RadTan
  | Equidistant
  | other (code : Nat)
  deriving DecidableEq, Repr

/-- `sensor_msgs::distortion_models::PLUMB_BOB`. -/
def PLUMB_BOB : String := "plumb_bob"

/-- `sensor_msgs::distortion_models::EQUIDISTANT`. -/
def EQUIDISTANT : String := "equidistant"

/-- The fields of `sensor_msgs::msg::CameraInfo` the node writes. `k`, `r` and `p`
are the fixed-size arrays of 9, 9 and 12 doubles. -/
structure CameraInfo (D : Type) where
  width : Nat
  height : Nat
  distortion_model : String
  d : List D
  k : List D
  r : List D
  p : List D
  deriving DecidableEq, Repr

/-- What `populateInfoMsg` reads from a `dv::camera::CameraGeometry`. -/
structure CameraGeometry (F : Type) where
  resolutionWidth : Int
  resolutionHeight : Int
  distortion : List F
  distortionModel : DistortionModel
  centralPoint : F × F
  focalLength : F × F
  deriving DecidableEq, Repr

/-- The fields of `dv::camera::calibrations::CameraCalibration` the node writes. -/
structure CameraCalibration (F : Type) where
  name : String
  resolutionWidth : Int
  resolutionHeight : Int
  distortion : List F
  distortionModel : DistortionModel
  focalLength : F × F
  principalPoint : F × F
  transformationToC0 : List F
  deriving DecidableEq, Repr

/-- The fields of `dv::camera::calibrations::IMUCalibration` the node reads or writes. -/
structure IMUCalibration (F : Type) where
  name : String
  transformationToC0 : List F
  accOffsetAvg : Vec3 F
  omegaOffsetAvg : Vec3 F
  timeOffsetMicros : Int
  deriving DecidableEq, Repr

/-- `dv::camera::CalibrationSet`: its camera and IMU calibrations. Lookup is by
name and takes the first match; the designation keys of the SDK are not modelled. -/
structure CalibrationSet (F : Type) where
  cameras : List (CameraCalibration F)
  imus : List (IMUCalibration F)
  deriving DecidableEq, Repr

/-- What the capture SDK and the floating-point unit contribute: the conversions
between `float` and `double`, the constants 0 and 1, `Eigen`'s `isZero()` on a
`Vector3f`, the row-major matrix of a transformation built from a quaternion, and
the default-constructed calibrations. -/
structure Sdk (F D : Type) where
  widen : F → D
  narrow : D → F
  zeroF : F
  oneF : F
  zeroD : D
  oneD : D
  isZero : Vec3 F → Bool
  quaternionMatrix : Vec3 F → Quaternion F → List F
  defaultCamera : CameraCalibration F
  defaultImu : IMUCalibration F

/-- Conversion of an `int` to `uint32_t`. -/
def toUInt32 (x : Int) : Nat := (x % 4294967296).toNat

/-- The `static_cast<int>` of a `uint32_t`. -/
def toInt32 (n : Nat) : Int := ((n : Int) + 2147483648) % 4294967296 - 2147483648

/-- Replace the first element satisfying `p`. -/
def replaceFirst {α : Type} (p : α → Bool) (new : α) : List α → List α
  | [] => []
  | a :: rest => if p a then new :: rest else a :: replaceFirst p new rest

/-- `CalibrationSet::getCameraCalibrationByName`. -/
def CalibrationSet.getCameraCalibrationByName {F : Type} (c : CalibrationSet F) (name : String) :
    Option (CameraCalibration F) :=
  c.cameras.find? (fun e => e.name == name)

/-- `CalibrationSet::updateCameraCalibration`: the entry of the same name is replaced. -/
def CalibrationSet.updateCameraCalibration {F : Type} (c : CalibrationSet F)
    (calib : CameraCalibration F) : CalibrationSet F :=
  { c with cameras := replaceFirst (fun e => e.name == calib.name) calib c.cameras }

/-- `CalibrationSet::addCameraCalibration`. -/
def CalibrationSet.addCameraCalibration {F : Type} (c : CalibrationSet F)
    (calib : CameraCalibration F) : CalibrationSet F :=
  { c with cameras := c.cameras ++ [calib] }

/-- `CalibrationSet::getImuCalibrationByName`. -/
def CalibrationSet.getImuCalibrationByName {F : Type} (c : CalibrationSet F) (name : String) :
    Option (IMUCalibration F) :=
  c.imus.find? (fun e => e.name == name)

/-- `CalibrationSet::updateImuCalibration`: the entry of the same name is replaced. -/
def CalibrationSet.updateImuCalibration {F : Type} (c : CalibrationSet F)
    (calib : IMUCalibration F) : CalibrationSet F :=
  { c with imus := replaceFirst (fun e => e.name == calib.name) calib c.imus }

/-- `CalibrationSet::addImuCalibration`. -/
def CalibrationSet.addImuCalibration {F : Type} (c : CalibrationSet F)
    (calib : IMUCalibration F) : CalibrationSet F :=
  { c with imus := c.imus ++ [calib] }

/-- `Transformationf::getTransform().transpose()` read through `data()`: the
row-major entries of the transformation matrix. -/
def transformData {F D : Type} (sdk : Sdk F D) : Transformationf F → List F
  | .ofQuaternion t q => sdk.quaternionMatrix t q
  | .ofMatrix m => m

/-- The members of `Capture` used by the calibration code. `imuToCamTransform` is
`m_imu_to_cam_transform` (applied to IMU data), `imuToCamTransforms` is the
optional `m_imu_to_cam_transforms` message broadcast on the transform stream
(its list of transforms). -/
structure CalibState (F D : Type) where
  cameraName : String
  imuFrameName : String
  cameraFrameName : String
  unbiasedImuData : Bool
  cameraInfoMsg : CameraInfo D
  accBiases : Vec3 F
  gyroBiases : Vec3 F
  imuTimeOffset : Int
  imuToCamTransform : Transformationf F
  imuToCamTransforms : Option (List (TransformStamped D))
  calibration : CalibrationSet F
  deriving DecidableEq, Repr

/-- The coefficient list after `d.assign(...)` and `if (d.size() < 5) d.resize(5, 0.0)`. -/
def padToFive {D : Type} (zero : D) (d : List D) : List D :=
  if d.length < 5 then d ++ List.replicate (5 - d.length) zero else d

/-- `Capture::populateInfoMsg`, lines 652-695, as a function on `m_camera_info_msg`:
the message afterwards and the text of the exception, if one is thrown. Width
and height are written before the `switch`. -/
def populateInfoMsg {F D : Type} (sdk : Sdk F D) (msg : CameraInfo D)
    (cameraGeometry : CameraGeometry F) : CameraInfo D × Except String Unit :=
  let m1 : CameraInfo D :=
    { msg with width := toUInt32 cameraGeometry.resolutionWidth
               height := toUInt32 cameraGeometry.resolutionHeight }
  let cx := sdk.widen cameraGeometry.centralPoint.1
  let cy := sdk.widen cameraGeometry.centralPoint.2
  let fx := sdk.widen cameraGeometry.focalLength.1
  let fy := sdk.widen cameraGeometry.focalLength.2
  let o := sdk.zeroD
  let i := sdk.oneD
  let finish : CameraInfo D → CameraInfo D := fun m =>
    { m with k := [fx, o, cx, o, fy, cy, o, o, i]
             r := [i, o, o, o, i, o, o, o, i]
             p := [fx, o, cx, o, o, fy, cy, o, o, o, i, o] }
  match cameraGeometry.distortionModel with
  | .Equidistant =>
    (finish { m1 with distortion_model := EQUIDISTANT
                      d := cameraGeometry.distortion.map sdk.widen }, .ok ())
  | .RadTan =>
    (finish { m1 with distortion_model := PLUMB_BOB
                      d := padToFive o (cameraGeometry.distortion.map sdk.widen) }, .ok ())
  | .None =>
    (finish { m1 with distortion_model := PLUMB_BOB, d := [o, o, o, o, o] }, .ok ())
  | .other _ => (m1, .error "Unsupported camera distortion model.")

/-- The camera calibration that `updateCalibrationSet` builds (lines 730-761): the
existing entry of this camera or a default-constructed one with the camera name,
with resolution, distortion, focal length, principal point and transformation
overwritten from `m_camera_info_msg`. The distortion model is passed in. -/
def cameraCalibrationFromInfo {F D : Type} (sdk : Sdk F D) (n : CalibState F D)
    (model : DistortionModel) : CameraCalibration F :=
  let base : CameraCalibration F :=
    match n.calibration.getCameraCalibrationByName n.cameraName with
    | some c => c
    | none => { sdk.defaultCamera with name := n.cameraName }
  { base with
    resolutionWidth := toInt32 n.cameraInfoMsg.width
    resolutionHeight := toInt32 n.cameraInfoMsg.height
    distortion := n.cameraInfoMsg.d.map sdk.narrow
    distortionModel := model
    focalLength := (sdk.narrow (n.cameraInfoMsg.k.getD 0 sdk.zeroD),
                    sdk.narrow (n.cameraInfoMsg.k.getD 4 sdk.zeroD))
    principalPoint := (sdk.narrow (n.cameraInfoMsg.k.getD 2 sdk.zeroD),
                       sdk.narrow (n.cameraInfoMsg.k.getD 5 sdk.zeroD))
    transformationToC0 :=
      [sdk.oneF, sdk.zeroF, sdk.zeroF, sdk.zeroF, sdk.zeroF, sdk.oneF, sdk.zeroF, sdk.zeroF,
       sdk.zeroF, sdk.zeroF, sdk.oneF, sdk.zeroF, sdk.zeroF, sdk.zeroF, sdk.zeroF, sdk.oneF] }

/-- The IMU calibration entry `updateCalibrationSet` starts from (lines 772-782):
the existing entry of this camera or a default-constructed one with the camera
name. -/
def imuCalibrationBase {F D : Type} (sdk : Sdk F D) (n : CalibState F D) : IMUCalibration F :=
  match n.calibration.getImuCalibrationByName n.cameraName with
  | some c => c
  | none => { sdk.defaultImu with name := n.cameraName }

/-- The test of line 784: the transform message is present and not empty. -/
def hasImuTransform {F D : Type} (n : CalibState F D) : Bool :=
  match n.imuToCamTransforms with
  | some ts => !ts.isEmpty
  | none => false

/-- The IMU calibration that `updateCalibrationSet` builds (lines 783-811): each of
the four values is copied from the node only under its guard. -/
def imuCalibrationFromNode {F D : Type} (sdk : Sdk F D) (n : CalibState F D) :
    IMUCalibration F :=
  let c0 := imuCalibrationBase sdk n
  let c1 := if hasImuTransform n then
      { c0 with transformationToC0 := transformData sdk n.imuToCamTransform } else c0
  let c2 := if !sdk.isZero n.accBiases then { c1 with accOffsetAvg := n.accBiases } else c1
  let c3 := if !sdk.isZero n.gyroBiases then { c2 with omegaOffsetAvg := n.gyroBiases } else c2
  if n.imuTimeOffset > 0 then { c3 with timeOffsetMicros := n.imuTimeOffset } else c3

/-- The flag `imuHasValues` at line 813. -/
def imuHasValues {F D : Type} (sdk : Sdk F D) (n : CalibState F D) : Bool :=
  hasImuTransform n || !sdk.isZero n.accBiases || !sdk.isZero n.gyroBiases ||
    decide (n.imuTimeOffset > 0)

/-- The distortion model that lines 744-756 read from the name in the camera-info
message; `none` when the name is neither `plumb_bob` nor `equidistant`. -/
def distortionModelOfName (name : String) : Option DistortionModel :=
  if name = PLUMB_BOB then some .RadTan
  else if name = EQUIDISTANT then some .Equidistant
  else none

/-- The calibration set after lines 763-820: the camera entry is updated or added,
then the IMU entry is updated, or added if the node holds IMU values. (The camera
step leaves the IMU entries as they are, so the IMU lookup reads the same entry
before and after it.) -/
def updatedCalibration {F D : Type} (sdk : Sdk F D) (n : CalibState F D)
    (model : DistortionModel) : CalibrationSet F :=
  let calib := cameraCalibrationFromInfo sdk n model
  let set1 :=
    if (n.calibration.getCameraCalibrationByName n.cameraName).isSome then
      n.calibration.updateCameraCalibration calib
    else n.calibration.addCameraCalibration calib
  let imuCalibration := imuCalibrationFromNode sdk n
  if (set1.getImuCalibrationByName n.cameraName).isSome then
    set1.updateImuCalibration imuCalibration
  else if imuHasValues sdk n then set1.addImuCalibration imuCalibration
  else set1

/-- `Capture::updateCalibrationSet`, lines 726-821: the node afterwards and the
text of the exception, if one is thrown. An unknown distortion model throws
before `m_calibration` is touched. -/
def updateCalibrationSet {F D : Type} (sdk : Sdk F D) (n : CalibState F D) :
    CalibState F D × Except String Unit :=
  match distortionModelOfName n.cameraInfoMsg.distortion_model with
  | none => (n, .error "Unknown camera model.")
  | some model => ({ n with calibration := updatedCalibration sdk n model }, .ok ())

/-- What `saveCalibration` meets outside the node: the dated path it writes to and
the text of the exception if `writeToFile` or `copy_file` throws. -/
structure SaveEnv where
  calibPath : String
  failure : Option String
  deriving DecidableEq, Repr

/-- `Capture::saveCalibration`, lines 1146-1156: the node afterwards and the path
written, or the text of the exception thrown. -/
def saveCalibration {F D : Type} (sdk : Sdk F D) (env : SaveEnv) (n : CalibState F D) :
    CalibState F D × Except String String :=
  match updateCalibrationSet sdk n with
  | (n1, .error e) => (n1, .error e)
  | (n1, .ok _) =>
    match env.failure with
    | some e => (n1, .error e)
    | none => (n1, .ok env.calibPath)

/-- Response of the three calibration services. -/
structure ServiceResponse where
  success : Bool
  status_message : String
  deriving DecidableEq, Repr

/-- `Capture::setCameraInfo`, lines 1031-1052. -/
def setCameraInfo {F D : Type} (sdk : Sdk F D) (env : SaveEnv) (n : CalibState F D)
    (camera_info : CameraInfo D) : CalibState F D × ServiceResponse :=
  match saveCalibration sdk env { n with cameraInfoMsg := camera_info } with
  | (n1, .ok calibPath) =>
    (n1, { success := true
           status_message := "Calibration stored successfully in [" ++ calibPath ++ "]." })
  | (n1, .error e) =>
    (n1, { success := false
           status_message := "Error storing camera calibration: [" ++ e ++ "]." })

/-- The `Eigen::Vector3f` built from the three doubles of a request vector. -/
def narrowVec3 {F D : Type} (sdk : Sdk F D) (v : Vec3 D) : Vec3 F :=
  { x := sdk.narrow v.x, y := sdk.narrow v.y, z := sdk.narrow v.z }

/-- `Capture::setImuBiases`, lines 1054-1089. -/
def setImuBiases {F D : Type} (sdk : Sdk F D) (env : SaveEnv) (n : CalibState F D)
    (acc_biases gyro_biases : Vec3 D) : CalibState F D × ServiceResponse :=
  if n.unbiasedImuData then
    (n, { success := false
          status_message := "Failed to apply IMU biases since biases are already applied." })
  else
    match saveCalibration sdk env
        { n with accBiases := narrowVec3 sdk acc_biases
                 gyroBiases := narrowVec3 sdk gyro_biases } with
    | (n1, .ok _) =>
      ({ n1 with unbiasedImuData := true },
       { success := true, status_message := "IMU biases stored in calibration file." })
    | (n1, .error e) =>
      (n1, { success := false
             status_message := "Error storing IMU biases calibration: [" ++ e ++ "]." })

/-- The `imu_info` of a `SetImuInfo` request. -/
structure ImuInfo (D : Type) where
  time_offset_micros : Int
  t_sc : Transform D
  deriving DecidableEq, Repr

/-- `Capture::setImuInfo`, lines 1091-1122. `m_imu_to_cam_transforms->transforms[0]`
is written without a test: with an empty optional or an empty list the result is
`none`. -/
def setImuInfo {F D : Type} (sdk : Sdk F D) (env : SaveEnv) (n : CalibState F D)
    (imu_info : ImuInfo D) : Option (CalibState F D × ServiceResponse) :=
  match n.imuToCamTransforms with
  | none => none
  | some [] => none
  | some (_ :: rest) =>
    let stampedTransform : TransformStamped D :=
      { frame_id := n.imuFrameName, child_frame_id := n.cameraFrameName
        transform := imu_info.t_sc }
    let q : Quaternion F :=
      { w := sdk.narrow imu_info.t_sc.rotation.w, x := sdk.narrow imu_info.t_sc.rotation.x
        y := sdk.narrow imu_info.t_sc.rotation.y, z := sdk.narrow imu_info.t_sc.rotation.z }
    let n1 : CalibState F D :=
      { n with imuTimeOffset := imu_info.time_offset_micros
               imuToCamTransforms := some (stampedTransform :: rest)
               imuToCamTransform :=
                 .ofQuaternion { x := sdk.zeroF, y := sdk.zeroF, z := sdk.zeroF } q }
    match saveCalibration sdk env n1 with
    | (n2, .ok calibPath) =>
      some (n2, { success := true
                  status_message :=
                    "IMU calibration stored successfully in [" ++ calibPath ++ "]." })
    | (n2, .error e) =>
      some (n2, { success := false
                  status_message := "Error storing IMU info: [" ++ e ++ "]." })

/-- An `Sdk` on integer-valued numbers, which `float` and `double` both hold
exactly: the conversions are the identity, `isZero` is equality with zero, and
the matrix of a transformation is the homogeneous matrix of `Eigen`'s
`toRotationMatrix` with the translation in the last column. The
default-constructed calibrations have empty lists and zeros. -/
def intSdk : Sdk Int Int :=
  { widen := id, narrow := id, zeroF := 0, oneF := 1, zeroD := 0, oneD := 1
    isZero := fun v => v.x == 0 && v.y == 0 && v.z == 0
    quaternionMatrix := fun t q =>
      [1 - (2 * q.y * q.y + 2 * q.z * q.z), 2 * q.x * q.y - 2 * q.z * q.w,
       2 * q.x * q.z + 2 * q.y * q.w, t.x,
       2 * q.x * q.y + 2 * q.z * q.w, 1 - (2 * q.x * q.x + 2 * q.z * q.z),
       2 * q.y * q.z - 2 * q.x * q.w, t.y,
       2 * q.x * q.z - 2 * q.y * q.w, 2 * q.y * q.z + 2 * q.x * q.w,
       1 - (2 * q.x * q.x + 2 * q.y * q.y), t.z,
       0, 0, 0, 1]
    defaultCamera :=
      { name := "", resolutionWidth := 0, resolutionHeight := 0, distortion := []
        distortionModel := .None, focalLength := (0, 0), principalPoint := (0, 0)
        transformationToC0 := [] }
    defaultImu :=
      { name := "", transformationToC0 := [], accOffsetAvg := ⟨0, 0, 0⟩
        omegaOffsetAvg := ⟨0, 0, 0⟩, timeOffsetMicros := 0 } }

/-- A camera-info message for a 640x480 sensor without distortion. -/
def sampleCameraInfo : CameraInfo Int :=
  { width := 640, height := 480, distortion_model := PLUMB_BOB, d := [0, 0, 0, 0, 0]
    k := [640, 0, 320, 0, 640, 240, 0, 0, 1]
    r := [1, 0, 0, 0, 1, 0, 0, 0, 1]
    p := [640, 0, 320, 0, 0, 640, 240, 0, 0, 0, 1, 0] }

/-- A node for camera `camA` started from a calibration that holds a camera entry
and an IMU entry (accelerometer bias `(1, 0, 0)`, time offset 500) for it; since
then the node's accelerometer bias has been set to zero and its IMU time offset
to -200. -/
def sampleState : CalibState Int Int :=
  { cameraName := "camA", imuFrameName := "imu", cameraFrameName := "camera"
    unbiasedImuData := false
    cameraInfoMsg := sampleCameraInfo
    accBiases := ⟨0, 0, 0⟩
    gyroBiases := ⟨0, 0, 2⟩
    imuTimeOffset := -200
    imuToCamTransform := .ofMatrix [1, 0, 0, 0, 0, 1, 0, 0, 0, 0, 1, 0, 0, 0, 0, 1]
    imuToCamTransforms := some [⟨"imu", "camera", ⟨⟨0, 0, 0⟩, ⟨0, 0, 0, 1⟩⟩⟩]
    calibration :=
      { cameras :=
          [{ name := "camA", resolutionWidth := 640, resolutionHeight := 480
             distortion := [0, 0, 0, 0, 0], distortionModel := .RadTan
             focalLength := (640, 640), principalPoint := (320, 240)
             transformationToC0 := [1, 0, 0, 0, 0, 1, 0, 0, 0, 0, 1, 0, 0, 0, 0, 1] }]
        imus :=
          [{ name := "camA"
             transformationToC0 := [1, 0, 0, 0, 0, 1, 0, 0, 0, 0, 1, 0, 0, 0, 0, 1]
             accOffsetAvg := ⟨1, 0, 0⟩, omegaOffsetAvg := ⟨0, 0, 2⟩
             timeOffsetMicros := 500 }] } }

/-! Time and event conversions (`dv_ros2_messaging/messaging.hpp`) -/

/-- `rclcpp::Time`: the time point is kept as one count of nanoseconds
(`rcl_time_.nanoseconds`); `nanoseconds()` returns this count and `seconds()`
returns it as a `double` number of seconds. -/
structure RosTime where
  nanoseconds : Int
  deriving DecidableEq, Repr

/-- `builtin_interfaces::msg::Time`: `int32 sec`, `uint32 nanosec`. -/
structure TimeMsg where
  sec : Int
  nanosec : Nat
  deriving DecidableEq, Repr

/-- The constructor `rclcpp::Time(int32_t seconds, uint32_t nanoseconds)`: it throws
on negative seconds and stores `seconds * 10^9 + nanoseconds`. -/
def RosTime.ofSecondsNanoseconds (seconds : Int) (nanoseconds : Nat) : Except String RosTime :=
  if seconds < 0 then .error "cannot store a negative time point in rclcpp::Time"
  else .ok { nanoseconds := seconds * 1000000000 + nanoseconds }

/-- The constructor `rclcpp::Time(int64_t nanoseconds)`: it throws on a negative
count. -/
def RosTime.ofNanoseconds (nanoseconds : Int) : Except String RosTime :=
  if nanoseconds < 0 then .error "cannot store a negative time point in rclcpp::Time"
  else .ok { nanoseconds := nanoseconds }

/-- The constructor of `rclcpp::Time` from a time message. -/
def RosTime.ofMsg (m : TimeMsg) : Except String RosTime :=
  RosTime.ofSecondsNanoseconds m.sec m.nanosec

/-- The conversion of `rclcpp::Time` to a time message: whole seconds (cast to
`int32`) and the remaining nanoseconds. -/
def RosTime.toMsg (t : RosTime) : TimeMsg :=
  { sec := toInt32 (toUInt32 (t.nanoseconds / 1000000000))
    nanosec := (t.nanoseconds % 1000000000).toNat }

/-- The integer cast of `seconds()`, as in `static_cast<int64_t>(time.seconds())`:
the whole seconds of the count. The rounding of the intermediate `double` is not
modelled: the code can differ from this quotient for a count above 2^53
nanoseconds that lies within the rounding error of a whole second. -/
def RosTime.wholeSeconds (t : RosTime) : Int :=
  t.nanoseconds.tdiv 1000000000

/-- `toRosTime`, lines 56-59: both quotient and remainder are cast to `uint32_t`
and handed to the constructor taking `int32_t` seconds. -/
def toRosTime (timestamp : Int) : Except String RosTime :=
  RosTime.ofSecondsNanoseconds (toInt32 (toUInt32 (timestamp.tdiv 1000000)))
    (toUInt32 (timestamp.tmod 1000000 * 1000))

/-- `toDvTime`, lines 64-67: `seconds()` cast to an integer, times 10^6, plus
`nanoseconds()` divided by 1000. -/
def toDvTime (timestamp : RosTime) : Int :=
  timestamp.wholeSeconds * 1000000 + timestamp.nanoseconds.tdiv 1000

/-- One event of an `EventPacket` message. The message type is declared in the
package `dv_ros2_msgs`; its fields are taken to hold the coordinates and the
polarity as they are assigned. -/
structure EventMsg where
  x : Int
  y : Int
  ts : TimeMsg
  polarity : Bool
  deriving DecidableEq, Repr

/-- The fields of an `EventPacket` message that the conversions use; `stamp` is
`header.stamp`. -/
structure EventPacketMsg where
  stamp : TimeMsg
  events : List EventMsg
  width : Nat
  height : Nat
  deriving DecidableEq, Repr

/-- `dv::EventStore::getLowestTime()`: timestamp of the first stored event, `0` for
an empty store (SDK behaviour). -/
def getLowestTime (s : EventStore) : Int :=
  match s.head? with
  | some e => e.timestamp
  | none => 0

/-- Lines 183-193 in the body of the `for` loop of `toRosEventsMessage`: the new
values of the locals `time` and `secInMicro` for an event with the given
timestamp. -/
def nextEventTime (timestamp : Int) (time : RosTime) (secInMicro : Int) :
    Except String (RosTime × Int) :=
  if timestamp - secInMicro < 1000000 then
    match RosTime.ofSecondsNanoseconds (toInt32 (toUInt32 time.wholeSeconds))
        (toUInt32 ((timestamp - secInMicro) * 1000)) with
    | .error err => .error err
    | .ok t => .ok (t, secInMicro)
  else
    match toRosTime timestamp with
    | .error err => .error err
    | .ok t => .ok (t, t.wholeSeconds * 1000000)

/-- The `for` loop of `toRosEventsMessage`, lines 181-199, with the locals `time`
and `secInMicro`. -/
def convertEvents : List Event → RosTime → Int → Except String (List EventMsg)
  | [], _, _ => .ok []
  | event :: rest, time, secInMicro =>
    match nextEventTime event.timestamp time secInMicro with
    | .error err => .error err
    | .ok (t, s) =>
      match convertEvents rest t s with
      | .error err => .error err
      | .ok out =>
        .ok ({ x := event.x, y := event.y, ts := t.toMsg, polarity := event.polarity } :: out)

/-- `toRosEventsMessage`, lines 172-204; an exception thrown by one of the three
steps ends the conversion. The header stamp is built by `rclcpp::Time(double)`,
which selects the constructor taking a count of nanoseconds: the count is the
highest timestamp times `1e-6`, cut to an integer. The product is taken exactly
here; the rounding of the `double` product is not modelled, which matters only
for timestamps above 2^53 or next to a whole second. -/
def toRosEventsMessage (events : EventStore) (width height : Int) :
    Except String EventPacketMsg :=
  Except.bind (toRosTime (getLowestTime events)) fun time =>
  Except.bind (RosTime.ofNanoseconds ((getHighestTime events).tdiv 1000000)) fun stamp =>
  Except.bind (convertEvents events time (time.wholeSeconds * 1000000)) fun out =>
  .ok { stamp := stamp.toMsg, events := out, width := toUInt32 width
        height := toUInt32 height }

/-- The `for` loop of `toEventStore`, lines 220-230, with the locals `seconds` and
`timestamp`. `assertions` tells whether `dv::runtime_assert` is compiled in; its
argument is evaluated in either case. -/
def unpackEvents (assertions : Bool) : List EventMsg → Nat → Int → Except String (List Event)
  | [], _, _ => .ok []
  | event :: rest, seconds, timestamp =>
    let seconds1 : Nat := if toUInt32 event.ts.sec ≠ seconds then toUInt32 event.ts.sec else seconds
    let timestamp1 : Int :=
      if toUInt32 event.ts.sec ≠ seconds then (toUInt32 event.ts.sec : Int) * 1000000
      else timestamp
    let eventTimestamp : Int := timestamp1 + ((event.ts.nanosec / 1000 : Nat) : Int)
    match RosTime.ofMsg event.ts with
    | .error err => .error err
    | .ok t =>
      if assertions && eventTimestamp != toDvTime t then .error "Timestamp conversion failed!"
      else
        match unpackEvents assertions rest seconds1 timestamp1 with
        | .error err => .error err
        | .ok out =>
          .ok ({ timestamp := eventTimestamp, x := event.x, y := event.y
                 polarity := event.polarity } :: out)

/-- `toEventStore`, lines 210-233. -/
def toEventStore (assertions : Bool) (message : EventPacketMsg) : Except String EventStore :=
  match message.events with
  | [] => .ok []
  | first :: _ =>
    unpackEvents assertions message.events (toUInt32 first.ts.sec)
      ((toUInt32 first.ts.sec : Int) * 1000000)

/-! Predicates and states used in the statements on the bounded clock -/

/-- The smallest number of increments that lead from `start` to `end` or beyond:
`ceil ((end - start) / inc)`. -/
def tickCount (start endTime inc : Int) : Nat :=
  ((endTime - start + inc - 1) / inc).toNat

/-- The clock in bounded mode after `k` synchronized ticks with the source
connected: `k` horizons pushed, and the run-flag still set as long as the
horizon is below `end` (or nothing has been pushed yet). -/
def clockAfter (p : Params) (start endTime inc : Int) (k : Nat) : ClockState :=
  { start := start + (k : Int) * inc
    endTime := endTime
    timeIncrement := inc
    frameQueue := if p.frames then horizonRamp start inc k else []
    eventsQueue := if p.events then horizonRamp start inc k else []
    triggerQueue := if p.triggers then horizonRamp start inc k else []
    imuQueue := if p.imu then horizonRamp start inc k else []
    spin := decide (k = 0 ∨ start + (k : Int) * inc < endTime) }

/-! Loading the calibration at start-up, and helpers for the statements on
`updateCalibrationSet` -/

/-- `CameraCalibration::getCameraGeometry` of the SDK: the geometry carries the
resolution, the distortion, the focal length and the principal point of the
calibration. -/
def getCameraGeometry {F : Type} (c : CameraCalibration F) : CameraGeometry F :=
  { resolutionWidth := c.resolutionWidth, resolutionHeight := c.resolutionHeight
    distortion := c.distortion, distortionModel := c.distortionModel
    centralPoint := c.principalPoint, focalLength := c.focalLength }

/-- The body of `if (... imuCalib.has_value())` in the constructor, lines 97-126.
Line 98 is the expression statement `m_imu_time_offset == imuCalib->timeOffsetMicros;`,
a comparison whose value is dropped, so `imuTimeOffset` is not written; the
transform and both bias vectors are assigned. `translationOf` and `rotationOf`
stand for `getTranslation<Eigen::Vector3d>()` and `getQuaternion()` of
`Transformationf`. -/
def loadImuCalibration {F D : Type} (translationOf : Transformationf F → Vec3 D)
    (rotationOf : Transformationf F → Quaternion D) (n : CalibState F D)
    (imuCalib : IMUCalibration F) : CalibState F D :=
  let tf : Transformationf F := .ofMatrix imuCalib.transformationToC0
  { n with
    imuToCamTransform := tf
    accBiases := imuCalib.accOffsetAvg
    gyroBiases := imuCalib.omegaOffsetAvg
    imuToCamTransforms :=
      some [{ frame_id := n.imuFrameName, child_frame_id := n.cameraFrameName
              transform := { translation := translationOf tf, rotation := rotationOf tf } }] }

/-- The constructor `Capture::Capture`, lines 89-139, when the active calibration
file exists: `loaded` is the result of `CalibrationSet::LoadFromFile`. The node
afterwards and the text of the exception, if one is thrown. -/
def loadCalibration {F D : Type} (sdk : Sdk F D) (translationOf : Transformationf F → Vec3 D)
    (rotationOf : Transformationf F → Quaternion D) (n : CalibState F D)
    (loaded : CalibrationSet F) : CalibState F D × Except String Unit :=
  let n1 : CalibState F D := { n with calibration := loaded }
  let cameraCalibration := loaded.getCameraCalibrationByName n.cameraName
  let n2 :=
    match loaded.getImuCalibrationByName n.cameraName with
    | some imuCalib => loadImuCalibration translationOf rotationOf n1 imuCalib
    | none => n1
  match cameraCalibration with
  | some c =>
    let r := populateInfoMsg sdk n2.cameraInfoMsg (getCameraGeometry c)
    ({ n2 with cameraInfoMsg := r.1 }, r.2)
  | none => (n2, .error "Calibration is not available!")

/-- The guarded copies of lines 783-811 applied to an IMU calibration `c0`;
`imuCalibrationFromNode` is this function at `imuCalibrationBase`. -/
def imuOverwrite {F D : Type} (sdk : Sdk F D) (n : CalibState F D) (c0 : IMUCalibration F) :
    IMUCalibration F :=
  let c1 := if hasImuTransform n then
      { c0 with transformationToC0 := transformData sdk n.imuToCamTransform } else c0
  let c2 := if !sdk.isZero n.accBiases then { c1 with accOffsetAvg := n.accBiases } else c1
  let c3 := if !sdk.isZero n.gyroBiases then { c2 with omegaOffsetAvg := n.gyroBiases } else c2
  if n.imuTimeOffset > 0 then { c3 with timeOffsetMicros := n.imuTimeOffset } else c3

/-- Update-or-add on a list of named entries: the first entry satisfying `p` is
replaced by `new`; without such an entry `new` is appended if `add` holds. -/
def upsert {α : Type} (p : α → Bool) (new : α) (add : Bool) (l : List α) : List α :=
  if (l.find? p).isSome then replaceFirst p new l else if add then l ++ [new] else l

/-- The camera entry of this camera after `populateInfoMsg` on the geometry `g`
followed by `updateCalibrationSet`; `none` if either of them throws. -/
def cameraRoundTrip {F D : Type} (sdk : Sdk F D) (n : CalibState F D) (g : CameraGeometry F) :
    Option (CameraCalibration F) :=
  match populateInfoMsg sdk n.cameraInfoMsg g with
  | (_, .error _) => none
  | (msg, .ok _) =>
    match updateCalibrationSet sdk { n with cameraInfoMsg := msg } with
    | (_, .error _) => none
    | (n1, .ok _) => n1.calibration.getCameraCalibrationByName n.cameraName

/-- The message event that carries the event `e`: stamped with the whole seconds
of its timestamp and the remaining microseconds as nanoseconds. -/
def eventToMsg (e : Event) : EventMsg :=
  { x := e.x, y := e.y
    ts := { sec := e.timestamp / 1000000, nanosec := (e.timestamp % 1000000 * 1000).toNat }
    polarity := e.polarity }

/-! Facts about 64-bit wrapping -/

theorem wrapInt64_of_fits (x : Int) (h : fitsInt64 x) : wrapInt64 x = x := by
  unfold fitsInt64 INT64_MIN INT64_MAX at h
  unfold wrapInt64
  rw [Int.emod_eq_of_lt (by omega) (by omega)]
  omega

/-! Synchronization -/

/-- C3 (code as written): on a live slave camera with `waitForSync = false`,
`startCapture` followed by the start of the synchronization coordinator leaves
`m_synchronized` false: the coordinator sets the flag only when `waitForSync` is
true. -/
theorem C3_slave_without_wait_is_left_unsynchronized (name : String) (running : Bool)
    (offset : Int) (sync : Bool) :
    synchronizationThread false
        (startCapture { liveCapture := some ⟨name, false, running, offset⟩, synchronized := sync }).1
      = some { liveCapture := some ⟨name, false, running, offset⟩, synchronized := false } := by
  simp [startCapture, synchronizationThread]

/-- C4 (code as written): on a live slave camera with `waitForSync = true`,
`startCapture` followed by the start of the synchronization coordinator leaves
`m_synchronized` true although no synchronization request was handled. -/
theorem C4_slave_with_wait_is_synchronized_at_start (name : String) (running : Bool)
    (offset : Int) (sync : Bool) :
    synchronizationThread true
        (startCapture { liveCapture := some ⟨name, false, running, offset⟩, synchronized := sync }).1
      = some { liveCapture := some ⟨name, false, running, offset⟩, synchronized := true } := by
  simp [startCapture, synchronizationThread]

/-- Called directly on a node without a live camera, the synchronization handler
produces no response: after the warning it dereferences the null capture
pointer. -/
theorem synchronizeCamera_without_live_camera (sync : Bool) (req : SyncRequest) :
    synchronizeCamera { liveCapture := none, synchronized := sync } req = none := by
  simp [synchronizeCamera]

theorem clockTick_start (p : Params) (i : TickInput) (s : ClockState) :
    (clockTick p i s).start
      = if i.synchronized then wrapInt64 (s.start + s.timeIncrement) else s.start := by
  unfold clockTick
  cases i.synchronized <;> simp <;> split <;> rfl

theorem clockTick_endTime (p : Params) (i : TickInput) (s : ClockState) :
    (clockTick p i s).endTime = s.endTime := by
  unfold clockTick
  cases i.synchronized <;> simp <;> split <;> rfl

theorem clockTick_timeIncrement (p : Params) (i : TickInput) (s : ClockState) :
    (clockTick p i s).timeIncrement = s.timeIncrement := by
  unfold clockTick
  cases i.synchronized <;> simp <;> split <;> rfl

theorem clockTick_frameQueue (p : Params) (i : TickInput) (s : ClockState) :
    (clockTick p i s).frameQueue
      = if i.synchronized && p.frames then s.frameQueue ++ [s.start] else s.frameQueue := by
  unfold clockTick DeliveryQueue.push
  cases i.synchronized <;> cases p.frames <;> simp <;> split <;> rfl

theorem clockTick_eventsQueue (p : Params) (i : TickInput) (s : ClockState) :
    (clockTick p i s).eventsQueue
      = if i.synchronized && p.events then s.eventsQueue ++ [s.start] else s.eventsQueue := by
  unfold clockTick DeliveryQueue.push
  cases i.synchronized <;> cases p.events <;> simp <;> split <;> rfl

theorem clockTick_triggerQueue (p : Params) (i : TickInput) (s : ClockState) :
    (clockTick p i s).triggerQueue
      = if i.synchronized && p.triggers then s.triggerQueue ++ [s.start] else s.triggerQueue := by
  unfold clockTick DeliveryQueue.push
  cases i.synchronized <;> cases p.triggers <;> simp <;> split <;> rfl

theorem clockTick_imuQueue (p : Params) (i : TickInput) (s : ClockState) :
    (clockTick p i s).imuQueue
      = if i.synchronized && p.imu then s.imuQueue ++ [s.start] else s.imuQueue := by
  unfold clockTick DeliveryQueue.push
  cases i.synchronized <;> cases p.imu <;> simp <;> split <;> rfl

theorem clockTick_spin (p : Params) (i : TickInput) (s : ClockState) :
    (clockTick p i s).spin
      = if (clockTick p i s).start ≥ s.endTime ∨ i.connected = false then false else s.spin := by
  rw [clockTick_start]
  unfold clockTick
  cases i.synchronized <;> cases i.connected <;> simp <;> split <;> simp [*]

theorem clockRun_invariant (p : Params) (I : ClockState → Prop)
    (hstep : ∀ i s, s.spin = true → I s → I (clockTick p i s)) :
    ∀ (inputs : List TickInput) (s : ClockState), I s → I (clockRun p inputs s) := by
  intro inputs
  induction inputs with
  | nil => intro s hs; simpa [clockRun] using hs
  | cons i rest ih =>
    intro s hs
    unfold clockRun
    by_cases hsp : s.spin = true
    · simp only [hsp, if_true]
      exact ih _ (hstep i s hsp hs)
    · simp only [hsp]
      exact hs

theorem unboundedInv_clockInit (endTime timeIncrement : Int) :
    unboundedInv (clockInit (-1) endTime timeIncrement) := by
  simp [unboundedInv, clockInit]

theorem mem_push_all_eq (v : Int) (c : Bool) (q : List Int) (hq : ∀ h ∈ q, h = v) :
    ∀ h ∈ (if c then q ++ [v] else q), h = v := by
  intro h hh
  cases c
  · exact hq h (by simpa using hh)
  · simp only [if_true, List.mem_append, List.mem_singleton] at hh
    rcases hh with hh | hh
    · exact hq h hh
    · exact hh

theorem unboundedInv_clockTick (p : Params) (i : TickInput) (s : ClockState)
    (h : unboundedInv s) : unboundedInv (clockTick p i s) := by
  obtain ⟨h1, h2, h3, hf, he, ht, hi⟩ := h
  have hw : wrapInt64 (INT64_MAX - 1 + 0) = INT64_MAX - 1 := by decide
  refine ⟨?_, ?_, ?_, ?_, ?_, ?_, ?_⟩
  · rw [clockTick_start, h1, h3, hw]; simp
  · rw [clockTick_endTime, h2]
  · rw [clockTick_timeIncrement, h3]
  · rw [clockTick_frameQueue, h1]; exact mem_push_all_eq _ _ _ hf
  · rw [clockTick_eventsQueue, h1]; exact mem_push_all_eq _ _ _ he
  · rw [clockTick_triggerQueue, h1]; exact mem_push_all_eq _ _ _ ht
  · rw [clockTick_imuQueue, h1]; exact mem_push_all_eq _ _ _ hi

/-- C5 (as stated, refuted): in unbounded mode with a timer increment of 1000 and
all modalities enabled, the horizon pushed by one synchronized tick is not the
largest 64-bit value. -/
theorem C5_unbounded_horizon_is_not_max :
    ¬ ∀ h ∈ (clockRun ⟨true, true, true, true⟩ [⟨true, true⟩] (clockInit (-1) (-1) 1000)).frameQueue,
        h = INT64_MAX := by
  decide

/-- C5 (amended): started with the sentinel `-1`, the clock sets the increment to 0
and the end to the largest 64-bit value, and every horizon it pushes, on any
queue and under any sequence of ticks, equals that largest value minus one. -/
theorem C5_unbounded_mode (p : Params) (inputs : List TickInput) (endTime timeIncrement : Int) :
    (clockInit (-1) endTime timeIncrement).timeIncrement = 0 ∧
    (clockRun p inputs (clockInit (-1) endTime timeIncrement)).timeIncrement = 0 ∧
    (clockRun p inputs (clockInit (-1) endTime timeIncrement)).endTime = INT64_MAX ∧
    (∀ h ∈ (clockRun p inputs (clockInit (-1) endTime timeIncrement)).frameQueue,
      h = INT64_MAX - 1) ∧
    (∀ h ∈ (clockRun p inputs (clockInit (-1) endTime timeIncrement)).eventsQueue,
      h = INT64_MAX - 1) ∧
    (∀ h ∈ (clockRun p inputs (clockInit (-1) endTime timeIncrement)).triggerQueue,
      h = INT64_MAX - 1) ∧
    (∀ h ∈ (clockRun p inputs (clockInit (-1) endTime timeIncrement)).imuQueue,
      h = INT64_MAX - 1) := by
  have h := clockRun_invariant p unboundedInv
    (fun i s _ hs => unboundedInv_clockTick p i s hs) inputs _
    (unboundedInv_clockInit endTime timeIncrement)
  obtain ⟨_, h2, h3, hf, he, ht, hi⟩ := h
  exact ⟨by simp [clockInit], h3, h2, hf, he, ht, hi⟩

/-- C6: on a tick taken while `m_synchronized` is true the current horizon is
appended to the queue of exactly the enabled modalities and the horizon then
grows by the increment (in 64-bit arithmetic; by exactly the increment when the
sum is a 64-bit value); on a tick taken while it is false no queue changes and
the horizon stays as it is. -/
theorem C6_clock_tick (p : Params) (i : TickInput) (s : ClockState) :
    (i.synchronized = true →
      (clockTick p i s).frameQueue = (if p.frames then s.frameQueue ++ [s.start] else s.frameQueue) ∧
      (clockTick p i s).eventsQueue
        = (if p.events then s.eventsQueue ++ [s.start] else s.eventsQueue) ∧
      (clockTick p i s).triggerQueue
        = (if p.triggers then s.triggerQueue ++ [s.start] else s.triggerQueue) ∧
      (clockTick p i s).imuQueue = (if p.imu then s.imuQueue ++ [s.start] else s.imuQueue) ∧
      (clockTick p i s).start = wrapInt64 (s.start + s.timeIncrement) ∧
      (fitsInt64 (s.start + s.timeIncrement) →
        (clockTick p i s).start = s.start + s.timeIncrement)) ∧
    (i.synchronized = false →
      (clockTick p i s).frameQueue = s.frameQueue ∧
      (clockTick p i s).eventsQueue = s.eventsQueue ∧
      (clockTick p i s).triggerQueue = s.triggerQueue ∧
      (clockTick p i s).imuQueue = s.imuQueue ∧
      (clockTick p i s).start = s.start) := by
  constructor
  · intro hs
    rw [clockTick_frameQueue, clockTick_eventsQueue, clockTick_triggerQueue, clockTick_imuQueue,
      clockTick_start, hs]
    refine ⟨by simp, by simp, by simp, by simp, by simp, ?_⟩
    intro hfit
    rw [wrapInt64_of_fits _ hfit]
    simp
  · intro hs
    rw [clockTick_frameQueue, clockTick_eventsQueue, clockTick_triggerQueue, clockTick_imuQueue,
      clockTick_start, hs]
    simp

/-- C6 at a concrete tick: frames and triggers enabled, horizon 100, increment 10. -/
theorem C6_clock_tick_witness :
    (clockTick ⟨true, false, true, false⟩ ⟨true, true⟩
        ⟨100, 1000, 10, [90], [], [90], [], true⟩).frameQueue = [90, 100] ∧
    (clockTick ⟨true, false, true, false⟩ ⟨true, true⟩
        ⟨100, 1000, 10, [90], [], [90], [], true⟩).eventsQueue = [] ∧
    (clockTick ⟨true, false, true, false⟩ ⟨true, true⟩
        ⟨100, 1000, 10, [90], [], [90], [], true⟩).start = 110 := by
  have h := (C6_clock_tick ⟨true, false, true, false⟩ ⟨true, true⟩
    ⟨100, 1000, 10, [90], [], [90], [], true⟩).1 rfl
  exact ⟨by simpa using h.1, by simpa using h.2.1, h.2.2.2.2.2 (by decide)⟩

/-- C8: at the end of a clock tick the run-flag is cleared exactly when the
horizon, after its advance, has reached `end`, or the reader reports that it is
not connected; a lost connection clears the flag also on an unsynchronized
tick. -/
theorem C8_run_flag (p : Params) (i : TickInput) (s : ClockState) (hs : s.spin = true) :
    ((clockTick p i s).spin = false ↔
      ((clockTick p i s).start ≥ (clockTick p i s).endTime ∨ i.connected = false)) ∧
    (clockTick p ⟨false, false⟩ s).spin = false := by
  constructor
  · rw [clockTick_spin, clockTick_endTime]
    by_cases hc : (clockTick p i s).start ≥ s.endTime ∨ i.connected = false
    · simp [hc]
    · simp only [hc, if_false, hs, iff_false]
      exact Bool.noConfusion
  · rw [clockTick_spin]
    simp

/-- C8 at a concrete tick: horizon 95, increment 10, end 100. -/
theorem C8_run_flag_witness :
    ((clockTick ⟨true, true, true, true⟩ ⟨true, true⟩ ⟨95, 100, 10, [], [], [], [], true⟩).spin
        = false ↔
      ((clockTick ⟨true, true, true, true⟩ ⟨true, true⟩ ⟨95, 100, 10, [], [], [], [], true⟩).start
          ≥ (clockTick ⟨true, true, true, true⟩ ⟨true, true⟩
              ⟨95, 100, 10, [], [], [], [], true⟩).endTime ∨
        (⟨true, true⟩ : TickInput).connected = false)) ∧
    (clockTick ⟨true, true, true, true⟩ ⟨false, false⟩ ⟨95, 100, 10, [], [], [], [], true⟩).spin
      = false :=
  C8_run_flag ⟨true, true, true, true⟩ ⟨true, true⟩ ⟨95, 100, 10, [], [], [], [], true⟩ rfl

theorem horizonRamp_succ (start inc : Int) (n : Nat) :
    horizonRamp start inc (n + 1) = horizonRamp start inc n ++ [start + (n : Int) * inc] := by
  simp [horizonRamp, List.range_succ]

theorem horizonRamp_pairwise (start inc : Int) (n : Nat) (hinc : 0 ≤ inc) :
    (horizonRamp start inc n).Pairwise (· ≤ ·) := by
  induction n with
  | zero => simp [horizonRamp]
  | succ n ih =>
    rw [horizonRamp_succ, List.pairwise_append]
    refine ⟨ih, List.pairwise_singleton _ _, ?_⟩
    intro a ha b hb
    simp only [horizonRamp, List.mem_map, List.mem_range] at ha
    obtain ⟨k, hk, rfl⟩ := ha
    rw [List.mem_singleton] at hb
    subst hb
    have h1 : (k : Int) ≤ (n : Int) := by exact_mod_cast hk.le
    nlinarith [mul_le_mul_of_nonneg_right h1 hinc]

theorem pairwise_le_of_all_eq (v : Int) (q : List Int) (hq : ∀ h ∈ q, h = v) :
    q.Pairwise (· ≤ ·) := by
  rw [List.pairwise_iff_forall_sublist]
  intro a b hab
  have ha := hq a (hab.subset (by simp))
  have hb := hq b (hab.subset (by simp))
  omega

theorem push_ramp (c d : Bool) (start inc : Int) (n : Nat) :
    (if (d && c) = true then (if c then horizonRamp start inc n else []) ++ [start + (n : Int) * inc]
      else (if c then horizonRamp start inc n else []))
      = if c then horizonRamp start inc (if d then n + 1 else n) else [] := by
  cases c <;> cases d <;> simp [horizonRamp_succ]

theorem boundedInv_clockInit (p : Params) (start endTime inc : Int) (h : start ≠ -1) :
    boundedInv p start endTime inc 0 (clockInit start endTime inc) := by
  simp [boundedInv, clockInit, h, horizonRamp]

theorem boundedInv_clockTick (p : Params) (start endTime inc : Int) (i : TickInput)
    (n : Nat) (s : ClockState) (hinc : 0 ≤ inc) (hlo : INT64_MIN ≤ start)
    (hs : start + inc ≤ INT64_MAX) (he : endTime + inc ≤ INT64_MAX)
    (hspin : s.spin = true) (h : boundedInv p start endTime inc n s) :
    boundedInv p start endTime inc (if i.synchronized then n + 1 else n) (clockTick p i s) := by
  obtain ⟨h1, h2, h3, hf, hev, ht, hi, hsp⟩ := h
  have hn : (0 : Int) ≤ (n : Int) * inc := mul_nonneg (Int.ofNat_nonneg n) hinc
  have hfit : fitsInt64 (s.start + s.timeIncrement) := by
    rw [h1, h3]
    constructor
    · omega
    · rcases hsp hspin with h0 | hlt
      · subst h0; simpa using hs
      · rw [h1] at hlt; omega
  have hstart : (clockTick p i s).start
      = start + ((if i.synchronized then n + 1 else n : Nat) : Int) * inc := by
    rw [clockTick_start]
    cases i.synchronized
    · simpa using h1
    · simp only [if_true]
      rw [wrapInt64_of_fits _ hfit, h1, h3]
      push_cast
      ring
  refine ⟨hstart, ?_, ?_, ?_, ?_, ?_, ?_, ?_⟩
  · rw [clockTick_endTime, h2]
  · rw [clockTick_timeIncrement, h3]
  · rw [clockTick_frameQueue, hf, h1]; exact push_ramp _ _ _ _ _
  · rw [clockTick_eventsQueue, hev, h1]; exact push_ramp _ _ _ _ _
  · rw [clockTick_triggerQueue, ht, h1]; exact push_ramp _ _ _ _ _
  · rw [clockTick_imuQueue, hi, h1]; exact push_ramp _ _ _ _ _
  · intro hsp2
    rw [clockTick_spin] at hsp2
    right
    by_contra hlt
    rw [h2] at hsp2
    simp only [not_lt] at hlt
    simp [hlt] at hsp2

/-- C7 (as stated, refuted): with start `2^63 - 6`, end `2^63 - 1` and increment 10,
two synchronized ticks push `2^63 - 6` and then `-2^63 + 4`: the 64-bit sum wraps
around, the queue decreases and its second entry is not `start + increment`. -/
theorem C7_horizon_wraps_around :
    (clockRun ⟨true, false, false, false⟩ [⟨true, true⟩, ⟨true, true⟩]
        (clockInit 9223372036854775802 9223372036854775807 10)).frameQueue
      = [9223372036854775802, -9223372036854775804] ∧
    ¬ (clockRun ⟨true, false, false, false⟩ [⟨true, true⟩, ⟨true, true⟩]
        (clockInit 9223372036854775802 9223372036854775807 10)).frameQueue.Pairwise (· ≤ ·) := by
  decide

/-- C7 (amended): under every sequence of synchronized and unsynchronized ticks the
horizons pushed to each queue are non-decreasing, in unbounded mode and in
bounded mode with an increment in [1, 1000000] for which `start + increment` and
`end + increment` do not exceed the largest 64-bit value; in bounded mode there
is a count `n` such that every enabled queue holds exactly
`start + k * increment` for `k = 0 .. n - 1`, in this order. -/
theorem C7_horizons_non_decreasing (p : Params) (inputs : List TickInput)
    (start endTime inc : Int)
    (hmode : start = -1 ∨ (1 ≤ inc ∧ inc ≤ 1000000 ∧ INT64_MIN ≤ start ∧
      start + inc ≤ INT64_MAX ∧ endTime + inc ≤ INT64_MAX)) :
    ((clockRun p inputs (clockInit start endTime inc)).frameQueue.Pairwise (· ≤ ·) ∧
     (clockRun p inputs (clockInit start endTime inc)).eventsQueue.Pairwise (· ≤ ·) ∧
     (clockRun p inputs (clockInit start endTime inc)).triggerQueue.Pairwise (· ≤ ·) ∧
     (clockRun p inputs (clockInit start endTime inc)).imuQueue.Pairwise (· ≤ ·)) ∧
    (start ≠ -1 → ∃ n : Nat,
      (clockRun p inputs (clockInit start endTime inc)).frameQueue
        = (if p.frames then horizonRamp start inc n else []) ∧
      (clockRun p inputs (clockInit start endTime inc)).eventsQueue
        = (if p.events then horizonRamp start inc n else []) ∧
      (clockRun p inputs (clockInit start endTime inc)).triggerQueue
        = (if p.triggers then horizonRamp start inc n else []) ∧
      (clockRun p inputs (clockInit start endTime inc)).imuQueue
        = (if p.imu then horizonRamp start inc n else [])) := by
  by_cases hst : start = -1
  · subst hst
    have h := clockRun_invariant p unboundedInv
      (fun i s _ hs => unboundedInv_clockTick p i s hs) inputs _
      (unboundedInv_clockInit endTime inc)
    obtain ⟨_, _, _, hf, he, ht, hi⟩ := h
    exact ⟨⟨pairwise_le_of_all_eq _ _ hf, pairwise_le_of_all_eq _ _ he,
      pairwise_le_of_all_eq _ _ ht, pairwise_le_of_all_eq _ _ hi⟩, fun h => absurd rfl h⟩
  · rcases hmode with hm | ⟨h1, _, hlo, hs, he⟩
    · exact absurd hm hst
    · have hinc : 0 ≤ inc := by omega
      have h := clockRun_invariant p (fun s => ∃ n, boundedInv p start endTime inc n s)
        (fun i s hspin hI => by
          obtain ⟨n, hn⟩ := hI
          exact ⟨_, boundedInv_clockTick p start endTime inc i n s hinc hlo hs he hspin hn⟩)
        inputs _ ⟨0, boundedInv_clockInit p start endTime inc hst⟩
      obtain ⟨n, _, _, _, hf, hev, ht, hi, _⟩ := h
      have hr := horizonRamp_pairwise start inc n hinc
      refine ⟨⟨?_, ?_, ?_, ?_⟩, fun _ => ⟨n, hf, hev, ht, hi⟩⟩
      · rw [hf]; split <;> simp [hr]
      · rw [hev]; split <;> simp [hr]
      · rw [ht]; split <;> simp [hr]
      · rw [hi]; split <;> simp [hr]

/-- C7 at a concrete run: start 100, end 125, increment 10, one unsynchronized tick. -/
theorem C7_horizons_non_decreasing_witness :
    ((100 : Int) = -1 ∨ ((1 : Int) ≤ 10 ∧ (10 : Int) ≤ 1000000 ∧ INT64_MIN ≤ 100 ∧
      (100 : Int) + 10 ≤ INT64_MAX ∧ (125 : Int) + 10 ≤ INT64_MAX)) ∧
    (clockRun ⟨true, false, false, true⟩
        [⟨true, true⟩, ⟨false, true⟩, ⟨true, true⟩, ⟨true, true⟩, ⟨true, true⟩]
        (clockInit 100 125 10)).frameQueue.Pairwise (· ≤ ·) :=
  ⟨by decide, (C7_horizons_non_decreasing ⟨true, false, false, true⟩
    [⟨true, true⟩, ⟨false, true⟩, ⟨true, true⟩, ⟨true, true⟩, ⟨true, true⟩] 100 125 10
    (by decide)).1.1⟩
/-! Modality publishers -/

theorem drainLoop_none {β μ σ : Type} (m : Modality β μ σ) (subs : Nat → Bool) (ts : Int)
    (reader : List (Option β)) (out : List μ) (seek : Int) (polls : Nat) (aux : σ) :
    drainLoop m subs ts reader none out seek polls aux
      = { held := none, reader := reader, published := out, currentSeek := seek,
          polls := polls, aux := aux } := by
  cases reader <;> rfl

theorem drainLoop_not_due {β μ σ : Type} (m : Modality β μ σ) (subs : Nat → Bool) (ts : Int)
    (reader : List (Option β)) (b : β) (out : List μ) (seek : Int) (polls : Nat) (aux : σ)
    (h : (m.hasData b && decide (ts ≥ m.lastTimestamp b)) = false) :
    drainLoop m subs ts reader (some b) out seek polls aux
      = { held := some b, reader := reader, published := out, currentSeek := seek,
          polls := polls, aux := aux } := by
  cases reader <;> simp [drainLoop, h]

theorem drainLoop_due_nil {β μ σ : Type} (m : Modality β μ σ) (subs : Nat → Bool) (ts : Int)
    (b : β) (out : List μ) (seek : Int) (polls : Nat) (aux : σ)
    (h : (m.hasData b && decide (ts ≥ m.lastTimestamp b)) = true) :
    drainLoop m subs ts [] (some b) out seek polls aux
      = { held := none, reader := [], published := out ++ (m.handle (subs polls) aux b).1,
          currentSeek := (m.handle (subs polls) aux b).2.1, polls := polls + 1,
          aux := (m.handle (subs polls) aux b).2.2 } := by
  simp [drainLoop, h]

theorem drainLoop_due_cons {β μ σ : Type} (m : Modality β μ σ) (subs : Nat → Bool) (ts : Int)
    (r : Option β) (rest : List (Option β)) (b : β) (out : List μ) (seek : Int) (polls : Nat)
    (aux : σ) (h : (m.hasData b && decide (ts ≥ m.lastTimestamp b)) = true) :
    drainLoop m subs ts (r :: rest) (some b) out seek polls aux
      = drainLoop m subs ts rest r (out ++ (m.handle (subs polls) aux b).1)
          (m.handle (subs polls) aux b).2.1 (polls + 1) (m.handle (subs polls) aux b).2.2 := by
  simp [drainLoop, h]

/-- What the inner loop publishes is appended to what was published before, and
every new sample comes from `handle` on a batch that was due. -/
theorem drainLoop_published {β μ σ : Type} (m : Modality β μ σ) (subs : Nat → Bool) (ts : Int)
    (P : μ → Prop) (Q : β → Prop)
    (hh : ∀ sub aux b, Q b → m.hasData b = true → ts ≥ m.lastTimestamp b →
      ∀ x ∈ (m.handle sub aux b).1, P x) :
    ∀ (reader : List (Option β)) (held : Option β) (out : List μ) (seek : Int) (polls : Nat)
      (aux : σ), (∀ b, some b ∈ reader → Q b) → (∀ b, held = some b → Q b) →
      ∃ new, (drainLoop m subs ts reader held out seek polls aux).published = out ++ new ∧
        ∀ x ∈ new, P x := by
  intro reader
  induction reader with
  | nil =>
    intro held out seek polls aux _ hheld
    cases held with
    | none => exact ⟨[], by simp [drainLoop_none], by simp⟩
    | some b =>
      cases hd : (m.hasData b && decide (ts ≥ m.lastTimestamp b))
      · exact ⟨[], by simp [drainLoop_not_due _ _ _ _ _ _ _ _ _ hd], by simp⟩
      · refine ⟨(m.handle (subs polls) aux b).1, by simp [drainLoop_due_nil _ _ _ _ _ _ _ _ hd], ?_⟩
        simp only [Bool.and_eq_true, decide_eq_true_eq] at hd
        exact hh _ _ _ (hheld b rfl) hd.1 hd.2
  | cons r rest ih =>
    intro held out seek polls aux hreader hheld
    cases held with
    | none => exact ⟨[], by simp [drainLoop_none], by simp⟩
    | some b =>
      cases hd : (m.hasData b && decide (ts ≥ m.lastTimestamp b))
      · exact ⟨[], by simp [drainLoop_not_due _ _ _ _ _ _ _ _ _ hd], by simp⟩
      · rw [drainLoop_due_cons _ _ _ _ _ _ _ _ _ _ hd]
        obtain ⟨new, hnew, hP⟩ := ih r (out ++ (m.handle (subs polls) aux b).1)
          (m.handle (subs polls) aux b).2.1 (polls + 1) (m.handle (subs polls) aux b).2.2
          (fun b hb => hreader b (List.mem_cons_of_mem _ hb))
          (fun b hb => hreader b (by simp [hb]))
        refine ⟨(m.handle (subs polls) aux b).1 ++ new, by rw [hnew, List.append_assoc], ?_⟩
        intro x hx
        rw [List.mem_append] at hx
        rcases hx with hx | hx
        · simp only [Bool.and_eq_true, decide_eq_true_eq] at hd
          exact hh _ _ _ (hheld b rfl) hd.1 hd.2 x hx
        · exact hP x hx

theorem discardEmpty_published {β μ σ : Type} (m : Modality β μ σ) (q : Publisher β μ σ) :
    (discardEmpty m q).published = q.published := by
  unfold discardEmpty
  split
  · split <;> rfl
  · rfl

theorem discardEmpty_reader {β μ σ : Type} (m : Modality β μ σ) (q : Publisher β μ σ) :
    (discardEmpty m q).reader = q.reader := by
  unfold discardEmpty
  split
  · split <;> rfl
  · rfl

theorem discardEmpty_held {β μ σ : Type} (m : Modality β μ σ) (q : Publisher β μ σ) :
    (discardEmpty m q).held = q.held.filter m.hasData := by
  unfold discardEmpty
  cases hq : q.held with
  | none => simp [hq]
  | some b => cases hb : m.hasData b <;> simp [Option.filter, hb, hq]

theorem mem_pullIfEmpty {β μ σ : Type} (p : Publisher β μ σ) (b : β)
    (hb : some b ∈ (pullIfEmpty p).2 ∨ (pullIfEmpty p).1 = some b) :
    some b ∈ p.reader ∨ p.held = some b := by
  unfold pullIfEmpty at hb
  cases hp : p.held with
  | some b0 =>
    rw [hp] at hb
    exact hb
  | none =>
    rw [hp] at hb
    cases hr : p.reader with
    | nil => rw [hr] at hb; simp [pullNext] at hb
    | cons r rest =>
      rw [hr] at hb
      simp only [pullNext] at hb
      left
      rcases hb with hb | hb
      · exact List.mem_cons_of_mem _ hb
      · rw [hb]; simp

/-- Per-horizon form of `drainLoop_published`. -/
theorem onHorizon_published {β μ σ : Type} (m : Modality β μ σ) (subs : Nat → Bool) (ts : Int)
    (P : μ → Prop) (Q : β → Prop)
    (hh : ∀ sub aux b, Q b → m.hasData b = true → ts ≥ m.lastTimestamp b →
      ∀ x ∈ (m.handle sub aux b).1, P x)
    (p : Publisher β μ σ) (hreader : ∀ b, some b ∈ p.reader → Q b)
    (hheld : ∀ b, p.held = some b → Q b) :
    ∃ new, (onHorizon m subs ts p).published = p.published ++ new ∧ ∀ x ∈ new, P x := by
  unfold onHorizon
  rw [discardEmpty_published]
  apply drainLoop_published m subs ts P Q hh
  · intro b hb
    rcases mem_pullIfEmpty p b (Or.inl hb) with h | h
    · exact hreader b h
    · exact hheld b h
  · intro b hb
    rcases mem_pullIfEmpty p b (Or.inr hb) with h | h
    · exact hreader b h
    · exact hheld b h

theorem le_of_lastIsLatest {α : Type} (ts : α → Int) (b : List α) (h : Int)
    (hb : lastIsLatest ts b) (hlast : ∀ l, b.getLast? = some l → ts l ≤ h) :
    ∀ x ∈ b, ts x ≤ h := by
  intro x hx
  cases hl : b.getLast? with
  | none =>
    rw [List.getLast?_eq_none_iff] at hl
    subst hl
    simp at hx
  | some l =>
    have h1 := hb x hx l hl
    have h2 := hlast l hl
    omega

theorem lastIsLatest_singleton {α : Type} (ts : α → Int) (a : α) : lastIsLatest ts [a] := by
  intro x hx l hl
  simp only [List.mem_singleton] at hx
  simp only [List.getLast?_singleton, Option.some.injEq] at hl
  rw [hx, hl]

theorem lastIsLatest_init_singleton {α μ σ : Type} (ts : α → Int) (a : α) (aux : σ) (b : List α)
    (hb : some b ∈ (Publisher.init [some [a]] aux : Publisher (List α) μ σ).reader ∨
      (Publisher.init [some [a]] aux : Publisher (List α) μ σ).held = some b) :
    lastIsLatest ts b := by
  rcases hb with hb | hb
  · simp only [Publisher.init, List.mem_singleton, Option.some.injEq] at hb
    rw [hb]
    exact lastIsLatest_singleton ts a
  · simp [Publisher.init] at hb

/-- C1 (as stated, refuted): with an IMU time offset of 5, a subscriber and the
horizon 10, the IMU publisher emits a message carrying the timestamp 15 for the
source sample of timestamp 10. -/
theorem C1_imu_message_exceeds_horizon :
    ¬ ∀ x ∈ (imuPublisher 5 (fun _ => true) [10]
          (Publisher.init [some [(⟨10, 0, 0, 0, 0, 0, 0⟩ : IMU Int)]] ())).published,
        x.timestamp ≤ 10 := by
  decide

/-- C1 (amended): with batches in timestamp order, every sample that the frame,
events or trigger publisher emits while it handles a horizon has a timestamp at
most that horizon (events: also behind a noise filter that only drops events);
every message of the IMU publisher is a sample of a batch delivered by the
source, with a source timestamp at most the horizon, published with the 64-bit
sum of that timestamp and the IMU time offset (the exact sum when it fits). -/
theorem C1_emitted_within_horizon {R σ : Type} (subs : Nat → Bool) (h : Int)
    (pf : Publisher Frame Frame Unit)
    (filter : Option (σ → EventStore → EventStore × σ)) (pe : Publisher EventStore EventStore σ)
    (offset : Int) (pi : Publisher (List (IMU R)) (IMU R) Unit)
    (pt : Publisher (List Trigger) Trigger Unit)
    (hfilter : ∀ f, filter = some f → ∀ aux b, ∀ e ∈ (f aux b).1, e ∈ b)
    (hpe : ∀ b, some b ∈ pe.reader ∨ pe.held = some b → lastIsLatest Event.timestamp b)
    (hpi : ∀ b, some b ∈ pi.reader ∨ pi.held = some b → lastIsLatest IMU.timestamp b)
    (hpt : ∀ b, some b ∈ pt.reader ∨ pt.held = some b → lastIsLatest Trigger.timestamp b) :
    (∃ new, (onHorizon frameModality subs h pf).published = pf.published ++ new ∧
      ∀ x ∈ new, x.timestamp ≤ h) ∧
    (∃ new, (onHorizon (eventsModality filter) subs h pe).published = pe.published ++ new ∧
      ∀ store ∈ new, ∀ e ∈ store, e.timestamp ≤ h) ∧
    (∃ new, (onHorizon (imuModality offset) subs h pi).published = pi.published ++ new ∧
      ∀ x ∈ new, ∃ b, (some b ∈ pi.reader ∨ pi.held = some b) ∧ ∃ s ∈ b,
        s.timestamp ≤ h ∧ x = shiftImu offset s ∧
        x.timestamp = wrapInt64 (s.timestamp + offset) ∧
        (fitsInt64 (s.timestamp + offset) → x.timestamp = s.timestamp + offset)) ∧
    (∃ new, (onHorizon triggerModality subs h pt).published = pt.published ++ new ∧
      ∀ x ∈ new, x.timestamp ≤ h) := by
  refine ⟨?_, ?_, ?_, ?_⟩
  · apply onHorizon_published frameModality subs h (fun x => x.timestamp ≤ h) (fun _ => True)
    · intro sub aux b _ _ hts x hx
      cases sub
      · simp [frameModality] at hx
      · simp only [frameModality, if_true, List.mem_singleton] at hx
        subst hx
        exact hts
    · intro _ _; trivial
    · intro _ _; trivial
  · apply onHorizon_published (eventsModality filter) subs h
      (fun store => ∀ e ∈ store, e.timestamp ≤ h) (lastIsLatest Event.timestamp)
    · intro sub aux b hb _ hts store hstore
      have hall := le_of_lastIsLatest Event.timestamp b h hb (by
        intro l hl
        simpa [eventsModality, getHighestTime, hl] using hts)
      cases sub
      · cases filter <;> simp [eventsModality] at hstore
      · cases hf : filter with
        | none =>
          simp only [eventsModality, hf, if_true, List.mem_singleton] at hstore
          subst hstore
          exact hall
        | some f =>
          simp only [eventsModality, hf, if_true, List.mem_singleton] at hstore
          subst hstore
          intro e he
          exact hall e (hfilter f hf aux b e he)
    · intro b hb; exact hpe b (Or.inl hb)
    · intro b hb; exact hpe b (Or.inr hb)
  · apply onHorizon_published (imuModality offset) subs h
      (fun x => ∃ b, (some b ∈ pi.reader ∨ pi.held = some b) ∧ ∃ s ∈ b,
        s.timestamp ≤ h ∧ x = shiftImu offset s ∧
        x.timestamp = wrapInt64 (s.timestamp + offset) ∧
        (fitsInt64 (s.timestamp + offset) → x.timestamp = s.timestamp + offset))
      (fun b => (some b ∈ pi.reader ∨ pi.held = some b) ∧ lastIsLatest IMU.timestamp b)
    · intro sub aux b hb _ hts x hx
      have hall := le_of_lastIsLatest IMU.timestamp b h hb.2 (by
        intro l hl
        simpa [imuModality, imuBackTimestamp, hl] using hts)
      cases sub
      · simp [imuModality] at hx
      · simp only [imuModality, if_true, List.mem_map] at hx
        obtain ⟨s, hs, rfl⟩ := hx
        exact ⟨b, hb.1, s, hs, hall s hs, rfl, rfl, fun hfit => wrapInt64_of_fits _ hfit⟩
    · intro b hb; exact ⟨Or.inl hb, hpi b (Or.inl hb)⟩
    · intro b hb; exact ⟨Or.inr hb, hpi b (Or.inr hb)⟩
  · apply onHorizon_published triggerModality subs h (fun x => x.timestamp ≤ h)
      (lastIsLatest Trigger.timestamp)
    · intro sub aux b hb _ hts x hx
      have hall := le_of_lastIsLatest Trigger.timestamp b h hb (by
        intro l hl
        simpa [triggerModality, triggerBackTimestamp, hl] using hts)
      cases sub
      · simp [triggerModality] at hx
      · simp only [triggerModality, if_true] at hx
        exact hall x hx
    · intro b hb; exact hpt b (Or.inl hb)
    · intro b hb; exact hpt b (Or.inr hb)

/-- C1 (amended) at a concrete state: one single-sample batch per modality
(frame at 5, event at 3, IMU sample at 10, trigger at 4), a subscriber, horizon
10, IMU time offset 5. -/
theorem C1_emitted_within_horizon_witness :
    (∃ new, (onHorizon frameModality (fun _ => true) 10
        (Publisher.init [some ⟨5, []⟩] ())).published
        = (Publisher.init [some ⟨5, []⟩] () : Publisher Frame Frame Unit).published ++ new ∧
      ∀ x ∈ new, x.timestamp ≤ 10) ∧
    (∃ new, (onHorizon (eventsModality (none : Option (Unit → EventStore → EventStore × Unit)))
        (fun _ => true) 10 (Publisher.init [some [⟨3, 0, 0, true⟩]] ())).published
        = (Publisher.init [some [⟨3, 0, 0, true⟩]] ()
            : Publisher EventStore EventStore Unit).published ++ new ∧
      ∀ store ∈ new, ∀ e ∈ store, e.timestamp ≤ 10) ∧
    (∃ new, (onHorizon (imuModality 5) (fun _ => true) 10
        (Publisher.init [some [(⟨10, 0, 0, 0, 0, 0, 0⟩ : IMU Int)]] ())).published
        = (Publisher.init [some [(⟨10, 0, 0, 0, 0, 0, 0⟩ : IMU Int)]] ()
            : Publisher (List (IMU Int)) (IMU Int) Unit).published ++ new ∧
      ∀ x ∈ new, ∃ b,
        (some b ∈ (Publisher.init [some [(⟨10, 0, 0, 0, 0, 0, 0⟩ : IMU Int)]] ()
            : Publisher (List (IMU Int)) (IMU Int) Unit).reader ∨
          (Publisher.init [some [(⟨10, 0, 0, 0, 0, 0, 0⟩ : IMU Int)]] ()
            : Publisher (List (IMU Int)) (IMU Int) Unit).held = some b) ∧ ∃ s ∈ b,
        s.timestamp ≤ 10 ∧ x = shiftImu 5 s ∧
        x.timestamp = wrapInt64 (s.timestamp + 5) ∧
        (fitsInt64 (s.timestamp + 5) → x.timestamp = s.timestamp + 5)) ∧
    (∃ new, (onHorizon triggerModality (fun _ => true) 10
        (Publisher.init [some [⟨4, 0⟩]] ())).published
        = (Publisher.init [some [⟨4, 0⟩]] ()
            : Publisher (List Trigger) Trigger Unit).published ++ new ∧
      ∀ x ∈ new, x.timestamp ≤ 10) :=
  @C1_emitted_within_horizon Int Unit (fun _ => true) 10
    (Publisher.init [some ⟨5, []⟩] ()) none (Publisher.init [some [⟨3, 0, 0, true⟩]] ())
    5 (Publisher.init [some [⟨10, 0, 0, 0, 0, 0, 0⟩]] ())
    (Publisher.init [some [⟨4, 0⟩]] ())
    (fun _ hf => Option.noConfusion hf)
    (lastIsLatest_init_singleton Event.timestamp _ ())
    (lastIsLatest_init_singleton IMU.timestamp _ ())
    (lastIsLatest_init_singleton Trigger.timestamp _ ())

theorem pulledBatches_cons_some {β μ σ : Type} (m : Modality β μ σ) (b : β)
    (l : List (Option β)) (hb : m.hasData b = true) :
    pulledBatches m (some b :: l) = b :: pulledBatches m l := by
  simp [pulledBatches, hb]

theorem pulledBatches_cons_none {β μ σ : Type} (m : Modality β μ σ) (l : List (Option β)) :
    pulledBatches m (none :: l) = pulledBatches m l := by
  simp [pulledBatches]

theorem pulledBatches_cons {β μ σ : Type} (m : Modality β μ σ) (r : Option β)
    (l : List (Option β)) :
    pulledBatches m (r :: l) = pulledBatches m [r] ++ pulledBatches m l := by
  cases r with
  | none => simp [pulledBatches]
  | some b => cases hb : m.hasData b <;> simp [pulledBatches, hb]

theorem pulledBatches_append {β μ σ : Type} (m : Modality β μ σ) (l₁ l₂ : List (Option β)) :
    pulledBatches m (l₁ ++ l₂) = pulledBatches m l₁ ++ pulledBatches m l₂ := by
  simp [pulledBatches]

/-- With a subscriber at every test, the inner loop publishes, in pull order, the
image under `E` of every data-carrying batch it goes through, except the one it
still holds at the end. -/
theorem drainLoop_log {β μ σ : Type} (m : Modality β μ σ) (ts : Int) (E : β → List μ)
    (hE : ∀ aux b, (m.handle true aux b).1 = E b) :
    ∀ (reader : List (Option β)) (held : Option β) (out : List μ) (seek : Int) (polls : Nat)
      (aux : σ),
      ∃ consumed,
        reader = consumed
          ++ (drainLoop m (fun _ => true) ts reader held out seek polls aux).reader ∧
        (drainLoop m (fun _ => true) ts reader held out seek polls aux).published
          ++ (pulledBatches m
                [(drainLoop m (fun _ => true) ts reader held out seek polls aux).held]).flatMap E
          = out ++ (pulledBatches m (held :: consumed)).flatMap E := by
  intro reader
  induction reader with
  | nil =>
    intro held out seek polls aux
    refine ⟨[], ?_, ?_⟩
    · cases held with
      | none => simp [drainLoop_none]
      | some b =>
        cases hd : (m.hasData b && decide (ts ≥ m.lastTimestamp b))
        · simp [drainLoop_not_due _ _ _ _ _ _ _ _ _ hd]
        · simp [drainLoop_due_nil _ _ _ _ _ _ _ _ hd]
    · cases held with
      | none => simp [drainLoop_none]
      | some b =>
        cases hd : (m.hasData b && decide (ts ≥ m.lastTimestamp b))
        · simp [drainLoop_not_due _ _ _ _ _ _ _ _ _ hd]
        · rw [drainLoop_due_nil _ _ _ _ _ _ _ _ hd]
          simp only [Bool.and_eq_true, decide_eq_true_eq] at hd
          simp [pulledBatches, hd.1, hE]
  | cons r rest ih =>
    intro held out seek polls aux
    cases held with
    | none => exact ⟨[], by simp [drainLoop_none], by simp [drainLoop_none]⟩
    | some b =>
      cases hd : (m.hasData b && decide (ts ≥ m.lastTimestamp b))
      · exact ⟨[], by simp [drainLoop_not_due _ _ _ _ _ _ _ _ _ hd],
          by simp [drainLoop_not_due _ _ _ _ _ _ _ _ _ hd]⟩
      · rw [drainLoop_due_cons _ _ _ _ _ _ _ _ _ _ hd]
        obtain ⟨c, hc, hlog⟩ := ih r (out ++ (m.handle true aux b).1)
          (m.handle true aux b).2.1 (polls + 1) (m.handle true aux b).2.2
        refine ⟨r :: c, ?_, ?_⟩
        · rw [List.cons_append, ← hc]
        · rw [hlog]
          simp only [Bool.and_eq_true, decide_eq_true_eq] at hd
          rw [pulledBatches_cons_some m b (r :: c) hd.1, hE]
          simp

theorem pulledBatches_filter {β μ σ : Type} (m : Modality β μ σ) (h : Option β) :
    pulledBatches m [h.filter m.hasData] = pulledBatches m [h] := by
  cases h with
  | none => rfl
  | some b => cases hb : m.hasData b <;> simp [pulledBatches, Option.filter, hb]

/-- Per-horizon form of `drainLoop_log`; dropping a held batch without data does
not change the log. -/
theorem onHorizon_log {β μ σ : Type} (m : Modality β μ σ) (ts : Int) (E : β → List μ)
    (hE : ∀ aux b, (m.handle true aux b).1 = E b) (p : Publisher β μ σ) :
    ∃ consumed,
      p.reader = consumed ++ (onHorizon m (fun _ => true) ts p).reader ∧
      (onHorizon m (fun _ => true) ts p).published
        ++ (pulledBatches m [(onHorizon m (fun _ => true) ts p).held]).flatMap E
        = p.published ++ (pulledBatches m (p.held :: consumed)).flatMap E := by
  unfold onHorizon
  rw [discardEmpty_published, discardEmpty_reader, discardEmpty_held, pulledBatches_filter]
  obtain ⟨c, hc, hlog⟩ := drainLoop_log m ts E hE (pullIfEmpty p).2 (pullIfEmpty p).1
    p.published p.currentSeek p.polls p.aux
  rw [hlog]
  unfold pullIfEmpty at hc ⊢
  cases hp : p.held with
  | some b0 =>
    rw [hp] at hc
    exact ⟨c, hc, rfl⟩
  | none =>
    rw [hp] at hc
    cases hr : p.reader with
    | nil =>
      rw [hr] at hc
      exact ⟨c, hc, rfl⟩
    | cons r rest =>
      rw [hr] at hc
      simp only [pullNext] at hc ⊢
      refine ⟨r :: c, ?_, ?_⟩
      · rw [List.cons_append, ← hc]
      · rw [pulledBatches_cons_none]
/-- Run form of `onHorizon_log`: over any sequence of horizons, what has been
published followed by what is still held is what has been pulled. -/
theorem runPublisher_log {β μ σ : Type} (m : Modality β μ σ) (E : β → List μ)
    (hE : ∀ aux b, (m.handle true aux b).1 = E b) :
    ∀ (horizons : List Int) (p : Publisher β μ σ),
      ∃ consumed,
        p.reader = consumed ++ (runPublisher m (fun _ => true) horizons p).reader ∧
        (runPublisher m (fun _ => true) horizons p).published
          ++ (pulledBatches m [(runPublisher m (fun _ => true) horizons p).held]).flatMap E
          = p.published ++ (pulledBatches m (p.held :: consumed)).flatMap E := by
  intro horizons
  induction horizons with
  | nil =>
    intro p
    exact ⟨[], by simp [runPublisher], by simp [runPublisher]⟩
  | cons h rest ih =>
    intro p
    obtain ⟨c1, hc1, hlog1⟩ := onHorizon_log m h E hE p
    obtain ⟨c2, hc2, hlog2⟩ := ih (onHorizon m (fun _ => true) h p)
    have hrun : runPublisher m (fun _ => true) (h :: rest) p
        = runPublisher m (fun _ => true) rest (onHorizon m (fun _ => true) h p) := by
      simp [runPublisher]
    rw [hrun]
    refine ⟨c1 ++ c2, ?_, ?_⟩
    · rw [List.append_assoc, ← hc2, ← hc1]
    · rw [hlog2, pulledBatches_cons, List.flatMap_append, ← List.append_assoc, hlog1,
        ← List.cons_append, pulledBatches_append, List.flatMap_append, List.append_assoc]

/-- After a run that started with nothing held or a data-carrying batch held, a
held batch carries data. -/
theorem runPublisher_held {β μ σ : Type} (m : Modality β μ σ) (subs : Nat → Bool) :
    ∀ (horizons : List Int) (p : Publisher β μ σ),
      (∀ b, p.held = some b → m.hasData b = true) →
      ∀ b, (runPublisher m subs horizons p).held = some b → m.hasData b = true := by
  intro horizons
  induction horizons with
  | nil => intro p hp b hb; exact hp b (by simpa [runPublisher] using hb)
  | cons h rest ih =>
    intro p _ b hb
    have hrun : runPublisher m subs (h :: rest) p
        = runPublisher m subs rest (onHorizon m subs h p) := by
      simp [runPublisher]
    rw [hrun] at hb
    refine ih (onHorizon m subs h p) ?_ b hb
    intro b0 hb0
    unfold onHorizon at hb0
    rw [discardEmpty_held] at hb0
    rw [Option.filter_eq_some] at hb0
    exact hb0.2

theorem flatMap_map_nonempty {α β : Type} (f : α → β) (l : List (List α)) :
    (l.filter (fun b => !b.isEmpty)).flatMap (List.map f) = l.flatten.map f := by
  induction l with
  | nil => rfl
  | cons b rest ih =>
    cases b with
    | nil => simpa using ih
    | cons a as =>
      simp only [List.isEmpty_cons, Bool.not_false, List.filter_cons_of_pos, List.flatMap_cons,
        List.flatten_cons, List.map_append, ih]

/-- C2: with a subscriber at every test and no noise filter, for every list of
reader answers and every list of dequeued horizons, the reader's answers split
into those pulled so far and those still to come, and what the publisher has
emitted, followed by the batch it still holds, is exactly the sequence of pulled
non-empty batches in pull order (frames and event batches as such, IMU and
trigger batches sample by sample, IMU samples after the time-offset shift). The
emitted samples are thus a leading part of the pulled ones: none is reordered,
repeated or passed over. -/
theorem C2_emission_follows_pull_order {R : Type} (offset : Int)
    (hsF hsE hsI hsT : List Int) (srcF : List (Option Frame)) (srcE : List (Option EventStore))
    (srcI : List (Option (List (IMU R)))) (srcT : List (Option (List Trigger))) :
    (∃ consumed,
      srcF = consumed ++ (framePublisher (fun _ => true) hsF (Publisher.init srcF ())).reader ∧
      (framePublisher (fun _ => true) hsF (Publisher.init srcF ())).published
        ++ (framePublisher (fun _ => true) hsF (Publisher.init srcF ())).held.toList
        = consumed.reduceOption) ∧
    (∃ consumed,
      srcE = consumed
        ++ (eventsPublisher none (fun _ => true) hsE (Publisher.init srcE ())).reader ∧
      (eventsPublisher none (fun _ => true) hsE (Publisher.init srcE ())).published
        ++ (eventsPublisher none (fun _ => true) hsE (Publisher.init srcE ())).held.toList
        = consumed.reduceOption.filter (fun b => !b.isEmpty)) ∧
    (∃ consumed,
      srcI = consumed
        ++ (imuPublisher offset (fun _ => true) hsI (Publisher.init srcI ())).reader ∧
      (imuPublisher offset (fun _ => true) hsI (Publisher.init srcI ())).published
        ++ ((imuPublisher offset (fun _ => true) hsI
              (Publisher.init srcI ())).held.toList.flatten).map (shiftImu offset)
        = consumed.reduceOption.flatten.map (shiftImu offset)) ∧
    (∃ consumed,
      srcT = consumed ++ (triggerPublisher (fun _ => true) hsT (Publisher.init srcT ())).reader ∧
      (triggerPublisher (fun _ => true) hsT (Publisher.init srcT ())).published
        ++ (triggerPublisher (fun _ => true) hsT (Publisher.init srcT ())).held.toList.flatten
        = consumed.reduceOption.flatten) := by
  refine ⟨?_, ?_, ?_, ?_⟩
  · obtain ⟨c, hc, hlog⟩ := runPublisher_log frameModality (fun f => [f])
      (fun _ _ => rfl) hsF (Publisher.init srcF ())
    refine ⟨c, hc, ?_⟩
    unfold framePublisher
    have h1 : ∀ l : List (Option Frame),
        (pulledBatches frameModality l).flatMap (fun f => [f]) = l.reduceOption := by
      intro l
      simp [pulledBatches, frameModality, List.reduceOption, List.flatMap_singleton']
    rw [h1, h1] at hlog
    simpa [Publisher.init, List.reduceOption] using hlog
  · obtain ⟨c, hc, hlog⟩ := runPublisher_log (eventsModality (none : Option (Unit → EventStore → EventStore × Unit)))
      (fun b => [b]) (fun _ _ => rfl) hsE (Publisher.init srcE ())
    refine ⟨c, hc, ?_⟩
    unfold eventsPublisher
    have hheld := runPublisher_held
      (eventsModality (none : Option (Unit → EventStore → EventStore × Unit))) (fun _ => true)
      hsE (Publisher.init srcE ()) (by intro b hb; simp [Publisher.init] at hb)
    have h1 : ∀ l : List (Option EventStore),
        (pulledBatches (eventsModality (none : Option (Unit → EventStore → EventStore × Unit)))
            l).flatMap (fun b => [b])
          = l.reduceOption.filter (fun b => !b.isEmpty) := by
      intro l
      simp [pulledBatches, eventsModality, List.reduceOption, List.flatMap_singleton']
    rw [h1, h1] at hlog
    cases hh : (runPublisher (eventsModality none) (fun _ => true) hsE
        (Publisher.init srcE ())).held with
    | none =>
      rw [hh] at hlog
      simpa [Publisher.init, List.reduceOption] using hlog
    | some b =>
      have hb := hheld b hh
      simp only [eventsModality] at hb
      rw [hh] at hlog
      simpa [Publisher.init, List.reduceOption, hb] using hlog
  · obtain ⟨c, hc, hlog⟩ := runPublisher_log (imuModality offset : Modality (List (IMU R)) _ _)
      (List.map (shiftImu offset)) (fun _ _ => rfl) hsI (Publisher.init srcI ())
    refine ⟨c, hc, ?_⟩
    unfold imuPublisher
    have h1 : ∀ l : List (Option (List (IMU R))),
        (pulledBatches (imuModality offset : Modality (List (IMU R)) _ _) l).flatMap
            (List.map (shiftImu offset))
          = l.reduceOption.flatten.map (shiftImu offset) := by
      intro l
      rw [← flatMap_map_nonempty]
      rfl
    rw [h1, h1] at hlog
    simpa [Publisher.init, List.reduceOption] using hlog
  · obtain ⟨c, hc, hlog⟩ := runPublisher_log triggerModality (List.map id)
      (fun _ _ => by simp [triggerModality]) hsT (Publisher.init srcT ())
    refine ⟨c, hc, ?_⟩
    unfold triggerPublisher
    have h1 : ∀ l : List (Option (List Trigger)),
        (pulledBatches triggerModality l).flatMap (List.map id) = l.reduceOption.flatten := by
      intro l
      have := flatMap_map_nonempty (id : Trigger → Trigger) l.reduceOption
      rw [List.map_id] at this
      rw [← this]
      rfl
    rw [h1, h1] at hlog
    simpa [Publisher.init, List.reduceOption] using hlog

/-- When the inner loop meets a batch without data, either held on entry or
among the pulled answers, it stops there and leaves that batch held. -/
theorem drainLoop_stops_at_empty {β μ σ : Type} (m : Modality β μ σ) (subs : Nat → Bool)
    (ts : Int) :
    ∀ (reader : List (Option β)) (held : Option β) (out : List μ) (seek : Int) (polls : Nat)
      (aux : σ),
      ∃ consumed,
        reader = consumed ++ (drainLoop m subs ts reader held out seek polls aux).reader ∧
        (((∃ b, some b ∈ consumed ∧ m.hasData b = false) ∨
            (∃ b, held = some b ∧ m.hasData b = false)) →
          ∃ b, (drainLoop m subs ts reader held out seek polls aux).held = some b ∧
            m.hasData b = false) := by
  intro reader
  induction reader with
  | nil =>
    intro held out seek polls aux
    refine ⟨[], ?_, ?_⟩
    · cases held with
      | none => simp [drainLoop_none]
      | some b =>
        cases hd : (m.hasData b && decide (ts ≥ m.lastTimestamp b))
        · simp [drainLoop_not_due _ _ _ _ _ _ _ _ _ hd]
        · simp [drainLoop_due_nil _ _ _ _ _ _ _ _ hd]
    · rintro (⟨b, hb, _⟩ | ⟨b, hb, hdata⟩)
      · simp at hb
      · subst hb
        have hd : (m.hasData b && decide (ts ≥ m.lastTimestamp b)) = false := by simp [hdata]
        exact ⟨b, by rw [drainLoop_not_due _ _ _ _ _ _ _ _ _ hd], hdata⟩
  | cons r rest ih =>
    intro held out seek polls aux
    cases held with
    | none =>
      refine ⟨[], by simp [drainLoop_none], ?_⟩
      rintro (⟨b, hb, _⟩ | ⟨b, hb, _⟩)
      · simp at hb
      · simp at hb
    | some b =>
      cases hd : (m.hasData b && decide (ts ≥ m.lastTimestamp b))
      · refine ⟨[], by simp [drainLoop_not_due _ _ _ _ _ _ _ _ _ hd], ?_⟩
        rintro (⟨b', hb', _⟩ | ⟨b', hb', hdata⟩)
        · simp at hb'
        · simp only [Option.some.injEq] at hb'
          subst hb'
          exact ⟨b, by rw [drainLoop_not_due _ _ _ _ _ _ _ _ _ hd], hdata⟩
      · rw [drainLoop_due_cons _ _ _ _ _ _ _ _ _ _ hd]
        obtain ⟨c, hc, hstop⟩ := ih r (out ++ (m.handle (subs polls) aux b).1)
          (m.handle (subs polls) aux b).2.1 (polls + 1) (m.handle (subs polls) aux b).2.2
        refine ⟨r :: c, by rw [List.cons_append, ← hc], ?_⟩
        rintro (⟨b', hb', hdata⟩ | ⟨b', hb', hdata⟩)
        · rw [List.mem_cons] at hb'
          rcases hb' with hb' | hb'
          · exact hstop (Or.inr ⟨b', hb'.symm, hdata⟩)
          · exact hstop (Or.inl ⟨b', hb', hdata⟩)
        · simp only [Option.some.injEq] at hb'
          subst hb'
          simp [hdata] at hd

/-- After the callback for one horizon a held batch carries data, and the slot is
empty whenever a batch without data was pulled during the callback. -/
theorem onHorizon_held {β μ σ : Type} (m : Modality β μ σ) (subs : Nat → Bool) (ts : Int)
    (p : Publisher β μ σ) :
    (∀ b, (onHorizon m subs ts p).held = some b → m.hasData b = true) ∧
    (∀ consumed, p.reader = consumed ++ (onHorizon m subs ts p).reader →
      (∃ b, some b ∈ consumed ∧ m.hasData b = false) → (onHorizon m subs ts p).held = none) := by
  constructor
  · intro b hb
    unfold onHorizon at hb
    rw [discardEmpty_held, Option.filter_eq_some] at hb
    exact hb.2
  · intro consumed hcons ⟨b, hb, hdata⟩
    obtain ⟨c, hc, hstop⟩ := drainLoop_stops_at_empty m subs ts (pullIfEmpty p).2
      (pullIfEmpty p).1 p.published p.currentSeek p.polls p.aux
    unfold onHorizon at hcons ⊢
    rw [discardEmpty_reader] at hcons
    rw [discardEmpty_held]
    have hstale : ∃ b', (drainLoop m subs ts (pullIfEmpty p).2 (pullIfEmpty p).1 p.published
        p.currentSeek p.polls p.aux).held = some b' ∧ m.hasData b' = false := by
      apply hstop
      unfold pullIfEmpty at hc hcons ⊢
      cases hp : p.held with
      | some b0 =>
        rw [hp] at hc hcons
        simp only at hc hcons ⊢
        have := List.append_cancel_right (hc.symm.trans hcons)
        subst this
        exact Or.inl ⟨b, hb, hdata⟩
      | none =>
        rw [hp] at hc hcons
        cases hr : p.reader with
        | nil =>
          rw [hr] at hc hcons
          simp only [pullNext] at hc hcons
          have : consumed = [] := by
            have := congrArg List.length hcons
            simp at this
            exact List.eq_nil_of_length_eq_zero (by omega)
          subst this
          simp at hb
        | cons r rest =>
          rw [hr] at hc hcons
          simp only [pullNext] at hc hcons ⊢
          have h2 : (r :: c) ++ (drainLoop m subs ts rest r p.published p.currentSeek p.polls
              p.aux).reader = consumed ++ (drainLoop m subs ts rest r p.published p.currentSeek
              p.polls p.aux).reader := by
            rw [List.cons_append, ← hc]
            exact hcons
          have := List.append_cancel_right h2
          subst this
          rw [List.mem_cons] at hb
          rcases hb with hb | hb
          · exact Or.inr ⟨b, hb.symm, hdata⟩
          · exact Or.inl ⟨b, hb, hdata⟩
    obtain ⟨b', hb', hdata'⟩ := hstale
    rw [hb']
    simp [Option.filter, hdata']

/-- C9: for the events, IMU and trigger publishers, when the handling of a horizon
is finished the held batch, if any, is not empty; and if the reader returned an
empty batch while the horizon was handled, nothing is held afterwards, so that
the next horizon starts with a pull. -/
theorem C9_no_empty_batch_is_kept {R σ : Type} (subs : Nat → Bool) (h : Int)
    (filter : Option (σ → EventStore → EventStore × σ)) (pe : Publisher EventStore EventStore σ)
    (offset : Int) (pi : Publisher (List (IMU R)) (IMU R) Unit)
    (pt : Publisher (List Trigger) Trigger Unit) :
    ((∀ b, (onHorizon (eventsModality filter) subs h pe).held = some b → b ≠ []) ∧
      (∀ consumed, pe.reader = consumed ++ (onHorizon (eventsModality filter) subs h pe).reader →
        some [] ∈ consumed →
        (onHorizon (eventsModality filter) subs h pe).held = none ∧
        pullIfEmpty (onHorizon (eventsModality filter) subs h pe)
          = pullNext (onHorizon (eventsModality filter) subs h pe).reader)) ∧
    ((∀ b, (onHorizon (imuModality offset) subs h pi).held = some b → b ≠ []) ∧
      (∀ consumed, pi.reader = consumed ++ (onHorizon (imuModality offset) subs h pi).reader →
        some [] ∈ consumed →
        (onHorizon (imuModality offset) subs h pi).held = none ∧
        pullIfEmpty (onHorizon (imuModality offset) subs h pi)
          = pullNext (onHorizon (imuModality offset) subs h pi).reader)) ∧
    ((∀ b, (onHorizon triggerModality subs h pt).held = some b → b ≠ []) ∧
      (∀ consumed, pt.reader = consumed ++ (onHorizon triggerModality subs h pt).reader →
        some [] ∈ consumed →
        (onHorizon triggerModality subs h pt).held = none ∧
        pullIfEmpty (onHorizon triggerModality subs h pt)
          = pullNext (onHorizon triggerModality subs h pt).reader)) := by
  refine ⟨⟨?_, ?_⟩, ⟨?_, ?_⟩, ⟨?_, ?_⟩⟩
  · intro b hb hnil
    have := (onHorizon_held (eventsModality filter) subs h pe).1 b hb
    simp [eventsModality, hnil] at this
  · intro consumed hc hmem
    have hnone := (onHorizon_held (eventsModality filter) subs h pe).2 consumed hc
      ⟨[], hmem, by simp [eventsModality]⟩
    exact ⟨hnone, by simp [pullIfEmpty, hnone]⟩
  · intro b hb hnil
    have := (onHorizon_held (imuModality offset) subs h pi).1 b hb
    simp [imuModality, hnil] at this
  · intro consumed hc hmem
    have hnone := (onHorizon_held (imuModality offset) subs h pi).2 consumed hc
      ⟨[], hmem, by simp [imuModality]⟩
    exact ⟨hnone, by simp [pullIfEmpty, hnone]⟩
  · intro b hb hnil
    have := (onHorizon_held triggerModality subs h pt).1 b hb
    simp [triggerModality, hnil] at this
  · intro consumed hc hmem
    have hnone := (onHorizon_held triggerModality subs h pt).2 consumed hc
      ⟨[], hmem, by simp [triggerModality]⟩
    exact ⟨hnone, by simp [pullIfEmpty, hnone]⟩

/-- C9 at a concrete state: the reader first returns an empty event batch. -/
theorem C9_no_empty_batch_is_kept_witness :
    (onHorizon (eventsModality (none : Option (Unit → EventStore → EventStore × Unit)))
        (fun _ => true) 10
        (Publisher.init [some [], some [⟨5, 1, 1, false⟩]] ())).held = none :=
  ((@C9_no_empty_batch_is_kept Int Unit (fun _ => true) 10 none
    (Publisher.init [some [], some [⟨5, 1, 1, false⟩]] ()) 0 (Publisher.init [] ())
    (Publisher.init [] ())).1.2 [some []] (by decide) (by decide)).1

/-! Synchronization handler on a live source -/

/-- C11: on a live source the handler answers `success = true` exactly when the
source is running and in master role; then the source's timestamp offset is the
request's, `m_synchronized` is true and the response carries the local camera
name; otherwise `success = false` and the state is unchanged. -/
theorem C11_handler_on_live_source (cam : LiveCapture) (sync : Bool) (req : SyncRequest) :
    ∃ rsp st, synchronizeCamera { liveCapture := some cam, synchronized := sync } req
        = some (rsp, st) ∧
      (rsp.success = true ↔ (cam.running = true ∧ cam.masterCamera = true)) ∧
      (rsp.success = true →
        st.liveCapture = some { cam with timestampOffset := req.timestamp_offset } ∧
        st.synchronized = true ∧ rsp.camera_name = cam.cameraName) ∧
      (rsp.success = false → st = { liveCapture := some cam, synchronized := sync }) := by
  cases h : (cam.running && cam.masterCamera)
  · refine ⟨{ camera_name := "", success := false },
      { liveCapture := some cam, synchronized := sync }, by simp [synchronizeCamera, h], ?_, ?_, ?_⟩
    · simpa using h
    · intro hs; simp at hs
    · intro _; rfl
  · refine ⟨{ camera_name := cam.cameraName, success := true },
      { liveCapture := some { cam with timestampOffset := req.timestamp_offset },
        synchronized := true }, by simp [synchronizeCamera, h], ?_, ?_, ?_⟩
    · simpa using h
    · intro _; exact ⟨rfl, rfl, rfl⟩
    · intro hs; simp at hs

/-! Master discovery -/

theorem firstEndpoint_append_of_some (msgs : List CameraDiscovery) (m : CameraDiscovery)
    (k v : String) (h : firstEndpoint msgs k = some v) :
    firstEndpoint (msgs ++ [m]) k = some v := by
  unfold firstEndpoint at h ⊢
  rw [List.find?_append]
  cases hf : msgs.find? (fun m => cStr m.name == k) with
  | none => rw [hf] at h; simp at h
  | some m0 => rw [hf] at h; simpa using h

theorem firstEndpoint_append_of_not_mem (msgs : List CameraDiscovery) (m : CameraDiscovery)
    (h : ∀ m0 ∈ msgs, cStr m0.name ≠ cStr m.name) :
    firstEndpoint (msgs ++ [m]) (cStr m.name) = some (cStr m.sync_service_topic) := by
  unfold firstEndpoint
  rw [List.find?_append]
  have hf : msgs.find? (fun m0 => cStr m0.name == cStr m.name) = none := by
    rw [List.find?_eq_none]
    intro m0 hm0
    simpa using h m0 hm0
  rw [hf]
  simp

theorem nodup_keys_length_le (keys dl : List String) (hnd : keys.Nodup)
    (hsub : ∀ k ∈ keys, k ∈ dl) : keys.length ≤ dl.length :=
  (List.subperm_of_subset hnd hsub).length_le

theorem discoveryInv_init (dl : List String) : discoveryInv dl [] (DiscoveryContext.init dl) := by
  refine ⟨rfl, by simp [DiscoveryContext.init], by simp [DiscoveryContext.init],
    by simp, by simp [DiscoveryContext.init], ?_⟩
  intro h hne
  simp only [DiscoveryContext.init, List.length_nil] at h
  exact absurd (List.eq_nil_of_length_eq_zero h.symm) hne

theorem discoveryInv_handleMessage (dl : List String) (msgs : List CameraDiscovery)
    (ctx : DiscoveryContext) (m : CameraDiscovery) (h : discoveryInv dl msgs ctx) :
    discoveryInv dl (msgs ++ [m]) (ctx.handleMessage m) := by
  obtain ⟨hdl, hnd, hent, hseen, hc1, hc2⟩ := h
  unfold DiscoveryContext.handleMessage
  by_cases hcont : ctx.serviceNames.any (fun e => e.1 == cStr m.name) = true
  · rw [if_pos hcont]
    refine ⟨hdl, hnd, ?_, ?_, hc1, hc2⟩
    · intro e he
      exact ⟨(hent e he).1, firstEndpoint_append_of_some _ _ _ _ (hent e he).2⟩
    · intro m0 hm0 hin
      rw [List.mem_append, List.mem_singleton] at hm0
      rcases hm0 with hm0 | hm0
      · exact hseen m0 hm0 hin
      · subst hm0
        rw [List.any_eq_true] at hcont
        obtain ⟨e, he, hek⟩ := hcont
        rw [List.mem_map]
        exact ⟨e, he, by simpa using hek⟩
  · rw [if_neg hcont]
    have hnot : cStr m.name ∉ ctx.serviceNames.map Prod.fst := by
      intro hmem
      apply hcont
      rw [List.mem_map] at hmem
      obtain ⟨e, he, hek⟩ := hmem
      rw [List.any_eq_true]
      exact ⟨e, he, by simpa using hek⟩
    by_cases hin : cStr m.name ∈ ctx.deviceList
    · rw [if_pos hin]
      have hnd2 : ((ctx.serviceNames ++ [(cStr m.name, cStr m.sync_service_topic)]).map
          Prod.fst).Nodup := by
        rw [List.map_append, List.nodup_append]
        refine ⟨hnd, by simp, ?_⟩
        intro a ha hb
        simp only [List.map_cons, List.map_nil, List.mem_singleton] at hb
        subst hb
        exact hnot ha
      have hfresh : ∀ m0 ∈ msgs, cStr m0.name ≠ cStr m.name := by
        intro m0 hm0 heq
        apply hnot
        rw [← heq]
        exact hseen m0 hm0 (by rw [heq, ← hdl]; exact hin)
      have hent2 : ∀ e ∈ ctx.serviceNames ++ [(cStr m.name, cStr m.sync_service_topic)],
          e.1 ∈ dl ∧ firstEndpoint (msgs ++ [m]) e.1 = some e.2 := by
        intro e he
        rw [List.mem_append, List.mem_singleton] at he
        rcases he with he | he
        · exact ⟨(hent e he).1, firstEndpoint_append_of_some _ _ _ _ (hent e he).2⟩
        · subst he
          exact ⟨by rw [← hdl]; exact hin, firstEndpoint_append_of_not_mem _ _ hfresh⟩
      have hlen : (ctx.serviceNames ++ [(cStr m.name, cStr m.sync_service_topic)]).length
          ≤ dl.length := by
        have := nodup_keys_length_le _ dl hnd2 (by
          intro k hk
          rw [List.mem_map] at hk
          obtain ⟨e, he, rfl⟩ := hk
          exact (hent2 e he).1)
        simpa using this
      refine ⟨hdl, hnd2, hent2, ?_, ?_, ?_⟩
      · intro m0 hm0 hin0
        rw [List.mem_append, List.mem_singleton] at hm0
        rw [List.map_append, List.mem_append]
        rcases hm0 with hm0 | hm0
        · exact Or.inl (hseen m0 hm0 hin0)
        · subst hm0
          exact Or.inr (by simp)
      · intro hcomp
        simp only at hcomp ⊢
        by_cases hl : (ctx.serviceNames ++ [(cStr m.name, cStr m.sync_service_topic)]).length
            = ctx.deviceList.length
        · rw [← hdl]; exact hl
        · rw [if_neg hl] at hcomp
          have := hc1 hcomp
          rw [List.length_append] at hlen
          simp only [List.length_singleton] at hlen
          omega
      · intro hl _
        simp only at hl ⊢
        rw [hdl, if_pos hl]
    · rw [if_neg hin]
      refine ⟨hdl, hnd, ?_, ?_, hc1, hc2⟩
      · intro e he
        exact ⟨(hent e he).1, firstEndpoint_append_of_some _ _ _ _ (hent e he).2⟩
      · intro m0 hm0 hin0
        rw [List.mem_append, List.mem_singleton] at hm0
        rcases hm0 with hm0 | hm0
        · exact hseen m0 hm0 hin0
        · subst hm0
          exact absurd (by rw [hdl]; exact hin0) hin

theorem discoveryInv_handleMessages (dl : List String) :
    ∀ (msgs pre : List CameraDiscovery) (ctx : DiscoveryContext), discoveryInv dl pre ctx →
      discoveryInv dl (pre ++ msgs) (handleMessages ctx msgs) := by
  intro msgs
  induction msgs with
  | nil => intro pre ctx h; simpa [handleMessages] using h
  | cons m rest ih =>
    intro pre ctx h
    have := ih (pre ++ [m]) (ctx.handleMessage m) (discoveryInv_handleMessage dl pre ctx m h)
    simpa [handleMessages] using this
theorem handleMessage_complete (ctx : DiscoveryContext) (m : CameraDiscovery)
    (h : ctx.complete = true) : (ctx.handleMessage m).complete = true := by
  unfold DiscoveryContext.handleMessage
  split
  · exact h
  · split
    · simp only
      split
      · rfl
      · exact h
    · exact h

theorem handleMessages_complete :
    ∀ (msgs : List CameraDiscovery) (ctx : DiscoveryContext), ctx.complete = true →
      (handleMessages ctx msgs).complete = true := by
  intro msgs
  induction msgs with
  | nil => intro ctx h; simpa [handleMessages] using h
  | cons m rest ih =>
    intro ctx h
    have := ih (ctx.handleMessage m) (handleMessage_complete ctx m h)
    simpa [handleMessages] using this

theorem handleMessages_append (ctx : DiscoveryContext) (l₁ l₂ : List CameraDiscovery) :
    handleMessages ctx (l₁ ++ l₂) = handleMessages (handleMessages ctx l₁) l₂ := by
  simp [handleMessages]

/-- While the run-flag holds and the messages of the whole observation do not
complete the context, the waiting loop does not return. -/
theorem discoveryLoop_blocks :
    ∀ (polls : List DiscoveryPoll) (ctx : DiscoveryContext), (∀ p ∈ polls, p.spin = true) →
      (handleMessages ctx (polls.flatMap (fun p => p.arrived))).complete = false →
      discoveryLoop polls ctx = none := by
  intro polls
  induction polls with
  | nil => intro ctx _ _; rfl
  | cons p rest ih =>
    intro ctx hspin hc
    rw [List.flatMap_cons, handleMessages_append] at hc
    have hnow : (handleMessages ctx p.arrived).complete = false := by
      cases hcases : (handleMessages ctx p.arrived).complete with
      | false => rfl
      | true =>
        rw [handleMessages_complete _ _ hcases] at hc
        exact absurd hc (by simp)
    unfold discoveryLoop
    rw [hspin p (by simp), hnow]
    simp only [Bool.not_false, Bool.and_self, if_true]
    exact ih _ (fun q hq => hspin q (List.mem_cons_of_mem _ hq)) hc

/-- A complete context has an entry for every configured peer. -/
theorem complete_covers (dl : List String) (msgs : List CameraDiscovery) (ctx : DiscoveryContext)
    (h : discoveryInv dl msgs ctx) (hc : ctx.complete = true) :
    ∀ d ∈ dl, d ∈ ctx.serviceNames.map Prod.fst := by
  obtain ⟨_, hnd, hent, _, hc1, _⟩ := h
  have hsub : ∀ k ∈ ctx.serviceNames.map Prod.fst, k ∈ dl := by
    intro k hk
    rw [List.mem_map] at hk
    obtain ⟨e, he, rfl⟩ := hk
    exact (hent e he).1
  have hperm := (List.subperm_of_subset hnd hsub).perm_of_length_le
    (by simpa using (hc1 hc).ge)
  intro d hd
  exact hperm.symm.subset hd

/-- An entry of the context was advertised by a handled message. -/
theorem entry_has_message (msgs : List CameraDiscovery) (k v : String)
    (h : firstEndpoint msgs k = some v) : ∃ m ∈ msgs, cStr m.name = k := by
  unfold firstEndpoint at h
  cases hf : msgs.find? (fun m => cStr m.name == k) with
  | none => rw [hf] at h; simp at h
  | some m0 =>
    have h1 := List.find?_some hf
    exact ⟨m0, List.mem_of_find?_eq_some hf, by simpa using h1⟩

/-- C12 (as stated, refuted): with the peer list `camA, camA` and a presence
message of `camA`, every configured peer name has appeared, yet the completion
flag is not set. -/
theorem C12_duplicate_peer_never_completes :
    ¬ ((handleMessages (DiscoveryContext.init ["camA", "camA"])
          [⟨"camA", false, "camA/sync"⟩]).complete = true ↔
        ∀ d ∈ ["camA", "camA"],
          ∃ m ∈ [(⟨"camA", false, "camA/sync"⟩ : CameraDiscovery)], m.name = d) := by
  decide

/-- C12 (amended): for a peer list without repeated names (non-empty, first name
non-empty) and every sequence of presence messages, the completion flag is set if
and only if every configured peer name has appeared as the name of a handled
message; and while the run-flag holds and some configured peer has not reported,
`discoverSyncDevices` does not return. -/
theorem C12_discovery_completion (dl : List String) (msgs : List CameraDiscovery)
    (polls : List DiscoveryPoll) (hne : dl ≠ []) (hnd : dl.Nodup)
    (hfirst : dl.head? ≠ some "") :
    ((handleMessages (DiscoveryContext.init dl) msgs).complete = true ↔
      ∀ d ∈ dl, ∃ m ∈ msgs, cStr m.name = d) ∧
    ((∀ p ∈ polls, p.spin = true) →
      (∃ d ∈ dl, ∀ p ∈ polls, ∀ m ∈ p.arrived, cStr m.name ≠ d) →
      discoverSyncDevices dl polls = none) := by
  have key : ∀ l : List CameraDiscovery,
      ((handleMessages (DiscoveryContext.init dl) l).complete = true ↔
        ∀ d ∈ dl, ∃ m ∈ l, cStr m.name = d) := by
    intro l
    have hinv := discoveryInv_handleMessages dl l [] _ (discoveryInv_init dl)
    rw [List.nil_append] at hinv
    constructor
    · intro hc d hd
      have hk := complete_covers dl l _ hinv hc d hd
      rw [List.mem_map] at hk
      obtain ⟨e, he, rfl⟩ := hk
      exact entry_has_message l e.1 e.2 (hinv.2.2.1 e he).2
    · intro hall
      obtain ⟨_, hnd2, hent, hseen, _, hc2⟩ := hinv
      apply hc2 _ hne
      have hsub1 : ∀ k ∈ (handleMessages (DiscoveryContext.init dl) l).serviceNames.map Prod.fst,
          k ∈ dl := by
        intro k hk
        rw [List.mem_map] at hk
        obtain ⟨e, he, rfl⟩ := hk
        exact (hent e he).1
      have hsub2 : ∀ d ∈ dl,
          d ∈ (handleMessages (DiscoveryContext.init dl) l).serviceNames.map Prod.fst := by
        intro d hd
        obtain ⟨m, hm, rfl⟩ := hall d hd
        exact hseen m hm hd
      have h1 := nodup_keys_length_le _ _ hnd2 hsub1
      have h2 := nodup_keys_length_le _ _ hnd hsub2
      simp only [List.length_map] at h1 h2
      omega
  refine ⟨key msgs, ?_⟩
  intro hspin ⟨d, hd, hmiss⟩
  have hguard : (dl.isEmpty || dl.head? == some "") = false := by
    cases dl with
    | nil => exact absurd rfl hne
    | cons a rest =>
      simp only [List.head?_cons, ne_eq, Option.some.injEq] at hfirst
      simp [hfirst]
  unfold discoverSyncDevices
  rw [hguard]
  simp only [Bool.false_eq_true, if_false, Option.map_eq_none']
  apply discoveryLoop_blocks polls _ hspin
  cases hc : (handleMessages (DiscoveryContext.init dl)
      (polls.flatMap (fun p => p.arrived))).complete with
  | false => rfl
  | true =>
    obtain ⟨m, hm, hmd⟩ := (key _).1 hc d hd
    rw [List.mem_flatMap] at hm
    obtain ⟨p, hp, hmp⟩ := hm
    exact absurd hmd (hmiss p hp m hmp)

/-- C12 (amended) on the scenario of the specification: three configured peers,
two of them report, the run-flag holds. -/
theorem C12_discovery_completion_witness :
    discoverSyncDevices ["camA", "camB", "camC"]
      [⟨true, [⟨"camA", false, "camA/sync"⟩]⟩, ⟨true, []⟩,
       ⟨true, [⟨"camB", false, "camB/sync"⟩, ⟨"camA", false, "camA/sync"⟩]⟩] = none :=
  (C12_discovery_completion ["camA", "camB", "camC"] []
    [⟨true, [⟨"camA", false, "camA/sync"⟩]⟩, ⟨true, []⟩,
     ⟨true, [⟨"camB", false, "camB/sync"⟩, ⟨"camA", false, "camA/sync"⟩]⟩]
    (by decide) (by decide) (by decide)).2 (by decide) ⟨"camC", by decide, by decide⟩

/-- C13 (as stated, refuted): with the single configured peer `camA` and a presence
message of `camA` whose sync endpoint is empty, discovery completes and the map
holds `camA` with an empty endpoint. -/
theorem C13_empty_endpoint_counts :
    ¬ ((handleMessages (DiscoveryContext.init ["camA"]) [⟨"camA", true, ""⟩]).complete = true →
        ∀ e ∈ (handleMessages (DiscoveryContext.init ["camA"])
            [⟨"camA", true, ""⟩]).serviceNames, e.2 ≠ "") := by
  decide

/-- C13 (amended): when discovery completes the map has an entry for every
configured peer; every entry belongs to a configured peer and holds the sync
endpoint of the first presence message handled under that name, empty or not;
and `sendSyncCalls` sends a request only to entries whose endpoint is not empty. -/
theorem C13_discovered_endpoints (dl : List String) (msgs : List CameraDiscovery)
    (liveCapture : Option LiveCapture) :
    ((handleMessages (DiscoveryContext.init dl) msgs).complete = true →
      ∀ d ∈ dl, ∃ v, (d, v) ∈ (handleMessages (DiscoveryContext.init dl) msgs).serviceNames) ∧
    (∀ e ∈ (handleMessages (DiscoveryContext.init dl) msgs).serviceNames,
      e.1 ∈ dl ∧ firstEndpoint msgs e.1 = some e.2) ∧
    (∀ call ∈ sendSyncCalls liveCapture (handleMessages (DiscoveryContext.init dl) msgs).serviceNames,
      call.1 ≠ "" ∧
      ∃ e ∈ (handleMessages (DiscoveryContext.init dl) msgs).serviceNames, e.2 = call.1) := by
  have hinv := discoveryInv_handleMessages dl msgs [] _ (discoveryInv_init dl)
  rw [List.nil_append] at hinv
  refine ⟨?_, hinv.2.2.1, ?_⟩
  · intro hc d hd
    have hk := complete_covers dl msgs _ hinv hc d hd
    rw [List.mem_map] at hk
    obtain ⟨e, he, rfl⟩ := hk
    exact ⟨e.2, he⟩
  · intro call hcall
    unfold sendSyncCalls at hcall
    split at hcall
    · simp at hcall
    · cases liveCapture with
      | none => simp at hcall
      | some cam =>
        simp only [List.mem_map, List.mem_filter] at hcall
        obtain ⟨e, ⟨he, hne⟩, rfl⟩ := hcall
        refine ⟨?_, e, he, rfl⟩
        intro hempty
        simp only at hempty
        rw [hempty] at hne
        exact absurd hne (by decide)


/-! Calibration services -/

theorem updateCalibrationSet_frame {F D : Type} (sdk : Sdk F D) (n : CalibState F D) :
    ∃ c, (updateCalibrationSet sdk n).1 = { n with calibration := c } := by
  unfold updateCalibrationSet
  split
  · exact ⟨n.calibration, rfl⟩
  · exact ⟨_, rfl⟩

theorem saveCalibration_frame {F D : Type} (sdk : Sdk F D) (env : SaveEnv)
    (n : CalibState F D) :
    ∃ c, (saveCalibration sdk env n).1 = { n with calibration := c } := by
  obtain ⟨c, hc⟩ := updateCalibrationSet_frame sdk n
  refine ⟨c, ?_⟩
  unfold saveCalibration
  split
  · rename_i n1 e heq
    rw [heq] at hc
    exact hc
  · rename_i n1 u heq
    rw [heq] at hc
    split <;> exact hc

/-- C14: on a node configured with `unbiasedImuData = true` a set-IMU-biases
request is rejected: the response has `success = false` and says that the biases
are already applied, and the node (bias vectors, calibration set, unbiased flag
and all the rest) is unchanged. -/
theorem C14_biases_rejected_when_unbiased {F D : Type} (sdk : Sdk F D) (env : SaveEnv)
    (n : CalibState F D) (acc_biases gyro_biases : Vec3 D) (h : n.unbiasedImuData = true) :
    (setImuBiases sdk env n acc_biases gyro_biases).1 = n ∧
    (setImuBiases sdk env n acc_biases gyro_biases).2
      = { success := false
          status_message := "Failed to apply IMU biases since biases are already applied." } := by
  simp [setImuBiases, h]

/-- C14 on the sample node with the unbiased flag set. -/
theorem C14_biases_rejected_when_unbiased_witness :
    (setImuBiases intSdk ⟨"/calib/snapshot.json", none⟩
        { sampleState with unbiasedImuData := true } ⟨1, 2, 3⟩ ⟨4, 5, 6⟩).1
      = { sampleState with unbiasedImuData := true } :=
  (C14_biases_rejected_when_unbiased intSdk ⟨"/calib/snapshot.json", none⟩
    { sampleState with unbiasedImuData := true } ⟨1, 2, 3⟩ ⟨4, 5, 6⟩ rfl).1

/-- C15 (as stated, refuted): on a node whose camera-info message names the
distortion model `rational_polynomial`, a set-IMU-biases request received with
bias subtraction disabled leaves bias subtraction disabled. -/
theorem C15_unbiased_mode_stays_off :
    ¬ (setImuBiases intSdk ⟨"/calib/snapshot.json", none⟩
        { sampleState with
          cameraInfoMsg := { sampleCameraInfo with distortion_model := "rational_polynomial" } }
        ⟨1, 2, 3⟩ ⟨4, 5, 6⟩).1.unbiasedImuData = true := by
  decide

theorem setImuBiases_of_ok {F D : Type} (sdk : Sdk F D) (env : SaveEnv) (n : CalibState F D)
    (acc_biases gyro_biases : Vec3 D) (h : n.unbiasedImuData = false) (n1 : CalibState F D)
    (path : String)
    (hsave : saveCalibration sdk env
      { n with accBiases := narrowVec3 sdk acc_biases
               gyroBiases := narrowVec3 sdk gyro_biases } = (n1, .ok path)) :
    setImuBiases sdk env n acc_biases gyro_biases
      = ({ n1 with unbiasedImuData := true },
         { success := true, status_message := "IMU biases stored in calibration file." }) := by
  unfold setImuBiases
  rw [if_neg (by simp [h]), hsave]

theorem setImuBiases_of_error {F D : Type} (sdk : Sdk F D) (env : SaveEnv) (n : CalibState F D)
    (acc_biases gyro_biases : Vec3 D) (h : n.unbiasedImuData = false) (n1 : CalibState F D)
    (e : String)
    (hsave : saveCalibration sdk env
      { n with accBiases := narrowVec3 sdk acc_biases
               gyroBiases := narrowVec3 sdk gyro_biases } = (n1, .error e)) :
    setImuBiases sdk env n acc_biases gyro_biases
      = (n1, { success := false
               status_message := "Error storing IMU biases calibration: [" ++ e ++ "]." }) := by
  unfold setImuBiases
  rw [if_neg (by simp [h]), hsave]

/-- C15 (amended): for every set-IMU-biases request received while bias
subtraction is disabled, afterwards the stored accelerometer and gyroscope bias
vectors are the request's vectors converted to `float`, and bias subtraction is
enabled exactly when the response reports success, which is exactly when
`saveCalibration` returns a path. -/
theorem C15_biases_stored {F D : Type} (sdk : Sdk F D) (env : SaveEnv) (n : CalibState F D)
    (acc_biases gyro_biases : Vec3 D) (h : n.unbiasedImuData = false) :
    (setImuBiases sdk env n acc_biases gyro_biases).1.accBiases = narrowVec3 sdk acc_biases ∧
    (setImuBiases sdk env n acc_biases gyro_biases).1.gyroBiases = narrowVec3 sdk gyro_biases ∧
    (setImuBiases sdk env n acc_biases gyro_biases).1.unbiasedImuData
      = (setImuBiases sdk env n acc_biases gyro_biases).2.success ∧
    ((setImuBiases sdk env n acc_biases gyro_biases).2.success = true ↔
      ∃ path, (saveCalibration sdk env
        { n with accBiases := narrowVec3 sdk acc_biases
                 gyroBiases := narrowVec3 sdk gyro_biases }).2 = .ok path) := by
  obtain ⟨c, hc⟩ := saveCalibration_frame sdk env
    { n with accBiases := narrowVec3 sdk acc_biases, gyroBiases := narrowVec3 sdk gyro_biases }
  cases hsave : saveCalibration sdk env
    { n with accBiases := narrowVec3 sdk acc_biases
             gyroBiases := narrowVec3 sdk gyro_biases } with
  | mk n1 r =>
    rw [hsave] at hc
    simp only at hc
    cases r with
    | ok path =>
      rw [setImuBiases_of_ok sdk env n acc_biases gyro_biases h n1 path hsave, hc]
      simp
    | error e =>
      rw [setImuBiases_of_error sdk env n acc_biases gyro_biases h n1 e hsave, hc]
      simp [h]

/-- C15 (amended) on the sample node: the biases are stored and bias subtraction
is switched on. -/
theorem C15_biases_stored_witness :
    (setImuBiases intSdk ⟨"/calib/snapshot.json", none⟩ sampleState ⟨1, 2, 3⟩ ⟨4, 5, 6⟩).1.accBiases
      = narrowVec3 intSdk ⟨1, 2, 3⟩ :=
  (C15_biases_stored intSdk ⟨"/calib/snapshot.json", none⟩ sampleState ⟨1, 2, 3⟩ ⟨4, 5, 6⟩
    rfl).1

/-- The node as `setImuInfo` leaves it before it calls `saveCalibration`. -/
theorem setImuInfo_eq {F D : Type} (sdk : Sdk F D) (env : SaveEnv) (n : CalibState F D)
    (imu_info : ImuInfo D) (t : TransformStamped D) (rest : List (TransformStamped D))
    (h : n.imuToCamTransforms = some (t :: rest)) :
    setImuInfo sdk env n imu_info
      = match saveCalibration sdk env
          { n with
            imuTimeOffset := imu_info.time_offset_micros
            imuToCamTransforms := some
              ({ frame_id := n.imuFrameName, child_frame_id := n.cameraFrameName
                 transform := imu_info.t_sc } :: rest)
            imuToCamTransform :=
              .ofQuaternion { x := sdk.zeroF, y := sdk.zeroF, z := sdk.zeroF }
                { w := sdk.narrow imu_info.t_sc.rotation.w
                  x := sdk.narrow imu_info.t_sc.rotation.x
                  y := sdk.narrow imu_info.t_sc.rotation.y
                  z := sdk.narrow imu_info.t_sc.rotation.z } } with
        | (n2, .ok calibPath) =>
          some (n2, { success := true
                      status_message :=
                        "IMU calibration stored successfully in [" ++ calibPath ++ "]." })
        | (n2, .error e) =>
          some (n2, { success := false
                      status_message := "Error storing IMU info: [" ++ e ++ "]." }) := by
  unfold setImuInfo
  rw [h]

/-- C16 (as stated, refuted): on the sample node a set-IMU-info request whose
transform has the translation `(1, 2, 3)` leaves that translation in the
transform that is broadcast. -/
theorem C16_broadcast_transform_keeps_translation :
    ∃ n rsp, setImuInfo intSdk ⟨"/calib/snapshot.json", none⟩ sampleState
        { time_offset_micros := 40, t_sc := ⟨⟨1, 2, 3⟩, ⟨0, 0, 0, 1⟩⟩ } = some (n, rsp) ∧
      n.imuToCamTransforms = some [⟨"imu", "camera", ⟨⟨1, 2, 3⟩, ⟨0, 0, 0, 1⟩⟩⟩] ∧
      (⟨1, 2, 3⟩ : Vec3 Int) ≠ ⟨0, 0, 0⟩ := by
  refine ⟨_, _, rfl, ?_, by decide⟩
  decide

/-- C16 (amended): on a node that holds an IMU-to-camera transform message, every
set-IMU-info request is answered, and afterwards the IMU time offset is the
request's time offset, the transformation applied to IMU data is built from a
zero translation and the request's rotation quaternion converted to `float`, and
the first broadcast transform is the request's transform as it came, rotation
and translation, under the node's frame names. -/
theorem C16_imu_info_stored {F D : Type} (sdk : Sdk F D) (env : SaveEnv) (n : CalibState F D)
    (imu_info : ImuInfo D) (t : TransformStamped D) (rest : List (TransformStamped D))
    (h : n.imuToCamTransforms = some (t :: rest)) :
    ∃ n2 rsp, setImuInfo sdk env n imu_info = some (n2, rsp) ∧
      n2.imuTimeOffset = imu_info.time_offset_micros ∧
      n2.imuToCamTransform
        = .ofQuaternion { x := sdk.zeroF, y := sdk.zeroF, z := sdk.zeroF }
            { w := sdk.narrow imu_info.t_sc.rotation.w
              x := sdk.narrow imu_info.t_sc.rotation.x
              y := sdk.narrow imu_info.t_sc.rotation.y
              z := sdk.narrow imu_info.t_sc.rotation.z } ∧
      n2.imuToCamTransforms
        = some ({ frame_id := n.imuFrameName, child_frame_id := n.cameraFrameName
                  transform := imu_info.t_sc } :: rest) := by
  rw [setImuInfo_eq sdk env n imu_info t rest h]
  obtain ⟨c, hc⟩ := saveCalibration_frame sdk env
    { n with
      imuTimeOffset := imu_info.time_offset_micros
      imuToCamTransforms := some
        ({ frame_id := n.imuFrameName, child_frame_id := n.cameraFrameName
           transform := imu_info.t_sc } :: rest)
      imuToCamTransform :=
        .ofQuaternion { x := sdk.zeroF, y := sdk.zeroF, z := sdk.zeroF }
          { w := sdk.narrow imu_info.t_sc.rotation.w
            x := sdk.narrow imu_info.t_sc.rotation.x
            y := sdk.narrow imu_info.t_sc.rotation.y
            z := sdk.narrow imu_info.t_sc.rotation.z } }
  split
  · rename_i n2 path heq
    rw [heq] at hc
    simp only at hc
    exact ⟨n2, _, rfl, by rw [hc], by rw [hc], by rw [hc]⟩
  · rename_i n2 e heq
    rw [heq] at hc
    simp only at hc
    exact ⟨n2, _, rfl, by rw [hc], by rw [hc], by rw [hc]⟩

/-- C16 (amended) on the sample node. -/
theorem C16_imu_info_stored_witness :
    ∃ n2 rsp, setImuInfo intSdk ⟨"/calib/snapshot.json", none⟩ sampleState
        { time_offset_micros := 40, t_sc := ⟨⟨1, 2, 3⟩, ⟨0, 0, 0, 1⟩⟩ } = some (n2, rsp) ∧
      n2.imuTimeOffset = 40 := by
  obtain ⟨n2, rsp, h1, h2, _, _⟩ := C16_imu_info_stored intSdk ⟨"/calib/snapshot.json", none⟩
    sampleState { time_offset_micros := 40, t_sc := ⟨⟨1, 2, 3⟩, ⟨0, 0, 0, 1⟩⟩ }
    ⟨"imu", "camera", ⟨⟨0, 0, 0⟩, ⟨0, 0, 0, 1⟩⟩⟩ [] rfl
  exact ⟨n2, rsp, h1, h2⟩

theorem saveCalibration_unknown_model {F D : Type} (sdk : Sdk F D) (env : SaveEnv)
    (n : CalibState F D) (h : distortionModelOfName n.cameraInfoMsg.distortion_model = none) :
    saveCalibration sdk env n = (n, .error "Unknown camera model.") := by
  unfold saveCalibration updateCalibrationSet
  rw [h]

theorem saveCalibration_failure {F D : Type} (sdk : Sdk F D) (env : SaveEnv)
    (n : CalibState F D) (e : String) (h : env.failure = some e) :
    ∃ e', (saveCalibration sdk env n).2 = .error e' := by
  unfold saveCalibration
  split
  · exact ⟨_, rfl⟩
  · rw [h]
    exact ⟨e, rfl⟩

theorem setCameraInfo_response {F D : Type} (sdk : Sdk F D) (env : SaveEnv)
    (n : CalibState F D) (camera_info : CameraInfo D) :
    (∀ e, (saveCalibration sdk env { n with cameraInfoMsg := camera_info }).2 = .error e →
      (setCameraInfo sdk env n camera_info).2
        = { success := false
            status_message := "Error storing camera calibration: [" ++ e ++ "]." }) ∧
    (∀ path, (saveCalibration sdk env { n with cameraInfoMsg := camera_info }).2 = .ok path →
      (setCameraInfo sdk env n camera_info).2
        = { success := true
            status_message := "Calibration stored successfully in [" ++ path ++ "]." }) := by
  unfold setCameraInfo
  cases hsave : saveCalibration sdk env { n with cameraInfoMsg := camera_info } with
  | mk n1 r =>
    cases r with
    | ok path => exact ⟨fun e he => by simp at he, fun p hp => by simp at hp; simp [hp]⟩
    | error e => exact ⟨fun e' he => by simp at he; simp [he], fun p hp => by simp at hp⟩

/-- Where a calibration service reaches the persistence routine, it answers also
when the routine raises an error: the response then has `success = false` and a
status message that contains the error text, and it has `success = true` when
the routine returns a path. This holds for set camera info on every node (with
an unknown distortion model in the supplied message as one such error), for set
IMU biases on a node that accepts them, and for set IMU info on a node that
holds a transform message. -/
theorem calibration_services_report_errors {F D : Type} (sdk : Sdk F D) (env : SaveEnv)
    (n : CalibState F D) (camera_info : CameraInfo D) (acc_biases gyro_biases : Vec3 D)
    (imu_info : ImuInfo D) (t : TransformStamped D) (rest : List (TransformStamped D)) :
    ((∀ e, (saveCalibration sdk env { n with cameraInfoMsg := camera_info }).2 = .error e →
        (setCameraInfo sdk env n camera_info).2
          = { success := false
              status_message := "Error storing camera calibration: [" ++ e ++ "]." }) ∧
      (∀ path, (saveCalibration sdk env { n with cameraInfoMsg := camera_info }).2 = .ok path →
        (setCameraInfo sdk env n camera_info).2.success = true) ∧
      (distortionModelOfName camera_info.distortion_model = none →
        (setCameraInfo sdk env n camera_info).2
          = { success := false
              status_message :=
                "Error storing camera calibration: [" ++ "Unknown camera model." ++ "]." })) ∧
    (n.unbiasedImuData = false →
      (∀ e, (saveCalibration sdk env
          { n with accBiases := narrowVec3 sdk acc_biases
                   gyroBiases := narrowVec3 sdk gyro_biases }).2 = .error e →
        (setImuBiases sdk env n acc_biases gyro_biases).2
          = { success := false
              status_message := "Error storing IMU biases calibration: [" ++ e ++ "]." }) ∧
      (∀ path, (saveCalibration sdk env
          { n with accBiases := narrowVec3 sdk acc_biases
                   gyroBiases := narrowVec3 sdk gyro_biases }).2 = .ok path →
        (setImuBiases sdk env n acc_biases gyro_biases).2.success = true)) ∧
    (n.imuToCamTransforms = some (t :: rest) →
      ∃ n2 rsp, setImuInfo sdk env n imu_info = some (n2, rsp) ∧
      (∀ e, (saveCalibration sdk env
          { n with
            imuTimeOffset := imu_info.time_offset_micros
            imuToCamTransforms := some
              ({ frame_id := n.imuFrameName, child_frame_id := n.cameraFrameName
                 transform := imu_info.t_sc } :: rest)
            imuToCamTransform :=
              .ofQuaternion { x := sdk.zeroF, y := sdk.zeroF, z := sdk.zeroF }
                { w := sdk.narrow imu_info.t_sc.rotation.w
                  x := sdk.narrow imu_info.t_sc.rotation.x
                  y := sdk.narrow imu_info.t_sc.rotation.y
                  z := sdk.narrow imu_info.t_sc.rotation.z } }).2 = .error e →
        rsp = { success := false, status_message := "Error storing IMU info: [" ++ e ++ "]." }) ∧
      (∀ path, (saveCalibration sdk env
          { n with
            imuTimeOffset := imu_info.time_offset_micros
            imuToCamTransforms := some
              ({ frame_id := n.imuFrameName, child_frame_id := n.cameraFrameName
                 transform := imu_info.t_sc } :: rest)
            imuToCamTransform :=
              .ofQuaternion { x := sdk.zeroF, y := sdk.zeroF, z := sdk.zeroF }
                { w := sdk.narrow imu_info.t_sc.rotation.w
                  x := sdk.narrow imu_info.t_sc.rotation.x
                  y := sdk.narrow imu_info.t_sc.rotation.y
                  z := sdk.narrow imu_info.t_sc.rotation.z } }).2 = .ok path →
        rsp.success = true)) := by
  refine ⟨⟨(setCameraInfo_response sdk env n camera_info).1, ?_, ?_⟩,
    fun hb => ⟨?_, ?_⟩, fun ht => ?_⟩
  · intro path hp
    rw [(setCameraInfo_response sdk env n camera_info).2 path hp]
  · intro hmodel
    apply (setCameraInfo_response sdk env n camera_info).1
    rw [saveCalibration_unknown_model sdk env { n with cameraInfoMsg := camera_info } hmodel]
  · intro e he
    cases hsave : saveCalibration sdk env
      { n with accBiases := narrowVec3 sdk acc_biases
               gyroBiases := narrowVec3 sdk gyro_biases } with
    | mk n1 r =>
      rw [hsave] at he
      simp only at he
      subst he
      rw [setImuBiases_of_error sdk env n acc_biases gyro_biases hb n1 e hsave]
  · intro path hp
    cases hsave : saveCalibration sdk env
      { n with accBiases := narrowVec3 sdk acc_biases
               gyroBiases := narrowVec3 sdk gyro_biases } with
    | mk n1 r =>
      rw [hsave] at hp
      simp only at hp
      subst hp
      rw [setImuBiases_of_ok sdk env n acc_biases gyro_biases hb n1 path hsave]
  · rw [setImuInfo_eq sdk env n imu_info t rest ht]
    cases hsave : saveCalibration sdk env
      { n with
        imuTimeOffset := imu_info.time_offset_micros
        imuToCamTransforms := some
          ({ frame_id := n.imuFrameName, child_frame_id := n.cameraFrameName
             transform := imu_info.t_sc } :: rest)
        imuToCamTransform :=
          .ofQuaternion { x := sdk.zeroF, y := sdk.zeroF, z := sdk.zeroF }
            { w := sdk.narrow imu_info.t_sc.rotation.w
              x := sdk.narrow imu_info.t_sc.rotation.x
              y := sdk.narrow imu_info.t_sc.rotation.y
              z := sdk.narrow imu_info.t_sc.rotation.z } } with
    | mk n1 r =>
      cases r with
      | ok path =>
        exact ⟨n1, _, rfl, fun e he => by simp at he, fun _ _ => rfl⟩
      | error e =>
        refine ⟨n1, _, rfl, ?_, fun p hp => by simp at hp⟩
        intro e' he
        simp only [Except.error.injEq] at he
        rw [he]

/-- C17 (code as written): a node started without an IMU calibration holds no
transform message. On it the set-IMU-info handler writes
`m_imu_to_cam_transforms->transforms[0]` through the empty optional before it
reaches the persistence routine, so it produces no response, although the
persistence routine works: set camera info on the same node answers with
`success = true`. -/
theorem C17_set_imu_info_without_transform_message :
    setImuInfo intSdk ⟨"/calib/snapshot.json", none⟩
        { sampleState with imuToCamTransforms := none, gyroBiases := ⟨0, 0, 0⟩
                           imuTimeOffset := 0
                           calibration := { cameras := [], imus := [] } }
        { time_offset_micros := 40, t_sc := ⟨⟨1, 2, 3⟩, ⟨0, 0, 0, 1⟩⟩ } = none ∧
    (setCameraInfo intSdk ⟨"/calib/snapshot.json", none⟩
        { sampleState with imuToCamTransforms := none, gyroBiases := ⟨0, 0, 0⟩
                           imuTimeOffset := 0
                           calibration := { cameras := [], imus := [] } }
        sampleCameraInfo).2
      = { success := true
          status_message := "Calibration stored successfully in [/calib/snapshot.json]." } := by
  decide

/-! Calibration update and camera-info message -/

theorem find?_replaceFirst {α : Type} (p : α → Bool) (new : α) (hnew : p new = true) :
    ∀ (l : List α) (old : α), l.find? p = some old → (replaceFirst p new l).find? p = some new := by
  intro l
  induction l with
  | nil => intro old h; simp at h
  | cons a rest ih =>
    intro old h
    unfold replaceFirst
    by_cases hp : p a = true
    · simp [hp, hnew]
    · simp only [hp, Bool.false_eq_true, if_false]
      rw [List.find?_cons_of_neg _ hp] at h ⊢
      exact ih old h

theorem find?_append_new {α : Type} (p : α → Bool) (new : α) (hnew : p new = true)
    (l : List α) (h : l.find? p = none) : (l ++ [new]).find? p = some new := by
  rw [List.find?_append, h]
  simp [hnew]

theorem imuCalibrationBase_name {F D : Type} (sdk : Sdk F D) (n : CalibState F D) :
    (imuCalibrationBase sdk n).name = n.cameraName := by
  unfold imuCalibrationBase CalibrationSet.getImuCalibrationByName
  cases h : n.calibration.imus.find? (fun e => e.name == n.cameraName) with
  | none => rfl
  | some c =>
    have := List.find?_some h
    simpa using this

theorem imuCalibrationFromNode_name {F D : Type} (sdk : Sdk F D) (n : CalibState F D) :
    (imuCalibrationFromNode sdk n).name = n.cameraName := by
  rw [← imuCalibrationBase_name sdk n]
  unfold imuCalibrationFromNode
  simp only
  split <;> split <;> split <;> split <;> rfl

theorem imuCalibrationFromNode_accOffsetAvg {F D : Type} (sdk : Sdk F D) (n : CalibState F D) :
    (imuCalibrationFromNode sdk n).accOffsetAvg
      = if sdk.isZero n.accBiases then (imuCalibrationBase sdk n).accOffsetAvg
        else n.accBiases := by
  unfold imuCalibrationFromNode
  simp only
  cases sdk.isZero n.accBiases <;> simp <;> split <;> split <;> split <;> rfl

theorem imuCalibrationFromNode_omegaOffsetAvg {F D : Type} (sdk : Sdk F D) (n : CalibState F D) :
    (imuCalibrationFromNode sdk n).omegaOffsetAvg
      = if sdk.isZero n.gyroBiases then (imuCalibrationBase sdk n).omegaOffsetAvg
        else n.gyroBiases := by
  unfold imuCalibrationFromNode
  simp only
  cases sdk.isZero n.gyroBiases <;> simp <;> split <;> split <;> split <;> rfl

theorem imuCalibrationFromNode_timeOffsetMicros {F D : Type} (sdk : Sdk F D)
    (n : CalibState F D) :
    (imuCalibrationFromNode sdk n).timeOffsetMicros
      = if n.imuTimeOffset > 0 then n.imuTimeOffset
        else (imuCalibrationBase sdk n).timeOffsetMicros := by
  unfold imuCalibrationFromNode
  simp only
  split <;> split <;> split <;> split <;> rfl

/-- After the update the IMU entry of this camera, if there is one, is the entry
built from the node. -/
theorem updatedCalibration_imu {F D : Type} (sdk : Sdk F D) (n : CalibState F D)
    (model : DistortionModel) (e : IMUCalibration F)
    (h : (updatedCalibration sdk n model).getImuCalibrationByName n.cameraName = some e) :
    e = imuCalibrationFromNode sdk n := by
  have hname := imuCalibrationFromNode_name sdk n
  have hp : (fun (c : IMUCalibration F) => c.name == n.cameraName) (imuCalibrationFromNode sdk n)
      = true := by simp [hname]
  unfold updatedCalibration at h
  simp only at h
  have himus : (if (n.calibration.getCameraCalibrationByName n.cameraName).isSome = true then
        n.calibration.updateCameraCalibration (cameraCalibrationFromInfo sdk n model)
      else n.calibration.addCameraCalibration (cameraCalibrationFromInfo sdk n model)).imus
      = n.calibration.imus := by
    split <;> rfl
  unfold CalibrationSet.getImuCalibrationByName at h
  rw [himus] at h
  cases hold : n.calibration.imus.find? (fun c => c.name == n.cameraName) with
  | some old =>
    rw [hold] at h
    simp only [Option.isSome_some, if_true, CalibrationSet.updateImuCalibration, himus,
      hname] at h
    rw [find?_replaceFirst (fun (c : IMUCalibration F) => c.name == n.cameraName)
      (imuCalibrationFromNode sdk n) hp _ old hold] at h
    exact (Option.some.inj h).symm
  | none =>
    rw [hold] at h
    simp only [Option.isSome_none, Bool.false_eq_true, if_false] at h
    split at h
    · simp only [CalibrationSet.addImuCalibration, himus] at h
      rw [find?_append_new (fun (c : IMUCalibration F) => c.name == n.cameraName)
        (imuCalibrationFromNode sdk n) hp _ hold] at h
      exact (Option.some.inj h).symm
    · rw [himus, hold] at h
      simp at h

/-- C18 (as stated, refuted): on the sample node, whose accelerometer bias is zero
and whose IMU time offset is -200, the IMU entry of the calibration set still
holds the bias `(1, 0, 0)` and the time offset 500 after the update. -/
theorem C18_guarded_values_are_not_copied :
    (updateCalibrationSet intSdk sampleState).2 = .ok () ∧
    ∃ e, (updateCalibrationSet intSdk sampleState).1.calibration.getImuCalibrationByName "camA"
        = some e ∧
      e.accOffsetAvg ≠ (updateCalibrationSet intSdk sampleState).1.accBiases ∧
      e.timeOffsetMicros ≠ (updateCalibrationSet intSdk sampleState).1.imuTimeOffset := by
  refine ⟨rfl, { name := "camA"
                 transformationToC0 := [1, 0, 0, 0, 0, 1, 0, 0, 0, 0, 1, 0, 0, 0, 0, 1]
                 accOffsetAvg := ⟨1, 0, 0⟩, omegaOffsetAvg := ⟨0, 0, 2⟩
                 timeOffsetMicros := 500 }, ?_, ?_, ?_⟩
  · decide
  · decide
  · decide

/-- C18 (amended): after a calibration update that succeeds, the IMU entry of this
camera, if the set holds one, has as accelerometer bias the node's vector when
that vector is not zero, as gyroscope bias the node's vector when that vector is
not zero, and as time offset the node's IMU time offset when that offset is
positive; a value whose guard fails stays what it was in the entry before the
update (in a default-constructed entry when there was none). -/
theorem C18_imu_entry_after_update {F D : Type} (sdk : Sdk F D) (n : CalibState F D)
    (e : IMUCalibration F)
    (hget : (updateCalibrationSet sdk n).1.calibration.getImuCalibrationByName n.cameraName
      = some e)
    (hok : (updateCalibrationSet sdk n).2 = .ok ()) :
    e.accOffsetAvg
      = (if sdk.isZero n.accBiases then (imuCalibrationBase sdk n).accOffsetAvg
         else n.accBiases) ∧
    e.omegaOffsetAvg
      = (if sdk.isZero n.gyroBiases then (imuCalibrationBase sdk n).omegaOffsetAvg
         else n.gyroBiases) ∧
    e.timeOffsetMicros
      = (if n.imuTimeOffset > 0 then n.imuTimeOffset
         else (imuCalibrationBase sdk n).timeOffsetMicros) ∧
    (updateCalibrationSet sdk n).1.accBiases = n.accBiases ∧
    (updateCalibrationSet sdk n).1.gyroBiases = n.gyroBiases ∧
    (updateCalibrationSet sdk n).1.imuTimeOffset = n.imuTimeOffset := by
  unfold updateCalibrationSet at hget hok ⊢
  cases hm : distortionModelOfName n.cameraInfoMsg.distortion_model with
  | none => rw [hm] at hok; simp at hok
  | some model =>
    rw [hm] at hget
    simp only at hget
    have he := updatedCalibration_imu sdk n model e hget
    subst he
    exact ⟨imuCalibrationFromNode_accOffsetAvg sdk n, imuCalibrationFromNode_omegaOffsetAvg sdk n,
      imuCalibrationFromNode_timeOffsetMicros sdk n, rfl, rfl, rfl⟩

/-- C18 (amended) on the sample node: the gyroscope bias `(0, 0, 2)` is copied. -/
theorem C18_imu_entry_after_update_witness :
    (⟨"camA", [1, 0, 0, 0, 0, 1, 0, 0, 0, 0, 1, 0, 0, 0, 0, 1], ⟨1, 0, 0⟩, ⟨0, 0, 2⟩, 500⟩
        : IMUCalibration Int).omegaOffsetAvg
      = (if intSdk.isZero sampleState.gyroBiases then
           (imuCalibrationBase intSdk sampleState).omegaOffsetAvg
         else sampleState.gyroBiases) :=
  (C18_imu_entry_after_update intSdk sampleState
    ⟨"camA", [1, 0, 0, 0, 0, 1, 0, 0, 0, 0, 1, 0, 0, 0, 0, 1], ⟨1, 0, 0⟩, ⟨0, 0, 2⟩, 500⟩
    (by decide) rfl).2.1

theorem padToFive_length {D : Type} (zero : D) (d : List D) (h : d.length < 5) :
    (padToFive zero d).length = 5 := by
  unfold padToFive
  rw [if_pos h, List.length_append, List.length_replicate]
  omega

/-- C20: for a radial-tangential geometry with `n < 5` distortion coefficients,
`populateInfoMsg` writes a list of exactly 5 coefficients whose first `n` are the
supplied ones (converted to `double`) in order and whose others are 0; for every
equidistant geometry the list is the supplied coefficients (converted to
`double`) and nothing else. -/
theorem C20_coefficient_padding {F D : Type} (sdk : Sdk F D) (msg : CameraInfo D)
    (g : CameraGeometry F) :
    (g.distortion.length < 5 →
      (populateInfoMsg sdk msg { g with distortionModel := .RadTan }).2 = .ok () ∧
      (populateInfoMsg sdk msg { g with distortionModel := .RadTan }).1.d.length = 5 ∧
      (populateInfoMsg sdk msg { g with distortionModel := .RadTan }).1.d.take g.distortion.length
        = g.distortion.map sdk.widen ∧
      (populateInfoMsg sdk msg { g with distortionModel := .RadTan }).1.d.drop g.distortion.length
        = List.replicate (5 - g.distortion.length) sdk.zeroD) ∧
    ((populateInfoMsg sdk msg { g with distortionModel := .Equidistant }).2 = .ok () ∧
      (populateInfoMsg sdk msg { g with distortionModel := .Equidistant }).1.d
        = g.distortion.map sdk.widen) := by
  refine ⟨fun hn => ?_, rfl, rfl⟩
  have hlen : (g.distortion.map sdk.widen).length < 5 := by simpa using hn
  refine ⟨rfl, ?_, ?_, ?_⟩
  · exact padToFive_length sdk.zeroD _ hlen
  · show (padToFive sdk.zeroD (g.distortion.map sdk.widen)).take g.distortion.length = _
    unfold padToFive
    rw [if_pos hlen]
    rw [List.take_left' (List.length_map _ _)]
  · show (padToFive sdk.zeroD (g.distortion.map sdk.widen)).drop g.distortion.length = _
    unfold padToFive
    rw [if_pos hlen]
    rw [List.drop_left' (List.length_map _ _), List.length_map]

/-- C20 for the two radial-tangential coefficients 7 and 9, and for the six
equidistant coefficients 1 to 6. -/
theorem C20_coefficient_padding_witness :
    (populateInfoMsg intSdk sampleCameraInfo
        { resolutionWidth := 640, resolutionHeight := 480, distortion := [7, 9]
          distortionModel := .RadTan, centralPoint := (320, 240),
          focalLength := (640, 640) }).1.d = [7, 9, 0, 0, 0] ∧
    (populateInfoMsg intSdk sampleCameraInfo
        { resolutionWidth := 640, resolutionHeight := 480, distortion := [1, 2, 3, 4, 5, 6]
          distortionModel := .Equidistant, centralPoint := (320, 240),
          focalLength := (640, 640) }).1.d = [1, 2, 3, 4, 5, 6] :=
  ⟨by
    have h := (C20_coefficient_padding intSdk sampleCameraInfo
      { resolutionWidth := 640, resolutionHeight := 480, distortion := [7, 9]
        distortionModel := .RadTan, centralPoint := (320, 240), focalLength := (640, 640) }).1
      (by decide)
    have h2 := List.take_append_drop 2 (populateInfoMsg intSdk sampleCameraInfo
        { resolutionWidth := 640, resolutionHeight := 480, distortion := [7, 9]
          distortionModel := .RadTan, centralPoint := (320, 240),
          focalLength := (640, 640) }).1.d
    rw [← h2]
    exact congrArg₂ (· ++ ·) h.2.2.1 h.2.2.2,
   (C20_coefficient_padding intSdk sampleCameraInfo
      { resolutionWidth := 640, resolutionHeight := 480, distortion := [1, 2, 3, 4, 5, 6]
        distortionModel := .Equidistant, centralPoint := (320, 240),
        focalLength := (640, 640) }).2.2⟩

/-! Time and event conversions -/

theorem toUInt32_of_range (x : Int) (h0 : 0 ≤ x) (h1 : x < 4294967296) :
    ((toUInt32 x : Nat) : Int) = x := by
  unfold toUInt32
  rw [Int.emod_eq_of_lt h0 h1, Int.toNat_of_nonneg h0]

theorem toInt32_of_range (x : Int) (h0 : 0 ≤ x) (h1 : x < 2147483648) :
    toInt32 (toUInt32 x) = x := by
  unfold toInt32
  rw [toUInt32_of_range x h0 (by omega)]
  omega

/-- In the range of the claim `toRosTime` returns the time point of `t * 1000`
nanoseconds. -/
theorem toRosTime_of_range (t : Int) (h0 : 0 ≤ t) (h1 : t < 2147483648 * 1000000) :
    toRosTime t = .ok { nanoseconds := t * 1000 } := by
  unfold toRosTime
  rw [Int.tdiv_eq_ediv h0 (by decide), Int.tmod_eq_emod h0 (by decide)]
  have hq0 : 0 ≤ t / 1000000 := by omega
  have hq1 : t / 1000000 < 2147483648 := by omega
  have hr0 : 0 ≤ t % 1000000 * 1000 := by omega
  have hr1 : t % 1000000 * 1000 < 4294967296 := by omega
  rw [toInt32_of_range _ hq0 hq1]
  unfold RosTime.ofSecondsNanoseconds
  rw [if_neg (by omega), toUInt32_of_range _ hr0 hr1]
  congr 2
  omega

/-- What `toDvTime` returns for the time point of `t` microseconds: the whole
seconds are counted twice. -/
theorem toDvTime_of_micros (t : Int) (h0 : 0 ≤ t) :
    toDvTime { nanoseconds := t * 1000 } = t / 1000000 * 1000000 + t := by
  unfold toDvTime RosTime.wholeSeconds
  simp only
  rw [Int.tdiv_eq_ediv (by omega) (by decide), Int.tdiv_eq_ediv (by omega) (by decide)]
  omega

/-- C24 (code as written): for the timestamp 1 500 000 microseconds `toRosTime`
gives the time point 1.5 s, and `toDvTime` of it is 2 500 000. -/
theorem C24_round_trip_counts_seconds_twice :
    toRosTime 1500000 = .ok { nanoseconds := 1500000000 } ∧
    toDvTime { nanoseconds := 1500000000 } = 2500000 ∧
    (toRosTime 1500000).map toDvTime = .ok 2500000 :=
  ⟨rfl, rfl, rfl⟩

/-- C26: for `0 <= t < 2^31 * 10^6` the constructor arguments computed by
`toRosTime` are `t / 10^6` seconds and `(t mod 10^6) * 1000` nanoseconds, the
latter below 10^9; the result is the time point of exactly `t * 1000`
nanoseconds, and its time message has these seconds and nanoseconds. -/
theorem C26_toRosTime_value (t : Int) (h0 : 0 ≤ t) (h1 : t < 2147483648 * 1000000) :
    toInt32 (toUInt32 (t.tdiv 1000000)) = t / 1000000 ∧
    ((toUInt32 (t.tmod 1000000 * 1000) : Nat) : Int) = t % 1000000 * 1000 ∧
    t % 1000000 * 1000 < 1000000000 ∧
    toRosTime t = .ok { nanoseconds := t * 1000 } ∧
    (RosTime.toMsg { nanoseconds := t * 1000 }).sec = t / 1000000 ∧
    (((RosTime.toMsg { nanoseconds := t * 1000 }).nanosec : Nat) : Int) = t % 1000000 * 1000 := by
  have hq0 : 0 ≤ t / 1000000 := by omega
  have hq1 : t / 1000000 < 2147483648 := by omega
  refine ⟨?_, ?_, by omega, toRosTime_of_range t h0 h1, ?_, ?_⟩
  · rw [Int.tdiv_eq_ediv h0 (by decide)]
    exact toInt32_of_range _ hq0 hq1
  · rw [Int.tmod_eq_emod h0 (by decide)]
    exact toUInt32_of_range _ (by omega) (by omega)
  · unfold RosTime.toMsg
    simp only
    have : t * 1000 / 1000000000 = t / 1000000 := by omega
    rw [this]
    exact toInt32_of_range _ hq0 hq1
  · unfold RosTime.toMsg
    simp only
    rw [Int.toNat_of_nonneg (by omega)]
    omega

/-- C26 at `t = 1 500 000`. -/
theorem C26_toRosTime_value_witness :
    toRosTime 1500000 = .ok { nanoseconds := 1500000 * 1000 } :=
  (C26_toRosTime_value 1500000 (by decide) (by decide)).2.2.2.1

/-- C28 (code as written): for an event stamped `sec = 1, nanosec = 0` the
conversion computes the timestamp 1 000 000 while `toDvTime` of the stamp is
2 000 000, so the asserted equality is false; with assertions compiled in
`toEventStore` fails with the assertion text. -/
theorem C28_assertion_is_false_after_first_second :
    (RosTime.ofMsg { sec := 1, nanosec := 0 }).map toDvTime = .ok 2000000 ∧
    toEventStore false
        { stamp := ⟨1, 0⟩, events := [⟨3, 4, ⟨1, 0⟩, true⟩], width := 640, height := 480 }
      = .ok [⟨1000000, 3, 4, true⟩] ∧
    toEventStore true
        { stamp := ⟨1, 0⟩, events := [⟨3, 4, ⟨1, 0⟩, true⟩], width := 640, height := 480 }
      = .error "Timestamp conversion failed!" :=
  ⟨rfl, rfl, rfl⟩

/-- C29 (code as written): for the store holding one event at 1 500 000
microseconds the header stamp of the message is `sec = 0, nanosec = 1`, one
nanosecond, which converts back to 0 microseconds. -/
theorem C29_header_stamp_is_in_nanoseconds :
    (toRosEventsMessage [⟨1500000, 3, 4, true⟩] 640 480).map (fun m => m.stamp)
      = .ok { sec := 0, nanosec := 1 } ∧
    (RosTime.ofMsg { sec := 0, nanosec := 1 }).map toDvTime = .ok 0 ∧
    getHighestTime [⟨1500000, 3, 4, true⟩] = 1500000 :=
  ⟨rfl, rfl, rfl⟩

/-- C25 (code as written): the store holding one event at 1 500 000 microseconds
is converted to a message whose event is stamped `sec = 1, nanosec = 500000000`;
with assertions compiled in, converting this message back fails with the
assertion text instead of returning the event. -/
theorem C25_round_trip_stops_at_assertion :
    toRosEventsMessage [⟨1500000, 3, 4, true⟩] 640 480
      = .ok { stamp := ⟨0, 1⟩, events := [⟨3, 4, ⟨1, 500000000⟩, true⟩]
              width := 640, height := 480 } ∧
    (toRosEventsMessage [⟨1500000, 3, 4, true⟩] 640 480).bind (toEventStore true)
      = .error "Timestamp conversion failed!" :=
  ⟨rfl, rfl⟩
/-! Event conversion without the assertion -/

theorem toMsg_of_micros (t : Int) (h0 : 0 ≤ t) (h1 : t < 2147483648 * 1000000) :
    RosTime.toMsg { nanoseconds := t * 1000 } =
      { sec := t / 1000000, nanosec := (t % 1000000 * 1000).toNat } := by
  unfold RosTime.toMsg
  simp only
  have hq : t * 1000 / 1000000000 = t / 1000000 := by omega
  have hr : t * 1000 % 1000000000 = t % 1000000 * 1000 := by omega
  rw [hq, hr, toInt32_of_range _ (by omega) (by omega)]

theorem wholeSeconds_of_micros (t : Int) (h0 : 0 ≤ t) :
    RosTime.wholeSeconds { nanoseconds := t * 1000 } = t / 1000000 := by
  unfold RosTime.wholeSeconds
  simp only
  rw [Int.tdiv_eq_ediv (by omega) (by decide)]
  omega

theorem nextEventTime_of_sorted (t τ : Int) (h0 : 0 ≤ τ) (hle : τ ≤ t)
    (h1 : t < 2147483648 * 1000000) :
    nextEventTime t { nanoseconds := τ * 1000 } (τ / 1000000 * 1000000) =
      .ok ({ nanoseconds := t * 1000 }, t / 1000000 * 1000000) := by
  unfold nextEventTime
  by_cases hd : t - τ / 1000000 * 1000000 < 1000000
  · rw [if_pos hd]
    have hsame : t / 1000000 = τ / 1000000 := by omega
    have ht : RosTime.ofSecondsNanoseconds
        (toInt32 (toUInt32 (RosTime.wholeSeconds { nanoseconds := τ * 1000 })))
        (toUInt32 ((t - τ / 1000000 * 1000000) * 1000)) =
        .ok { nanoseconds := t * 1000 } := by
      rw [wholeSeconds_of_micros τ h0, toInt32_of_range _ (by omega) (by omega)]
      unfold RosTime.ofSecondsNanoseconds
      rw [if_neg (by omega)]
      have hn := toUInt32_of_range ((t - τ / 1000000 * 1000000) * 1000) (by omega) (by omega)
      rw [hn]
      congr 2
      omega
    rw [ht, hsame]
  · rw [if_neg hd, toRosTime_of_range t (by omega) h1]
    simp only
    rw [wholeSeconds_of_micros t (by omega)]

theorem convertEvents_of_sorted :
    ∀ (events : List Event) (τ : Int), 0 ≤ τ → τ < 2147483648 * 1000000 →
      events.Pairwise (fun a b => a.timestamp ≤ b.timestamp) →
      (∀ e ∈ events, τ ≤ e.timestamp ∧ e.timestamp < 2147483648 * 1000000) →
      convertEvents events { nanoseconds := τ * 1000 } (τ / 1000000 * 1000000) =
        .ok (events.map eventToMsg) := by
  intro events
  induction events with
  | nil => intro τ _ _ _ _; rfl
  | cons e rest ih =>
    intro τ h0 h1 hs hr
    have he := hr e (List.mem_cons_self _ _)
    have hs' := List.pairwise_cons.mp hs
    have hrest : ∀ x ∈ rest, e.timestamp ≤ x.timestamp ∧ x.timestamp < 2147483648 * 1000000 :=
      fun x hx => ⟨hs'.1 x hx, (hr x (List.mem_cons_of_mem _ hx)).2⟩
    have ih' := ih e.timestamp (by omega) he.2 hs'.2 hrest
    have hmsg := toMsg_of_micros e.timestamp (by omega) he.2
    unfold convertEvents
    rw [nextEventTime_of_sorted e.timestamp τ h0 he.1 he.2]
    simp only
    rw [ih']
    simp only [hmsg, List.map_cons, eventToMsg]

theorem unpackEvents_eventToMsg :
    ∀ (events : List Event) (seconds : Nat) (timestamp : Int),
      timestamp = (seconds : Int) * 1000000 →
      (∀ e ∈ events, 0 ≤ e.timestamp ∧ e.timestamp < 2147483648 * 1000000) →
      unpackEvents false (events.map eventToMsg) seconds timestamp = .ok events := by
  intro events
  induction events with
  | nil => intro _ _ _ _; rfl
  | cons e rest ih =>
    intro seconds timestamp hts hr
    have he := hr e (List.mem_cons_self _ _)
    have hrest : ∀ x ∈ rest, 0 ≤ x.timestamp ∧ x.timestamp < 2147483648 * 1000000 :=
      fun x hx => hr x (List.mem_cons_of_mem _ hx)
    have hsec : ((toUInt32 (e.timestamp / 1000000) : Nat) : Int) = e.timestamp / 1000000 :=
      toUInt32_of_range _ (by omega) (by omega)
    have hok : RosTime.ofMsg (eventToMsg e).ts =
        .ok { nanoseconds := e.timestamp / 1000000 * 1000000000 +
          ((e.timestamp % 1000000 * 1000).toNat : Int) } := by
      unfold RosTime.ofMsg RosTime.ofSecondsNanoseconds eventToMsg
      simp only
      rw [if_neg (by omega)]
    have hts1 : (if toUInt32 (eventToMsg e).ts.sec ≠ seconds then
          ((toUInt32 (eventToMsg e).ts.sec : Nat) : Int) * 1000000 else timestamp) =
        ((if toUInt32 (eventToMsg e).ts.sec ≠ seconds then toUInt32 (eventToMsg e).ts.sec
          else seconds : Nat) : Int) * 1000000 := by
      split
      · rfl
      · exact hts
    have hval : (if toUInt32 (eventToMsg e).ts.sec ≠ seconds then
          ((toUInt32 (eventToMsg e).ts.sec : Nat) : Int) * 1000000 else timestamp) +
        (((eventToMsg e).ts.nanosec / 1000 : Nat) : Int) = e.timestamp := by
      have hsec' : ((toUInt32 (eventToMsg e).ts.sec : Nat) : Int) = e.timestamp / 1000000 := hsec
      have hnano : (((eventToMsg e).ts.nanosec / 1000 : Nat) : Int) = e.timestamp % 1000000 := by
        show (((e.timestamp % 1000000 * 1000).toNat / 1000 : Nat) : Int) = _
        omega
      split
      · omega
      · rename_i hne
        have : toUInt32 (eventToMsg e).ts.sec = seconds := by
          by_contra hcon
          exact hne hcon
        omega
    rw [List.map_cons]
    unfold unpackEvents
    simp only [hok, Bool.false_and, Bool.false_eq_true, if_false]
    rw [ih _ _ hts1 hrest]
    simp only [hval]
    rfl

theorem toEventStore_map_eventToMsg (s : EventStore) (stamp : TimeMsg) (width height : Nat)
    (hr : ∀ e ∈ s, 0 ≤ e.timestamp ∧ e.timestamp < 2147483648 * 1000000) :
    toEventStore false
      { stamp := stamp, events := s.map eventToMsg, width := width, height := height } =
      .ok s := by
  cases s with
  | nil => rfl
  | cons e rest =>
    exact unpackEvents_eventToMsg (e :: rest) (toUInt32 (eventToMsg e).ts.sec)
      (((toUInt32 (eventToMsg e).ts.sec : Nat) : Int) * 1000000) (Eq.refl _) hr

theorem except_bind_ok {ε α β : Type} (a : α) (f : α → Except ε β) :
    Except.bind (Except.ok a) f = f a := rfl

theorem toRosEventsMessage_of_sorted (s : EventStore) (width height : Int)
    (hs : s.Pairwise (fun a b => a.timestamp ≤ b.timestamp))
    (hr : ∀ e ∈ s, 0 ≤ e.timestamp ∧ e.timestamp < 2147483648 * 1000000) :
    toRosEventsMessage s width height =
      .ok { stamp := RosTime.toMsg { nanoseconds := (getHighestTime s).tdiv 1000000 }
            events := s.map eventToMsg
            width := toUInt32 width, height := toUInt32 height } := by
  have hhigh : 0 ≤ getHighestTime s := by
    unfold getHighestTime
    cases hl : s.getLast? with
    | none => exact le_refl _
    | some l => exact (hr l (List.mem_of_getLast?_eq_some hl)).1
  have hstamp : RosTime.ofNanoseconds ((getHighestTime s).tdiv 1000000) =
      .ok { nanoseconds := (getHighestTime s).tdiv 1000000 } := by
    unfold RosTime.ofNanoseconds
    rw [if_neg]
    rw [Int.tdiv_eq_ediv hhigh (by decide)]
    omega
  have hlow0 : 0 ≤ getLowestTime s ∧ getLowestTime s < 2147483648 * 1000000 := by
    cases s with
    | nil => exact ⟨le_refl _, by decide⟩
    | cons e rest => exact hr e (List.mem_cons_self _ _)
  have hlow : ∀ x ∈ s, getLowestTime s ≤ x.timestamp ∧ x.timestamp < 2147483648 * 1000000 := by
    cases s with
    | nil => intro x hx; cases hx
    | cons e rest =>
      intro x hx
      have hs' := List.pairwise_cons.mp hs
      rcases List.mem_cons.mp hx with hx | hx
      · subst hx; exact ⟨le_refl _, (hr x (List.mem_cons_self _ _)).2⟩
      · exact ⟨hs'.1 x hx, (hr x (List.mem_cons_of_mem _ hx)).2⟩
  have hconv := convertEvents_of_sorted s (getLowestTime s) hlow0.1 hlow0.2 hs hlow
  unfold toRosEventsMessage
  rw [toRosTime_of_range (getLowestTime s) hlow0.1 hlow0.2, hstamp]
  simp only [except_bind_ok]
  rw [wholeSeconds_of_micros (getLowestTime s) hlow0.1, hconv]
  simp only [except_bind_ok]

/-- With the assertion compiled out, a timestamp-ordered event store with
timestamps in `[0, 2^31 * 10^6)` is converted to a message of the given width
and height (cast to 32 bits), and `toEventStore` gives the store back. -/
theorem toEventStore_toRosEventsMessage (s : EventStore) (width height : Int)
    (hs : s.Pairwise (fun a b => a.timestamp ≤ b.timestamp))
    (hr : ∀ e ∈ s, 0 ≤ e.timestamp ∧ e.timestamp < 2147483648 * 1000000) :
    (toRosEventsMessage s width height).bind (toEventStore false) = .ok s ∧
    (toRosEventsMessage s width height).map (fun m => (m.width, m.height)) =
      .ok (toUInt32 width, toUInt32 height) := by
  rw [toRosEventsMessage_of_sorted s width height hs hr, except_bind_ok]
  exact ⟨toEventStore_map_eventToMsg s _ _ _ hr, rfl⟩

/-! Seek position -/

/-- C27 (code as written): with a subscriber and an IMU time offset of 5, handling
the IMU batch whose last source timestamp is 10 sets the seek position to 15
(without a subscriber to 10); with a noise filter that drops the whole batch,
handling the event batch whose last timestamp is 10 sets it to 0. -/
theorem C27_seek_is_not_the_source_timestamp :
    (imuPublisher 5 (fun _ => true) [10]
        (Publisher.init [some [(⟨10, 0, 0, 0, 0, 0, 0⟩ : IMU Int)]] ())).currentSeek = 15 ∧
    (imuPublisher 5 (fun _ => false) [10]
        (Publisher.init [some [(⟨10, 0, 0, 0, 0, 0, 0⟩ : IMU Int)]] ())).currentSeek = 10 ∧
    (eventsPublisher (some (fun (_ : Unit) (_ : EventStore) => (([] : EventStore), ())))
        (fun _ => true) [10] (Publisher.init [some [⟨10, 0, 0, true⟩]] ())).currentSeek = 0 := by
  refine ⟨by decide, by decide, by decide⟩

/-! Bounded clock run -/

theorem tickCount_spec (start endTime inc : Int) (hlt : start < endTime) (hinc : 1 ≤ inc) :
    1 ≤ tickCount start endTime inc ∧
    start + ((tickCount start endTime inc : Nat) : Int) * inc ≥ endTime ∧
    ∀ k : Nat, k < tickCount start endTime inc → start + (k : Int) * inc < endTime := by
  have hpos : 0 < inc := by omega
  have hq1 := Int.ediv_mul_le (endTime - start + inc - 1) (Int.ne_of_gt hpos)
  have hq2 := Int.lt_ediv_add_one_mul_self (endTime - start + inc - 1) hpos
  have hq0 : 1 ≤ (endTime - start + inc - 1) / inc := by
    by_contra hcon
    have : (endTime - start + inc - 1) / inc + 1 ≤ 1 := by omega
    have := Int.mul_le_mul_of_nonneg_right this (Int.le_of_lt hpos)
    omega
  have hn : ((tickCount start endTime inc : Nat) : Int) = (endTime - start + inc - 1) / inc := by
    unfold tickCount
    exact Int.toNat_of_nonneg (by omega)
  refine ⟨by omega, ?_, ?_⟩
  · rw [hn]
    nlinarith
  · intro k hk
    have hk' : (k : Int) + 1 ≤ (endTime - start + inc - 1) / inc := by omega
    have := Int.mul_le_mul_of_nonneg_right hk' (Int.le_of_lt hpos)
    nlinarith

theorem clockRun_of_stopped (p : Params) (inputs : List TickInput) (s : ClockState)
    (h : s.spin = false) : clockRun p inputs s = s := by
  cases inputs with
  | nil => rfl
  | cons i rest => simp [clockRun, h]

theorem clockTick_clockAfter (p : Params) (start endTime inc : Int) (k : Nat)
    (hinc : 1 ≤ inc) (hlo : INT64_MIN ≤ start) (hhi : endTime + inc ≤ INT64_MAX)
    (hk : start + (k : Int) * inc < endTime) :
    clockTick p ⟨true, true⟩ (clockAfter p start endTime inc k)
      = clockAfter p start endTime inc (k + 1) := by
  have hk0 : (0 : Int) ≤ (k : Int) * inc := mul_nonneg (Int.ofNat_nonneg k) (by omega)
  have hfit : fitsInt64 (start + (k : Int) * inc + inc) := ⟨by omega, by omega⟩
  have hnext : start + (k : Int) * inc + inc = start + ((k + 1 : Nat) : Int) * inc := by
    push_cast
    ring
  unfold clockTick clockAfter DeliveryQueue.push
  simp only [if_true, wrapInt64_of_fits _ hfit, Bool.not_true, Bool.or_false]
  rw [hnext]
  by_cases hend : start + ((k + 1 : Nat) : Int) * inc ≥ endTime
  · have hd : decide (start + ((k + 1 : Nat) : Int) * inc ≥ endTime) = true := by simpa using hend
    have hs : decide (k + 1 = 0 ∨ start + ((k + 1 : Nat) : Int) * inc < endTime) = false := by
      simp only [decide_eq_false_iff_not, not_or, not_lt]
      exact ⟨by omega, hend⟩
    simp only [hd, if_true, hs]
    cases p.frames <;> cases p.events <;> cases p.triggers <;> cases p.imu <;>
      simp [horizonRamp_succ]
  · have hd : decide (start + ((k + 1 : Nat) : Int) * inc ≥ endTime) = false := by simpa using hend
    have hs : decide (k + 1 = 0 ∨ start + ((k + 1 : Nat) : Int) * inc < endTime) = true := by
      simp only [decide_eq_true_eq]
      right
      omega
    have hs0 : decide (k = 0 ∨ start + (k : Int) * inc < endTime) = true := by
      simp only [decide_eq_true_eq]
      right
      exact hk
    simp only [hd, Bool.false_eq_true, if_false, hs, hs0]
    cases p.frames <;> cases p.events <;> cases p.triggers <;> cases p.imu <;>
      simp [horizonRamp_succ]

theorem clockRun_append (p : Params) :
    ∀ (a b : List TickInput) (s : ClockState),
      clockRun p (a ++ b) s = clockRun p b (clockRun p a s) := by
  intro a
  induction a with
  | nil => intro b s; rfl
  | cons i rest ih =>
    intro b s
    cases hs : s.spin with
    | true => simp [clockRun, hs, ih]
    | false =>
      rw [List.cons_append, clockRun_of_stopped p _ s hs, clockRun_of_stopped p _ s hs,
        clockRun_of_stopped p _ s hs]

theorem clockRun_clockAfter (p : Params) (start endTime inc : Int)
    (hinc : 1 ≤ inc) (hlo : INT64_MIN ≤ start) (hhi : endTime + inc ≤ INT64_MAX) :
    ∀ (j k : Nat), (∀ k' : Nat, k ≤ k' → k' < k + j → start + (k' : Int) * inc < endTime) →
      clockRun p (List.replicate j ⟨true, true⟩) (clockAfter p start endTime inc k)
        = clockAfter p start endTime inc (k + j) := by
  intro j
  induction j with
  | zero => intro k _; rfl
  | succ j ih =>
    intro k hk
    have hk0 := hk k (le_refl k) (by omega)
    have hspin : (clockAfter p start endTime inc k).spin = true := by
      simp only [clockAfter, decide_eq_true_eq]
      exact Or.inr hk0
    rw [List.replicate_succ, clockRun, if_pos hspin,
      clockTick_clockAfter p start endTime inc k hinc hlo hhi hk0,
      ih (k + 1) (fun k' h1 h2 => hk k' (by omega) (by omega))]
    congr 1
    omega

theorem clockInit_eq_clockAfter (p : Params) (start endTime inc : Int) (h : start ≠ -1) :
    clockInit start endTime inc = clockAfter p start endTime inc 0 := by
  unfold clockInit clockAfter
  rw [if_neg h]
  simp [horizonRamp]

/-- C30 (as stated, refuted): with start `2^63 - 6`, end `2^63 - 1` and increment 10
one horizon lies between start and end, but after the first push the 64-bit sum
wraps around to a value below `end`: three synchronized ticks push three
horizons and the run-flag is still set. -/
theorem C30_bounded_run_wraps_around :
    tickCount 9223372036854775802 9223372036854775807 10 = 1 ∧
    (clockRun ⟨true, false, false, false⟩ [⟨true, true⟩, ⟨true, true⟩, ⟨true, true⟩]
        (clockInit 9223372036854775802 9223372036854775807 10)).frameQueue
      = [9223372036854775802, -9223372036854775804, -9223372036854775794] ∧
    (clockRun ⟨true, false, false, false⟩ [⟨true, true⟩, ⟨true, true⟩, ⟨true, true⟩]
        (clockInit 9223372036854775802 9223372036854775807 10)).spin = true := by
  decide

/-- C30 (amended): in bounded mode with `start < end`, an increment of at least 1
and `end + increment` not above the largest 64-bit value, under ticks that are
all synchronized with the source connected, the clock pushes exactly
`n = ceil ((end - start) / inc)` horizons to each enabled queue, namely
`start + k * inc` for `k < n`, all of them below `end`; the run-flag is still
set after fewer than `n` ticks and is cleared by the `n`-th tick, after which
nothing is pushed. -/
theorem C30_bounded_run (p : Params) (inputs : List TickInput) (start endTime inc : Int)
    (hmode : start ≠ -1) (hlt : start < endTime) (hinc : 1 ≤ inc)
    (hlo : INT64_MIN ≤ start) (hhi : endTime + inc ≤ INT64_MAX)
    (hall : ∀ i ∈ inputs, i = ⟨true, true⟩)
    (hlen : tickCount start endTime inc ≤ inputs.length) :
    (clockRun p inputs (clockInit start endTime inc)).spin = false ∧
    (clockRun p inputs (clockInit start endTime inc)).frameQueue
      = (if p.frames then horizonRamp start inc (tickCount start endTime inc) else []) ∧
    (clockRun p inputs (clockInit start endTime inc)).eventsQueue
      = (if p.events then horizonRamp start inc (tickCount start endTime inc) else []) ∧
    (clockRun p inputs (clockInit start endTime inc)).triggerQueue
      = (if p.triggers then horizonRamp start inc (tickCount start endTime inc) else []) ∧
    (clockRun p inputs (clockInit start endTime inc)).imuQueue
      = (if p.imu then horizonRamp start inc (tickCount start endTime inc) else []) ∧
    (horizonRamp start inc (tickCount start endTime inc)).length = tickCount start endTime inc ∧
    (∀ h ∈ horizonRamp start inc (tickCount start endTime inc), h < endTime) ∧
    (((tickCount start endTime inc : Nat) : Int) - 1) * inc < endTime - start ∧
    endTime - start ≤ ((tickCount start endTime inc : Nat) : Int) * inc ∧
    (∀ k : Nat, k < tickCount start endTime inc →
      (clockRun p (List.replicate k ⟨true, true⟩) (clockInit start endTime inc)).spin = true) := by
  obtain ⟨hn1, hge, hbelow⟩ := tickCount_spec start endTime inc hlt hinc
  have hrun : ∀ k : Nat, k ≤ tickCount start endTime inc →
      clockRun p (List.replicate k ⟨true, true⟩) (clockInit start endTime inc)
        = clockAfter p start endTime inc k := by
    intro k hk
    rw [clockInit_eq_clockAfter p start endTime inc hmode,
      clockRun_clockAfter p start endTime inc hinc hlo hhi k 0
        (fun k' _ h2 => hbelow k' (by omega))]
    congr 1
    omega
  have hsplit : inputs = List.replicate (tickCount start endTime inc) ⟨true, true⟩
      ++ List.replicate (inputs.length - tickCount start endTime inc) ⟨true, true⟩ := by
    rw [← List.replicate_add, List.eq_replicate_iff]
    exact ⟨by omega, hall⟩
  have hstop : (clockAfter p start endTime inc (tickCount start endTime inc)).spin = false := by
    simp only [clockAfter, decide_eq_false_iff_not, not_or, not_lt]
    exact ⟨by omega, hge⟩
  have hfinal : clockRun p inputs (clockInit start endTime inc)
      = clockAfter p start endTime inc (tickCount start endTime inc) := by
    rw [hsplit, clockRun_append, hrun _ (le_refl _), clockRun_of_stopped p _ _ hstop]
  rw [hfinal]
  refine ⟨hstop, rfl, rfl, rfl, rfl, by simp [horizonRamp], ?_, ?_, ?_, ?_⟩
  · intro h hh
    simp only [horizonRamp, List.mem_map, List.mem_range] at hh
    obtain ⟨k, hk, rfl⟩ := hh
    exact hbelow k hk
  · have := hbelow (tickCount start endTime inc - 1) (by omega)
    have hc : ((tickCount start endTime inc - 1 : Nat) : Int)
        = ((tickCount start endTime inc : Nat) : Int) - 1 := by omega
    rw [hc] at this
    omega
  · omega
  · intro k hk
    rw [hrun k (by omega)]
    simp only [clockAfter, decide_eq_true_eq]
    exact Or.inr (hbelow k hk)

/-- C30 for a recording from 100 to 125 with the increment 10: three horizons. -/
theorem C30_bounded_run_witness :
    (clockRun ⟨true, false, false, true⟩
        [⟨true, true⟩, ⟨true, true⟩, ⟨true, true⟩, ⟨true, true⟩]
        (clockInit 100 125 10)).frameQueue
      = (if (⟨true, false, false, true⟩ : Params).frames then
           horizonRamp 100 10 (tickCount 100 125 10) else []) :=
  (C30_bounded_run ⟨true, false, false, true⟩
    [⟨true, true⟩, ⟨true, true⟩, ⟨true, true⟩, ⟨true, true⟩] 100 125 10
    (by decide) (by decide) (by decide) (by decide) (by decide) (by decide) (by decide)).2.1

/-! Idempotence of the calibration update -/

theorem replaceFirst_idem {α : Type} (p : α → Bool) (new : α) (hnew : p new = true) :
    ∀ l : List α, replaceFirst p new (replaceFirst p new l) = replaceFirst p new l := by
  intro l
  induction l with
  | nil => rfl
  | cons a rest ih =>
    by_cases hp : p a = true
    · simp [replaceFirst, hp, hnew]
    · simp [replaceFirst, hp, ih]

theorem replaceFirst_append_new {α : Type} (p : α → Bool) (new : α) (hnew : p new = true) :
    ∀ l : List α, l.find? p = none → replaceFirst p new (l ++ [new]) = l ++ [new] := by
  intro l
  induction l with
  | nil => intro _; simp [replaceFirst, hnew]
  | cons a rest ih =>
    intro h
    by_cases hp : p a = true
    · simp [List.find?, hp] at h
    · rw [List.find?_cons_of_neg _ hp] at h
      simp [replaceFirst, hp, ih h]

theorem find?_upsert {α : Type} (p : α → Bool) (new : α) (hnew : p new = true) (add : Bool)
    (l : List α) (h : (l.find? p).isSome = true ∨ add = true) :
    (upsert p new add l).find? p = some new := by
  unfold upsert
  cases hf : l.find? p with
  | some old => simpa using find?_replaceFirst p new hnew l old hf
  | none =>
    have hadd : add = true := by
      rcases h with h | h
      · simp [hf] at h
      · exact h
    simpa [hadd] using find?_append_new p new hnew l hf

theorem upsert_of_none {α : Type} (p : α → Bool) (new : α) (l : List α)
    (h : l.find? p = none) : upsert p new false l = l := by
  simp [upsert, h]

theorem upsert_of_some {α : Type} (p : α → Bool) (new : α) (add : Bool) (l : List α) (old : α)
    (h : l.find? p = some old) : upsert p new add l = replaceFirst p new l := by
  simp [upsert, h]

theorem upsert_idem {α : Type} (p : α → Bool) (new : α) (hnew : p new = true) (add : Bool)
    (l : List α) : upsert p new add (upsert p new add l) = upsert p new add l := by
  by_cases h : (l.find? p).isSome = true ∨ add = true
  · have hf := find?_upsert p new hnew add l h
    rw [upsert_of_some p new add _ new hf]
    unfold upsert
    cases hl : l.find? p with
    | some old => simpa using replaceFirst_idem p new hnew l
    | none =>
      have hadd : add = true := by
        rcases h with h | h
        · simp [hl] at h
        · exact h
      simpa [hadd] using replaceFirst_append_new p new hnew l hl
  · have hl : l.find? p = none := by
      cases hl : l.find? p with
      | none => rfl
      | some old => exact absurd (Or.inl (by simp [hl])) h
    have hadd : add = false := by
      cases add with
      | false => rfl
      | true => exact absurd (Or.inr rfl) h
    subst hadd
    rw [upsert_of_none p new l hl, upsert_of_none p new l hl]

theorem cameraCalibrationFromInfo_eq {F D : Type} (sdk : Sdk F D) (n : CalibState F D)
    (model : DistortionModel) :
    cameraCalibrationFromInfo sdk n model =
      { name := n.cameraName
        resolutionWidth := toInt32 n.cameraInfoMsg.width
        resolutionHeight := toInt32 n.cameraInfoMsg.height
        distortion := n.cameraInfoMsg.d.map sdk.narrow
        distortionModel := model
        focalLength := (sdk.narrow (n.cameraInfoMsg.k.getD 0 sdk.zeroD),
                        sdk.narrow (n.cameraInfoMsg.k.getD 4 sdk.zeroD))
        principalPoint := (sdk.narrow (n.cameraInfoMsg.k.getD 2 sdk.zeroD),
                           sdk.narrow (n.cameraInfoMsg.k.getD 5 sdk.zeroD))
        transformationToC0 :=
          [sdk.oneF, sdk.zeroF, sdk.zeroF, sdk.zeroF, sdk.zeroF, sdk.oneF, sdk.zeroF, sdk.zeroF,
           sdk.zeroF, sdk.zeroF, sdk.oneF, sdk.zeroF, sdk.zeroF, sdk.zeroF, sdk.zeroF,
           sdk.oneF] } := by
  unfold cameraCalibrationFromInfo CalibrationSet.getCameraCalibrationByName
  cases h : n.calibration.cameras.find? (fun e => e.name == n.cameraName) with
  | none => rfl
  | some c =>
    have hc := List.find?_some h
    have hname : c.name = n.cameraName := by simpa using hc
    simp [hname]

theorem imuCalibrationFromNode_eq_overwrite {F D : Type} (sdk : Sdk F D) (n : CalibState F D) :
    imuCalibrationFromNode sdk n = imuOverwrite sdk n (imuCalibrationBase sdk n) := rfl

theorem imuOverwrite_idem {F D : Type} (sdk : Sdk F D) (n : CalibState F D)
    (c : IMUCalibration F) :
    imuOverwrite sdk n (imuOverwrite sdk n c) = imuOverwrite sdk n c := by
  unfold imuOverwrite
  simp only
  split_ifs <;> rfl

theorem updatedCalibration_eq {F D : Type} (sdk : Sdk F D) (n : CalibState F D)
    (model : DistortionModel) :
    updatedCalibration sdk n model =
      { cameras := upsert (fun e => e.name == n.cameraName)
          (cameraCalibrationFromInfo sdk n model) true n.calibration.cameras
        imus := upsert (fun e => e.name == n.cameraName)
          (imuCalibrationFromNode sdk n) (imuHasValues sdk n) n.calibration.imus } := by
  have hc := cameraCalibrationFromInfo_eq sdk n model
  have hcn : (cameraCalibrationFromInfo sdk n model).name = n.cameraName := by rw [hc]
  have hin := imuCalibrationFromNode_name sdk n
  unfold updatedCalibration upsert CalibrationSet.getCameraCalibrationByName
    CalibrationSet.getImuCalibrationByName CalibrationSet.updateCameraCalibration
    CalibrationSet.addCameraCalibration CalibrationSet.updateImuCalibration
    CalibrationSet.addImuCalibration
  simp only [hcn, hin]
  cases n.calibration with
  | mk cameras imus =>
    simp only
    split_ifs <;> simp_all
theorem imuCalibrationBase_updated {F D : Type} (sdk : Sdk F D) (n : CalibState F D)
    (model : DistortionModel) :
    imuOverwrite sdk n
        (imuCalibrationBase sdk { n with calibration := updatedCalibration sdk n model }) =
      imuCalibrationFromNode sdk n := by
  have hin := imuCalibrationFromNode_name sdk n
  have hp : (fun (e : IMUCalibration F) => e.name == n.cameraName)
      (imuCalibrationFromNode sdk n) = true := by simp [hin]
  unfold imuCalibrationBase CalibrationSet.getImuCalibrationByName
  simp only [updatedCalibration_eq]
  by_cases h : (n.calibration.imus.find? (fun e => e.name == n.cameraName)).isSome = true ∨
      imuHasValues sdk n = true
  · rw [find?_upsert (fun (e : IMUCalibration F) => e.name == n.cameraName) _ hp _ _ h]
    simp only
    rw [imuCalibrationFromNode_eq_overwrite, imuOverwrite_idem]
  · have hl : n.calibration.imus.find? (fun e => e.name == n.cameraName) = none := by
      cases hl : n.calibration.imus.find? (fun e => e.name == n.cameraName) with
      | none => rfl
      | some old => exact absurd (Or.inl (by simp [hl])) h
    have hadd : imuHasValues sdk n = false := by
      cases hv : imuHasValues sdk n with
      | false => rfl
      | true => exact absurd (Or.inr hv) h
    rw [hadd, upsert_of_none _ _ _ hl, hl]
    simp only
    rw [imuCalibrationFromNode_eq_overwrite]
    unfold imuCalibrationBase CalibrationSet.getImuCalibrationByName
    rw [hl]

theorem updatedCalibration_idem {F D : Type} (sdk : Sdk F D) (n : CalibState F D)
    (model : DistortionModel) :
    updatedCalibration sdk { n with calibration := updatedCalibration sdk n model } model =
      updatedCalibration sdk n model := by
  have hcam : cameraCalibrationFromInfo sdk
      { n with calibration := updatedCalibration sdk n model } model =
      cameraCalibrationFromInfo sdk n model := by
    rw [cameraCalibrationFromInfo_eq, cameraCalibrationFromInfo_eq]
  have himu : imuCalibrationFromNode sdk
      { n with calibration := updatedCalibration sdk n model } =
      imuCalibrationFromNode sdk n := by
    rw [imuCalibrationFromNode_eq_overwrite]
    exact imuCalibrationBase_updated sdk n model
  have hcp : (fun (e : CameraCalibration F) => e.name == n.cameraName)
      (cameraCalibrationFromInfo sdk n model) = true := by
    rw [cameraCalibrationFromInfo_eq]; simp
  have hip : (fun (e : IMUCalibration F) => e.name == n.cameraName)
      (imuCalibrationFromNode sdk n) = true := by
    simp [imuCalibrationFromNode_name sdk n]
  rw [updatedCalibration_eq sdk { n with calibration := updatedCalibration sdk n model } model,
    hcam, himu]
  have hv : imuHasValues sdk { n with calibration := updatedCalibration sdk n model } =
      imuHasValues sdk n := rfl
  rw [hv]
  simp only
  rw [updatedCalibration_eq sdk n model]
  simp only
  rw [upsert_idem (fun (e : CameraCalibration F) => e.name == n.cameraName) _ hcp,
    upsert_idem (fun (e : IMUCalibration F) => e.name == n.cameraName) _ hip]

/-- C22: whenever `updateCalibrationSet` succeeds, running it again on the node it
left behind (same camera-info message, IMU transform, bias vectors and time
offset) succeeds as well and leaves the node, and with it the calibration set
that `saveCalibration` writes, exactly as after the first run. -/
theorem C22_update_idempotent {F D : Type} (sdk : Sdk F D) (n : CalibState F D)
    (h : (updateCalibrationSet sdk n).2 = .ok ()) :
    updateCalibrationSet sdk (updateCalibrationSet sdk n).1 =
      ((updateCalibrationSet sdk n).1, .ok ()) := by
  unfold updateCalibrationSet at h ⊢
  cases hm : distortionModelOfName n.cameraInfoMsg.distortion_model with
  | none => rw [hm] at h; simp at h
  | some model =>
    simp only [hm]
    rw [updatedCalibration_idem]

theorem C22_update_idempotent_witness :
    updateCalibrationSet intSdk (updateCalibrationSet intSdk sampleState).1 =
      ((updateCalibrationSet intSdk sampleState).1, .ok ()) :=
  C22_update_idempotent intSdk sampleState rfl
/-! Round trip of the camera calibration -/

theorem map_narrow_padToFive {F D : Type} (sdk : Sdk F D)
    (hexact : ∀ x, sdk.narrow (sdk.widen x) = x) (hzero : sdk.narrow sdk.zeroD = sdk.zeroF)
    (l : List F) :
    (padToFive sdk.zeroD (l.map sdk.widen)).map sdk.narrow = padToFive sdk.zeroF l := by
  have hmap : (l.map sdk.widen).map sdk.narrow = l := by
    rw [List.map_map]
    conv_rhs => rw [← List.map_id l]
    exact List.map_congr_left (fun x _ => hexact x)
  unfold padToFive
  rw [List.length_map]
  split
  · rw [List.map_append, hmap, List.map_replicate, hzero]
  · exact hmap

theorem updatedCalibration_camera {F D : Type} (sdk : Sdk F D) (n : CalibState F D)
    (model : DistortionModel) :
    (updatedCalibration sdk n model).getCameraCalibrationByName n.cameraName =
      some (cameraCalibrationFromInfo sdk n model) := by
  have hcp : (fun (e : CameraCalibration F) => e.name == n.cameraName)
      (cameraCalibrationFromInfo sdk n model) = true := by
    rw [cameraCalibrationFromInfo_eq]; simp
  unfold CalibrationSet.getCameraCalibrationByName
  rw [updatedCalibration_eq]
  exact find?_upsert (fun (e : CameraCalibration F) => e.name == n.cameraName) _ hcp true _
    (Or.inr rfl)

/-- C21 (as stated, refuted): a camera calibration whose transform to camera 0 has
translation 5 comes back with the identity transform; one with four radial-tangential
coefficients comes back with five; one without distortion comes back as
radial-tangential with five zero coefficients. -/
theorem C21_round_trip_changes_calibration :
    (cameraRoundTrip intSdk sampleState
        (getCameraGeometry
          { name := "camA", resolutionWidth := 640, resolutionHeight := 480
            distortion := [0, 0, 0, 0, 0], distortionModel := .RadTan
            focalLength := (640, 640), principalPoint := (320, 240)
            transformationToC0 := [1, 0, 0, 5, 0, 1, 0, 0, 0, 0, 1, 0, 0, 0, 0, 1] })).map
      (fun e => e.transformationToC0) =
        some [1, 0, 0, 0, 0, 1, 0, 0, 0, 0, 1, 0, 0, 0, 0, 1] ∧
    (cameraRoundTrip intSdk sampleState
        (getCameraGeometry
          { name := "camA", resolutionWidth := 640, resolutionHeight := 480
            distortion := [1, 2, 3, 4], distortionModel := .RadTan
            focalLength := (640, 640), principalPoint := (320, 240)
            transformationToC0 := [1, 0, 0, 0, 0, 1, 0, 0, 0, 0, 1, 0, 0, 0, 0, 1] })).map
      (fun e => e.distortion) = some [1, 2, 3, 4, 0] ∧
    (cameraRoundTrip intSdk sampleState
        (getCameraGeometry
          { name := "camA", resolutionWidth := 640, resolutionHeight := 480
            distortion := [], distortionModel := .None
            focalLength := (640, 640), principalPoint := (320, 240)
            transformationToC0 := [1, 0, 0, 0, 0, 1, 0, 0, 0, 0, 1, 0, 0, 0, 0, 1] })).map
      (fun e => (e.distortionModel, e.distortion)) =
        some (DistortionModel.RadTan, [0, 0, 0, 0, 0]) := by
  refine ⟨by decide, by decide, by decide⟩

/-- C21 (amended): if narrowing a widened `float` gives the value back and the
`double` zero narrows to the `float` zero, then for every camera calibration `c`
whose distortion model `populateInfoMsg` accepts, converting its geometry to the
camera-info message and back with `updateCalibrationSet` succeeds and yields the
entry with the camera name of the node, the same focal length and the same
principal point, the identity as transform to camera 0, and the resolution cast
to 32 bits; an equidistant calibration keeps its model and coefficients, a
radial-tangential one keeps its model and has its coefficients padded with zeros
to five, and one without distortion becomes radial-tangential with five zeros. -/
theorem C21_round_trip {F D : Type} (sdk : Sdk F D) (n : CalibState F D)
    (c : CameraCalibration F)
    (hexact : ∀ x, sdk.narrow (sdk.widen x) = x) (hzero : sdk.narrow sdk.zeroD = sdk.zeroF)
    (hacc : (populateInfoMsg sdk n.cameraInfoMsg (getCameraGeometry c)).2 = .ok ()) :
    cameraRoundTrip sdk n (getCameraGeometry c) =
      some { name := n.cameraName
             resolutionWidth := toInt32 (toUInt32 c.resolutionWidth)
             resolutionHeight := toInt32 (toUInt32 c.resolutionHeight)
             distortion :=
               match c.distortionModel with
               | .Equidistant => c.distortion
               | .RadTan => padToFive sdk.zeroF c.distortion
               | _ => List.replicate 5 sdk.zeroF
             distortionModel :=
               match c.distortionModel with
               | .Equidistant => .Equidistant
               | _ => .RadTan
             focalLength := c.focalLength
             principalPoint := c.principalPoint
             transformationToC0 :=
               [sdk.oneF, sdk.zeroF, sdk.zeroF, sdk.zeroF, sdk.zeroF, sdk.oneF, sdk.zeroF,
                sdk.zeroF, sdk.zeroF, sdk.zeroF, sdk.oneF, sdk.zeroF, sdk.zeroF, sdk.zeroF,
                sdk.zeroF, sdk.oneF] } := by
  have hpb : distortionModelOfName PLUMB_BOB = some .RadTan := by decide
  have heq : distortionModelOfName EQUIDISTANT = some .Equidistant := by decide
  have hmap : (c.distortion.map sdk.widen).map sdk.narrow = c.distortion := by
    rw [List.map_map]
    conv_rhs => rw [← List.map_id c.distortion]
    exact List.map_congr_left (fun x _ => hexact x)
  have hpad := map_narrow_padToFive sdk hexact hzero c.distortion
  have hfl : (c.focalLength.1, c.focalLength.2) = c.focalLength := rfl
  have hpp : (c.principalPoint.1, c.principalPoint.2) = c.principalPoint := rfl
  cases hm : c.distortionModel with
  | other code =>
    simp [populateInfoMsg, getCameraGeometry, hm] at hacc
  | Equidistant =>
    simp only [cameraRoundTrip, populateInfoMsg, getCameraGeometry, hm, updateCalibrationSet, heq,
      updatedCalibration_camera, cameraCalibrationFromInfo_eq]
    simp [hexact, hmap, hfl, hpp]
  | RadTan =>
    simp only [cameraRoundTrip, populateInfoMsg, getCameraGeometry, hm, updateCalibrationSet, hpb,
      updatedCalibration_camera, cameraCalibrationFromInfo_eq]
    simp [hexact, hpad, hfl, hpp]
  | None =>
    simp only [cameraRoundTrip, populateInfoMsg, getCameraGeometry, hm, updateCalibrationSet, hpb,
      updatedCalibration_camera, cameraCalibrationFromInfo_eq]
    simp [hexact, hzero, hfl, hpp, List.replicate]

theorem C21_round_trip_witness :
    cameraRoundTrip intSdk sampleState
        (getCameraGeometry
          { name := "other", resolutionWidth := 346, resolutionHeight := 260
            distortion := [1, 2, 3, 4], distortionModel := .Equidistant
            focalLength := (300, 301), principalPoint := (173, 130)
            transformationToC0 := [1, 0, 0, 0, 0, 1, 0, 0, 0, 0, 1, 0, 0, 0, 0, 1] }) =
      some { name := "camA", resolutionWidth := 346, resolutionHeight := 260
             distortion := [1, 2, 3, 4], distortionModel := .Equidistant
             focalLength := (300, 301), principalPoint := (173, 130)
             transformationToC0 := [1, 0, 0, 0, 0, 1, 0, 0, 0, 0, 1, 0, 0, 0, 0, 1] } :=
  C21_round_trip intSdk sampleState
    { name := "other", resolutionWidth := 346, resolutionHeight := 260
      distortion := [1, 2, 3, 4], distortionModel := .Equidistant
      focalLength := (300, 301), principalPoint := (173, 130)
      transformationToC0 := [1, 0, 0, 0, 0, 1, 0, 0, 0, 0, 1, 0, 0, 0, 0, 1] }
    (fun _ => rfl) rfl rfl

/-! Calibration loaded at start-up -/

/-- C23 (code as written): the node starts with IMU time offset 0 and an active
calibration whose IMU entry for this camera has time offset 500 and
accelerometer bias `(1, 0, 0)`. After the constructor has loaded it, the node
holds the bias of the entry but still the time offset 0, so `imuPublisher`
leaves the timestamp 10 of a sample at 10. -/
theorem C23_time_offset_is_not_loaded (translationOf : Transformationf Int → Vec3 Int)
    (rotationOf : Transformationf Int → Quaternion Int) :
    (sampleState.calibration.getImuCalibrationByName "camA").map
      (fun e => (e.timeOffsetMicros, e.accOffsetAvg)) = some (500, ⟨1, 0, 0⟩) ∧
    (loadCalibration intSdk translationOf rotationOf
      { sampleState with imuTimeOffset := 0, accBiases := ⟨0, 0, 0⟩ }
      sampleState.calibration).2 = .ok () ∧
    (loadCalibration intSdk translationOf rotationOf
      { sampleState with imuTimeOffset := 0, accBiases := ⟨0, 0, 0⟩ }
      sampleState.calibration).1.accBiases = ⟨1, 0, 0⟩ ∧
    (loadCalibration intSdk translationOf rotationOf
      { sampleState with imuTimeOffset := 0, accBiases := ⟨0, 0, 0⟩ }
      sampleState.calibration).1.imuTimeOffset = 0 ∧
    (imuPublisher
      (loadCalibration intSdk translationOf rotationOf
        { sampleState with imuTimeOffset := 0, accBiases := ⟨0, 0, 0⟩ }
        sampleState.calibration).1.imuTimeOffset
      (fun _ => true) [10]
      (Publisher.init [some [(⟨10, 0, 0, 0, 0, 0, 0⟩ : IMU Int)]] ())).published =
        [⟨10, 0, 0, 0, 0, 0, 0⟩] := by
  refine ⟨by decide, rfl, rfl, rfl, ?_⟩
  have h : (loadCalibration intSdk translationOf rotationOf
      { sampleState with imuTimeOffset := 0, accBiases := ⟨0, 0, 0⟩ }
      sampleState.calibration).1.imuTimeOffset = 0 := rfl
  rw [h]
  decide

theorem loadCalibration_imuTimeOffset {F D : Type} (sdk : Sdk F D)
    (translationOf : Transformationf F → Vec3 D) (rotationOf : Transformationf F → Quaternion D)
    (n : CalibState F D) (loaded : CalibrationSet F) :
    (loadCalibration sdk translationOf rotationOf n loaded).1.imuTimeOffset = n.imuTimeOffset := by
  unfold loadCalibration
  cases loaded.getImuCalibrationByName n.cameraName <;>
    cases loaded.getCameraCalibrationByName n.cameraName <;> rfl

end DvRos2
